import Mathlib

/-!
# spaint: the flat forest of `GPUForest.cpp`

A shallow embedding of `modules/spaint/src/randomforest/interface/GPUForest.cpp`
(construction from a trained ensemble, persistence, the update scheduler), of
the sampling grid of `RGBDPatchFeatureCalculator_CPU::compute_feature` and of the
cost function `grove_cost_fn` of `apps/relocopt/main.cpp`, and theorems about
them.

Conventions of the embedding.

* `float` and `double` values are rationals.  The two conversions whose result
  depends on the binary formats (`double → float`, and printing a `float` with
  `std::setprecision(7)` followed by reading it back) are fields of `Consts`.
* The compile-time constants `GPUFOREST_NTREES`, `GPUForestPrediction::MAX_MODES`
  and `RESERVOIR_SIZE` are declared in headers; they are fields of `Consts`.
* An operation returns an `Outcome`: it completes, it throws (the outcome then
  carries the members of the object at the throw), or its behaviour is undefined
  (an access outside an array, a recursion that does not return).
* Slots, node counts and leaf counts of the conversion are natural numbers (a
  forest has fewer than `2^31` nodes); the fields of a node record are integers.
  The scheduler mixes `int` and `size_t`: its arithmetic is written with the
  conversions `toInt32` and `toSizeT`.
* A text file is a list of whitespace-delimited tokens.
-/

namespace spaint

/-! ## Numeric conventions -/

/-- The constants of the headers and the format-dependent float conversions. -/
structure Consts where
  /-- The macro `GPUFOREST_NTREES`. -/
  GPUFOREST_NTREES : Nat
  /-- The constant `GPUForestPrediction::MAX_MODES`. -/
  MAX_MODES : Nat
  /-- The macro `RESERVOIR_SIZE`. -/
  RESERVOIR_SIZE : Nat
  /-- The conversion `double → float` (`cast<float>()`, `static_cast<float>`). -/
  castFloat : ℚ → ℚ
  /-- The float read back by `in >> x` from the text `out << std::setprecision(7) << x` wrote. -/
  print7 : ℚ → ℚ

/-- Conversion of a floating-point value to `int`: truncation toward zero. -/
def floatToInt (x : ℚ) : Int := Int.tdiv x.num x.den

/-- Conversion `static_cast<uint8_t>`: truncation, kept in one byte. -/
def floatToUInt8 (x : ℚ) : Nat := (floatToInt x % 256).toNat

/-- Conversion of an integer to a 32-bit `int` (two's complement wrap-around). -/
def toInt32 (x : Int) : Int := (x + 2147483648) % 4294967296 - 2147483648

/-- Conversion of an integer to a 64-bit `size_t`. -/
def toSizeT (x : Int) : Int := x % 18446744073709551616

/-! ## The trained ensemble (the part of it the conversion reads) -/

/-- One Gaussian of a trained mode (`PredictedGaussianMean`). -/
structure PredictedGaussianMean where
  _nbPoints : Int
  _mean : List ℚ
  _inverseCovariance : List ℚ
  _determinant : ℚ
deriving DecidableEq, Repr

/-- The payload of a trained leaf (`PredictionGaussianMean`): its modes, each a
vector of per-channel Gaussians (`[0]` position, `[1]` colour). -/
structure PredictionGaussianMean where
  _modes : List (List PredictedGaussianMean)
deriving DecidableEq, Repr

/-- A node of a trained tree: a leaf with its (possibly null) prediction, or an
inner node with its two child indices and the parameters of its feature. -/
inductive Node
  | leaf (prediction : Option PredictionGaussianMean)
  | inner (leftChildIndex rightChildIndex : Nat) (params : List ℚ)
deriving DecidableEq, Repr

/-- A trained tree (`Learner`): `GetNode`, `GetNbNodes`, `GetNbLeaves`. -/
structure Learner where
  nodes : List Node
  nbNodes : Nat
  nbLeaves : Nat
deriving DecidableEq, Repr

/-- A trained ensemble (`EnsembleLearner`). -/
structure EnsembleLearner where
  trees : List Learner
deriving DecidableEq, Repr

/-- The accessor `GetNbTrees`. -/
def EnsembleLearner.GetNbTrees (e : EnsembleLearner) : Nat := e.trees.length

/-- The accessor `GetMaxNbNodesInAnyLearner`: the largest `GetNbNodes` of a tree. -/
def EnsembleLearner.GetMaxNbNodesInAnyLearner (e : EnsembleLearner) : Nat :=
  (e.trees.map Learner.nbNodes).foldr max 0

/-! ## The flat forest -/

/-- One slot of the node image (`GPUForestNode`). -/
structure GPUForestNode where
  leftChildIdx : Int
  leafIdx : Int
  featureIdx : Int
  featureThreshold : ℚ
deriving DecidableEq, Repr

/-- A slot after `Clear()`: all bytes zero. -/
def GPUForestNode.zero : GPUForestNode := ⟨0, 0, 0, 0⟩

/-- The node image `m_forestImage`: `noDims = (width, height)` and the row-major
data, slot `s` of tree `t` being `data[s * width + t]`. -/
structure ForestImage where
  width : Nat
  height : Nat
  data : List GPUForestNode
deriving DecidableEq, Repr

/-- The call `make_image<GPUForestNode>(Vector2i(w, h))` followed by `Clear()`. -/
def ForestImage.cleared (w h : Nat) : ForestImage :=
  ⟨w, h, List.replicate (w * h) GPUForestNode.zero⟩

/-- One mode of a leaf prediction (`GPUForestMode`). -/
structure GPUForestMode where
  position : List ℚ
  positionInvCovariance : List ℚ
  determinant : ℚ
  colour : List Nat
  nbInliers : Int
deriving DecidableEq, Repr

/-- The prediction of a leaf (`GPUForestPrediction`): the array `modes`, of which
the first `nbModes` entries are populated. -/
structure GPUForestPrediction where
  modes : List GPUForestMode
  nbModes : Nat
deriving DecidableEq, Repr

/-- A prediction after `Clear()`. -/
def GPUForestPrediction.zero : GPUForestPrediction := ⟨[], 0⟩

/-- An example of a reservoir (`PositionColourExample`). -/
structure PositionColourExample where
  position : List ℚ
  colour : List Nat
deriving DecidableEq, Repr

/-- Modelled from the spec: the reservoir of one leaf (`GPUReservoir_CUDA` is not
among the sources): the examples it holds and the number of examples ever offered. -/
structure Reservoir where
  examples : List PositionColourExample
  seen : Nat
deriving DecidableEq, Repr

/-- Modelled from the spec: the reservoirs of all leaves, of one fixed capacity. -/
structure GPUReservoir where
  capacity : Nat
  reservoirs : List Reservoir
deriving DecidableEq, Repr

/-- Modelled from the spec: `new GPUReservoir_CUDA(capacity, nbLeaves)`, one empty
reservoir per leaf. -/
def GPUReservoir.create (capacity nbLeaves : Nat) : GPUReservoir :=
  ⟨capacity, List.replicate nbLeaves ⟨[], 0⟩⟩

/-- The members of a `GPUForest`. A smart pointer is `none` when it is reset. -/
structure GPUForest where
  m_forestImage : Option ForestImage
  m_predictionsBlock : Option (List GPUForestPrediction)
  m_leafReservoirs : Option GPUReservoir
  m_nbNodesPerTree : List Int
  m_nbLeavesPerTree : List Int
  m_leafPredictions : List PredictionGaussianMean
  m_leafImage : List (List Int)
  m_maxReservoirsToUpdate : Int
  m_reservoirUpdateStartIdx : Int
deriving DecidableEq, Repr

/-- How a member function ends. -/
inductive Outcome (σ : Type)
  /-- It returns; `s` is the state it leaves. -/
  | ok (s : σ)
  /-- It throws an exception with the message `what`; `s` is the state at the throw. -/
  | thrown (what : String) (s : σ)
  /-- Undefined behaviour, or it does not return. -/
  | undefined
deriving DecidableEq, Repr

/-- The default constructor `GPUForest::GPUForest()`. -/
def GPUForest.init : GPUForest :=
  { m_forestImage := none
    m_predictionsBlock := none
    m_leafReservoirs := none
    m_nbNodesPerTree := []
    m_nbLeavesPerTree := []
    m_leafPredictions := []
    m_leafImage := []
    m_maxReservoirsToUpdate := 1000
    m_reservoirUpdateStartIdx := 0 }

/-- The recursion `GPUForest::convert_node`. It returns the new `first_free_idx`,
the node array and `m_leafPredictions`. `fuel` bounds the depth of the recursion;
the result is `none` when it is exhausted, when `GetNode`, `params[1]`, `params[2]`
or `gpu_nodes[...]` is out of range. -/
def convert_node : (fuel : Nat) → (tree : Learner) → (node_idx tree_idx n_trees output_idx
    first_free_idx : Nat) → (gpu_nodes : List GPUForestNode) →
    (m_leafPredictions : List PredictionGaussianMean) →
    Option (Nat × List GPUForestNode × List PredictionGaussianMean)
  | 0, _, _, _, _, _, _, _, _ => none
  | fuel + 1, tree, node_idx, tree_idx, n_trees, output_idx, first_free_idx, gpu_nodes,
      m_leafPredictions =>
    match tree.nodes[node_idx]? with
    | none => none
    | some node =>
      if output_idx * n_trees + tree_idx < gpu_nodes.length then
        match node with
        | Node.leaf prediction =>
          let gpuNode : GPUForestNode :=
            { leftChildIdx := -1
              featureIdx := 0
              featureThreshold := 0
              leafIdx := m_leafPredictions.length }
          let pred : PredictionGaussianMean :=
            match prediction with
            | some pred => pred
            | none => ⟨[]⟩
          some (first_free_idx, gpu_nodes.set (output_idx * n_trees + tree_idx) gpuNode,
            m_leafPredictions ++ [pred])
        | Node.inner leftChildIndex rightChildIndex params =>
          match params[1]?, params[2]? with
          | some p1, some p2 =>
            let leftChildIdx := first_free_idx
            let rightChildIdx := first_free_idx + 1
            let gpuNode : GPUForestNode :=
              { leafIdx := -1
                leftChildIdx := leftChildIdx
                featureIdx := floatToInt p1
                featureThreshold := p2 }
            let gpu_nodes := gpu_nodes.set (output_idx * n_trees + tree_idx) gpuNode
            match convert_node fuel tree leftChildIndex tree_idx n_trees leftChildIdx
                (first_free_idx + 2) gpu_nodes m_leafPredictions with
            | none => none
            | some (first_free_idx, gpu_nodes, m_leafPredictions) =>
              convert_node fuel tree rightChildIndex tree_idx n_trees rightChildIdx
                first_free_idx gpu_nodes m_leafPredictions
          | _, _ => none
      else none

/-- A loop that fills one output entry per input entry, and whose body may have
undefined behaviour (`none`). -/
def mapOption {α β : Type} (f : α → Option β) : List α → Option (List β)
  | [] => some []
  | a :: as =>
    match f a, mapOption f as with
    | some b, some bs => some (b :: bs)
    | _, _ => none

/-- The sort key of `convert_predictions`: `a[0]._nbPoints`. -/
def nbPointsOf (mode : List PredictedGaussianMean) : Int :=
  match mode[0]? with
  | some g => g._nbPoints
  | none => 0

/-- The call `std::sort(modes.begin(), modes.end(), ...)` of `convert_predictions`,
descending in `a[0]._nbPoints`. `std::sort` leaves the order of modes with equal
keys unspecified; the embedding keeps them in their original order. -/
def sortModes (modes : List (List PredictedGaussianMean)) : List (List PredictedGaussianMean) :=
  modes.insertionSort (fun a b => nbPointsOf b ≤ nbPointsOf a)

/-- The body of the inner loop of `convert_predictions`: one trained mode written
to a `GPUForestMode`. `none` when `mode[0]`, `mode[1]` or a component of a mean
does not exist. -/
def convertMode (K : Consts) (mode : List PredictedGaussianMean) : Option GPUForestMode :=
  match mode[0]?, mode[1]? with
  | some g0, some g1 =>
    if g0._mean.length = 3 ∧ g0._inverseCovariance.length = 9 then
      match g1._mean[0]?, g1._mean[1]?, g1._mean[2]? with
      | some c0, some c1, some c2 =>
        some
          { position := g0._mean.map K.castFloat
            positionInvCovariance := g0._inverseCovariance.map K.castFloat
            determinant := K.castFloat g0._determinant
            colour := [floatToUInt8 c0, floatToUInt8 c1, floatToUInt8 c2]
            nbInliers := g0._nbPoints }
      | _, _, _ => none
    else none
  | _, _ => none

/-- The body of the outer loop of `convert_predictions`: the prediction of one
leaf. The comparator of the sort reads `a[0]` of every mode when there are at
least two of them; the loop then converts the first `MAX_MODES` sorted modes. -/
def convertPrediction (K : Consts) (currentPred : PredictionGaussianMean) :
    Option GPUForestPrediction :=
  if 2 ≤ currentPred._modes.length ∧ [] ∈ currentPred._modes then none
  else
    match mapOption (convertMode K) ((sortModes currentPred._modes).take K.MAX_MODES) with
    | some modes => some { modes := modes, nbModes := modes.length }
    | none => none

/-- The function `GPUForest::convert_predictions`: every entry of the predictions
block is overwritten with the conversion of the same entry of `m_leafPredictions`. -/
def convert_predictions (K : Consts) (m_leafPredictions : List PredictionGaussianMean) :
    Option (List GPUForestPrediction) :=
  mapOption (convertPrediction K) m_leafPredictions

/-- The loop over the trees of `GPUForest::GPUForest(const EnsembleLearner&)`, from
tree `treeIdx` on; `trees` are the trees still to convert. -/
def convertTrees (nTrees : Nat) : (trees : List Learner) → (treeIdx : Nat) →
    (forestData : List GPUForestNode) → (self : GPUForest) →
    Option (List GPUForestNode × GPUForest)
  | [], _, forestData, self => some (forestData, self)
  | tree :: trees, treeIdx, forestData, self =>
    let self :=
      { self with
        m_nbNodesPerTree := self.m_nbNodesPerTree ++ [(tree.nbNodes : Int)]
        m_nbLeavesPerTree := self.m_nbLeavesPerTree ++ [(tree.nbLeaves : Int)] }
    match convert_node tree.nodes.length tree 0 treeIdx nTrees 0 1 forestData
        self.m_leafPredictions with
    | none => none
    | some (_, forestData, leafPredictions) =>
      convertTrees nTrees trees (treeIdx + 1) forestData
        { self with m_leafPredictions := leafPredictions }

/-- The constructor `GPUForest::GPUForest(const EnsembleLearner &pretrained_forest)`
(`build` in the specification). The depth of `convert_node` is bounded by the
number of nodes of the tree: a deeper recursion visits a node twice on one path
and does not return. -/
def GPUForest.build (K : Consts) (pretrained_forest : EnsembleLearner) : Outcome GPUForest :=
  let self := GPUForest.init
  let nTrees := pretrained_forest.GetNbTrees
  let maxNbNodes := pretrained_forest.GetMaxNbNodesInAnyLearner
  if nTrees ≠ K.GPUFOREST_NTREES then
    Outcome.thrown
      "Number of trees in the loaded forest different from the instantiation of GPUForest." self
  else
    let image := ForestImage.cleared nTrees maxNbNodes
    match convertTrees nTrees pretrained_forest.trees 0 image.data self with
    | none => Outcome.undefined
    | some (forestData, self) =>
      match convert_predictions K self.m_leafPredictions with
      | none => Outcome.undefined
      | some predictions =>
        Outcome.ok
          { self with
            m_forestImage := some { image with data := forestData }
            m_predictionsBlock := some predictions
            m_leafImage := []
            m_leafReservoirs := some (GPUReservoir.create K.RESERVOIR_SIZE predictions.length) }

/-! ## Persistence -/

/-- A whitespace-delimited token of the text file: an integer literal, another
floating-point literal (with the `float` that `in >> x` reads from it), or any
other text. An extraction of an `int` succeeds on an integer literal only (the
stream would also accept the integer prefix of another token; files with such
tokens in an `int` position are not distinguished from unreadable ones). -/
inductive Token
  | int (value : Int)
  | real (value : ℚ)
  | junk
deriving DecidableEq, Repr

/-- The extraction `in >> x` for an `int x`: the value and the rest of the text. -/
def readInt : List Token → Option (Int × List Token)
  | Token.int value :: rest => some (value, rest)
  | _ => none

/-- The extraction `in >> x` for a `float x`. -/
def readFloat (K : Consts) : List Token → Option (ℚ × List Token)
  | Token.int value :: rest => some (K.castFloat value, rest)
  | Token.real value :: rest => some (value, rest)
  | _ => none

/-- The value a failed extraction leaves in its target: the target is untouched at
the end of the text, and set to zero by a token that does not parse. -/
def failedInt (old : Int) (tokens : List Token) : Int :=
  if tokens = [] then old else 0

/-- The value a failed extraction of a `float` leaves in its target. -/
def failedFloat (old : ℚ) (tokens : List Token) : ℚ :=
  if tokens = [] then old else 0

/-- The statement `in >> node.leftChildIdx >> node.leafIdx >> node.featureIdx >>
node.featureThreshold`: the record it leaves, and the rest of the text when all
four extractions succeed (`none` when the stream has failed). -/
def readNodeRecord (K : Consts) (node : GPUForestNode) (tokens : List Token) :
    GPUForestNode × Option (List Token) :=
  match readInt tokens with
  | none => ({ node with leftChildIdx := failedInt node.leftChildIdx tokens }, none)
  | some (a, rest1) =>
    match readInt rest1 with
    | none => ({ node with leftChildIdx := a, leafIdx := failedInt node.leafIdx rest1 }, none)
    | some (b, rest2) =>
      match readInt rest2 with
      | none =>
        ({ node with
           leftChildIdx := a, leafIdx := b, featureIdx := failedInt node.featureIdx rest2 }, none)
      | some (c, rest3) =>
        match readFloat K rest3 with
        | none => (⟨a, b, c, failedFloat node.featureThreshold rest3⟩, none)
        | some (d, rest4) => (⟨a, b, c, d⟩, some rest4)

/-- How the loops of `load_structure_from_file` over the node records end. -/
inductive ReadNodes
  /-- All records were read: the node array and the rest of the text. -/
  | done (forestData : List GPUForestNode) (rest : List Token)
  /-- The stream failed on record `nodeIdx` of tree `treeIdx`. -/
  | failed (nodeIdx treeIdx : Nat) (forestData : List GPUForestNode)
  /-- A record was read into a slot outside the node array. -/
  | outOfBounds
deriving DecidableEq, Repr

/-- The inner loop `for (nodeIdx = ...; nodeIdx < m_nbNodesPerTree.size(); ++nodeIdx)`
of `load_structure_from_file`, with `todo` iterations left; `nbTrees` is the width
of the image. For a slot outside the node array: at the end of the text the
first extraction fails before anything is stored, and the loop throws; any other
text makes an extraction store into the slot. -/
def readTreeNodes (K : Consts) (nbTrees treeIdx : Nat) : (todo nodeIdx : Nat) →
    (forestData : List GPUForestNode) → (tokens : List Token) → ReadNodes
  | 0, _, forestData, tokens => ReadNodes.done forestData tokens
  | todo + 1, nodeIdx, forestData, tokens =>
    match forestData[nodeIdx * nbTrees + treeIdx]? with
    | none =>
      if tokens = [] then ReadNodes.failed nodeIdx treeIdx forestData
      else ReadNodes.outOfBounds
    | some node =>
      match readNodeRecord K node tokens with
      | (node, none) =>
        ReadNodes.failed nodeIdx treeIdx (forestData.set (nodeIdx * nbTrees + treeIdx) node)
      | (node, some rest) =>
        readTreeNodes K nbTrees treeIdx todo (nodeIdx + 1)
          (forestData.set (nodeIdx * nbTrees + treeIdx) node) rest

/-- The outer loop `for (treeIdx = ...; treeIdx < nbTrees; ++treeIdx)` of
`load_structure_from_file`, with `todo` iterations left; `size` is
`m_nbNodesPerTree.size()`. -/
def readAllNodes (K : Consts) (nbTrees size : Nat) : (todo treeIdx : Nat) →
    (forestData : List GPUForestNode) → (tokens : List Token) → ReadNodes
  | 0, _, forestData, tokens => ReadNodes.done forestData tokens
  | todo + 1, treeIdx, forestData, tokens =>
    match readTreeNodes K nbTrees treeIdx size 0 forestData tokens with
    | ReadNodes.done forestData rest =>
      readAllNodes K nbTrees size todo (treeIdx + 1) forestData rest
    | r => r

/-- How the loop of `load_structure_from_file` over the tree dimensions ends. -/
inductive ReadDims
  /-- All dimensions were read: the rest of the text, the members, `maxNbNodes`,
  `totalNbLeaves`. -/
  | done (rest : List Token) (self : GPUForest) (maxNbNodes totalNbLeaves : Int)
  /-- The stream failed on the dimensions of tree `i`. -/
  | failed (i : Nat) (self : GPUForest)
deriving DecidableEq, Repr

/-- The loop `for (int i = ...; i < nbTrees; ++i)` of `load_structure_from_file` that
reads `nbNodes` and `nbLeaves` of every tree, with `todo` iterations left. -/
def readDims : (todo i : Nat) → (tokens : List Token) → (self : GPUForest) →
    (maxNbNodes totalNbLeaves : Int) → ReadDims
  | 0, _, tokens, self, maxNbNodes, totalNbLeaves =>
    ReadDims.done tokens self maxNbNodes totalNbLeaves
  | todo + 1, i, tokens, self, maxNbNodes, totalNbLeaves =>
    match readInt tokens with
    | none => ReadDims.failed i self
    | some (nbNodes, rest1) =>
      match readInt rest1 with
      | none => ReadDims.failed i self
      | some (nbLeaves, rest2) =>
        readDims todo (i + 1) rest2
          { self with
            m_nbNodesPerTree := self.m_nbNodesPerTree ++ [nbNodes]
            m_nbLeavesPerTree := self.m_nbLeavesPerTree ++ [nbLeaves] }
          (max nbNodes maxNbNodes) (toInt32 (totalNbLeaves + nbLeaves))

/-- The function `GPUForest::load_structure_from_file`; `file` is the text of the
file as tokens, `none` when the file cannot be opened. -/
def GPUForest.load_structure_from_file (K : Consts) (file : Option (List Token))
    (self : GPUForest) : Outcome GPUForest :=
  let self :=
    { self with
      m_forestImage := none
      m_predictionsBlock := none
      m_leafReservoirs := none
      m_nbNodesPerTree := []
      m_nbLeavesPerTree := []
      m_reservoirUpdateStartIdx := 0 }
  match file with
  | none => Outcome.thrown "Couldn't load a forest from: " self
  | some tokens =>
    match readInt tokens with
    | none =>
      Outcome.thrown
        ("Number of trees of the loaded forest is incorrect. Should be "
          ++ toString K.GPUFOREST_NTREES ++ " - Read: " ++ toString (failedInt 0 tokens)) self
    | some (nbTrees, tokens) =>
      if nbTrees ≠ (K.GPUFOREST_NTREES : Int) then
        Outcome.thrown
          ("Number of trees of the loaded forest is incorrect. Should be "
            ++ toString K.GPUFOREST_NTREES ++ " - Read: " ++ toString nbTrees) self
      else
        match readDims K.GPUFOREST_NTREES 0 tokens self 0 0 with
        | ReadDims.failed i self =>
          Outcome.thrown ("Error reading the dimensions of tree: " ++ toString i) self
        | ReadDims.done tokens self maxNbNodes totalNbLeaves =>
          let image := ForestImage.cleared K.GPUFOREST_NTREES maxNbNodes.toNat
          let self := { self with m_forestImage := some image }
          if totalNbLeaves < 0 then Outcome.thrown "std::bad_alloc" self
          else
            let self :=
              { self with
                m_predictionsBlock :=
                  some (List.replicate totalNbLeaves.toNat GPUForestPrediction.zero)
                m_leafReservoirs :=
                  some (GPUReservoir.create K.RESERVOIR_SIZE totalNbLeaves.toNat) }
            match readAllNodes K K.GPUFOREST_NTREES self.m_nbNodesPerTree.length
                K.GPUFOREST_NTREES 0 image.data tokens with
            | ReadNodes.outOfBounds => Outcome.undefined
            | ReadNodes.failed nodeIdx treeIdx forestData =>
              Outcome.thrown
                ("Error reading node " ++ toString nodeIdx ++ " of tree " ++ toString treeIdx)
                { self with m_forestImage := some { image with data := forestData } }
            | ReadNodes.done forestData _ =>
              Outcome.ok { self with m_forestImage := some { image with data := forestData } }

/-- The constructor `GPUForest::GPUForest(const std::string &fileName)`. -/
def GPUForest.fromFile (K : Consts) (file : Option (List Token)) : Outcome GPUForest :=
  GPUForest.load_structure_from_file K file GPUForest.init

/-- The inner loop of `save_structure_to_file` over the nodes of tree `treeIdx`,
with `todo` iterations left: the records written, `none` when a slot outside the
node array is read. -/
def writeTreeNodes (K : Consts) (forestData : List GPUForestNode) (treeIdx : Nat) :
    (todo nodeIdx : Nat) → Option (List Token)
  | 0, _ => some []
  | todo + 1, nodeIdx =>
    match forestData[nodeIdx * K.GPUFOREST_NTREES + treeIdx]?,
        writeTreeNodes K forestData treeIdx todo (nodeIdx + 1) with
    | some node, some rest =>
      some (Token.int node.leftChildIdx :: Token.int node.leafIdx :: Token.int node.featureIdx
        :: Token.real (K.print7 node.featureThreshold) :: rest)
    | _, _ => none

/-- The outer loop of `save_structure_to_file` over the trees, with `todo` iterations
left; `size` is `m_nbNodesPerTree.size()`. -/
def writeAllNodes (K : Consts) (forestData : List GPUForestNode) (size : Nat) :
    (todo treeIdx : Nat) → Option (List Token)
  | 0, _ => some []
  | todo + 1, treeIdx =>
    match writeTreeNodes K forestData treeIdx size 0,
        writeAllNodes K forestData size todo (treeIdx + 1) with
    | some records, some rest => some (records ++ rest)
    | _, _ => none

/-- The loop of `save_structure_to_file` over the tree dimensions, with `todo`
iterations left: `none` when `m_nbNodesPerTree[i]` or `m_nbLeavesPerTree[i]` does
not exist. -/
def writeDims (self : GPUForest) : (todo i : Nat) → Option (List Token)
  | 0, _ => some []
  | todo + 1, i =>
    match self.m_nbNodesPerTree[i]?, self.m_nbLeavesPerTree[i]?, writeDims self todo (i + 1) with
    | some nbNodes, some nbLeaves, some rest =>
      some (Token.int nbNodes :: Token.int nbLeaves :: rest)
    | _, _, _ => none

/-- The function `GPUForest::save_structure_to_file`: the text written to the file
(which is taken to be writable), `none` when the behaviour is undefined (an
index outside a vector or the node array, no node image). -/
def GPUForest.save_structure_to_file (K : Consts) (self : GPUForest) : Option (List Token) :=
  match writeDims self K.GPUFOREST_NTREES 0, self.m_forestImage with
  | some dims, some image =>
    match writeAllNodes K image.data self.m_nbNodesPerTree.length K.GPUFOREST_NTREES 0 with
    | some records => some (Token.int K.GPUFOREST_NTREES :: (dims ++ records))
    | none => none
  | _, _ => none

/-! ## The update scheduler -/

/-- The kernels the scheduler calls, which are not among the sources: the leaf
lookup `find_leaves`, the reservoir insertion `add_examples` and the clusterer
`find_modes(reservoirs, predictions, startIdx, count)`, which works on the leaves
`startIdx, ..., startIdx + count - 1`. They are taken to return; the predictions
block keeps its size. -/
structure Kernels (Features : Type) where
  find_leaves : ForestImage → Features → List (List Int)
  add_examples : GPUReservoir → Features → List (List Int) → GPUReservoir
  find_modes : GPUReservoir → List GPUForestPrediction → Int → Int → List GPUForestPrediction
  find_modes_length : ∀ reservoirs predictions startIdx count,
    (find_modes reservoirs predictions startIdx count).length = predictions.length

/-- The local `updateCount` of `add_features_to_forest`:
`std::min<int>(m_maxReservoirsToUpdate, dataSize - m_reservoirUpdateStartIdx)`,
the difference being computed in `size_t` and converted to `int`. -/
def updateCount (m_maxReservoirsToUpdate m_reservoirUpdateStartIdx : Int) (dataSize : Nat) : Int :=
  min m_maxReservoirsToUpdate
    (toInt32 (toSizeT ((dataSize : Int) - toSizeT m_reservoirUpdateStartIdx)))

/-- The update of the cursor at the end of `add_features_to_forest`: the addition
is an `int` addition, the comparison with `dataSize` is done in `size_t`. -/
def nextUpdateStart (m_maxReservoirsToUpdate m_reservoirUpdateStartIdx : Int) (dataSize : Nat) :
    Int :=
  let start := toInt32 (m_reservoirUpdateStartIdx + m_maxReservoirsToUpdate)
  if (dataSize : Int) ≤ toSizeT start then 0 else start

/-- The function `GPUForest::add_features_to_forest`. Undefined when a member
pointer is null. -/
def GPUForest.add_features_to_forest {Features : Type} (kernels : Kernels Features)
    (features : Features) (self : GPUForest) : Outcome GPUForest :=
  match self.m_forestImage, self.m_predictionsBlock, self.m_leafReservoirs with
  | some image, some predictions, some reservoirs =>
    let leafImage := kernels.find_leaves image features
    let reservoirs := kernels.add_examples reservoirs features leafImage
    let count := updateCount self.m_maxReservoirsToUpdate self.m_reservoirUpdateStartIdx
      predictions.length
    let predictions' :=
      kernels.find_modes reservoirs predictions self.m_reservoirUpdateStartIdx count
    Outcome.ok
      { self with
        m_leafImage := leafImage
        m_leafReservoirs := some reservoirs
        m_predictionsBlock := some predictions'
        m_reservoirUpdateStartIdx :=
          nextUpdateStart self.m_maxReservoirsToUpdate self.m_reservoirUpdateStartIdx
            predictions.length }
  | _, _, _ => Outcome.undefined

/-- The leaves a call `find_modes(_, _, startIdx, count)` clusters. -/
def clusteredLeaves (startIdx count : Int) : List Int :=
  (List.range count.toNat).map (fun (i : Nat) => startIdx + (i : Int))

/-! ## Trees, as the specification speaks of them -/

/-- A binary decision tree: a leaf with a label, or an inner node with its feature
index, its threshold and its two subtrees. -/
inductive BTree (α : Type)
  | leaf (a : α)
  | inner (featureIdx : Int) (featureThreshold : ℚ) (l r : BTree α)
deriving DecidableEq, Repr

/-- Number of nodes of a tree. -/
def BTree.nbNodes {α : Type} : BTree α → Nat
  | leaf _ => 1
  | inner _ _ l r => 1 + l.nbNodes + r.nbNodes

/-- Number of leaves of a tree. -/
def BTree.nbLeaves {α : Type} : BTree α → Nat
  | leaf _ => 1
  | inner _ _ l r => l.nbLeaves + r.nbLeaves

/-- Number of proper descendants of the root. -/
def BTree.nbDesc {α : Type} : BTree α → Nat
  | leaf _ => 0
  | inner _ _ l r => 2 + l.nbDesc + r.nbDesc

/-- The labels of the leaves, depth-first, left subtree before right subtree. -/
def BTree.labels {α : Type} : BTree α → List α
  | leaf a => [a]
  | inner _ _ l r => l.labels ++ r.labels

/-- The shape of a tree: the labels of the leaves forgotten, the decision rules kept. -/
def BTree.shape {α : Type} : BTree α → BTree Unit
  | leaf _ => leaf ()
  | inner f th l r => inner f th l.shape r.shape

/-- Whether a tree is a single leaf. -/
def BTree.isLeaf {α : Type} : BTree α → Bool
  | leaf _ => true
  | inner _ _ _ _ => false

/-- The payload `convert_node` records for a leaf: its prediction, or an empty one. -/
def leafPayload (prediction : Option PredictionGaussianMean) : PredictionGaussianMean :=
  match prediction with
  | some pred => pred
  | none => ⟨[]⟩

/-- The tree rooted at node `node_idx` of a trained tree, read through `GetNode`,
`GetLeftChildIndex` and `GetRightChildIndex`; each leaf is labelled with its
payload, each inner node carries `params[1]` as an `int` and `params[2]`. `none`
when an index is out of range or the depth exceeds `fuel`. -/
def Learner.toTree (tree : Learner) : (fuel : Nat) → (node_idx : Nat) →
    Option (BTree PredictionGaussianMean)
  | 0, _ => none
  | fuel + 1, node_idx =>
    match tree.nodes[node_idx]? with
    | none => none
    | some (Node.leaf prediction) => some (BTree.leaf (leafPayload prediction))
    | some (Node.inner leftChildIndex rightChildIndex params) =>
      match params[1]?, params[2]?, tree.toTree fuel leftChildIndex,
          tree.toTree fuel rightChildIndex with
      | some p1, some p2, some l, some r => some (BTree.inner (floatToInt p1) p2 l r)
      | _, _, _, _ => none

/-- A well-formed trained tree: its nodes, read from node 0, form a finite binary
tree with `GetNbNodes` nodes and `GetNbLeaves` leaves, every inner node has its
feature parameters, and every leaf payload has the channels `convert_predictions`
reads. -/
def Learner.wellFormed (K : Consts) (tree : Learner) : Bool :=
  match tree.toTree tree.nodes.length 0 with
  | some bt =>
    bt.nbNodes == tree.nbNodes && bt.nbLeaves == tree.nbLeaves &&
      bt.labels.all (fun p => (convertPrediction K p).isSome)
  | none => false

/-- A well-formed trained ensemble for the compiled tree count: `GPUFOREST_NTREES`
well-formed trees. -/
def EnsembleLearner.wellFormed (K : Consts) (e : EnsembleLearner) : Bool :=
  e.trees.length == K.GPUFOREST_NTREES && e.trees.all (Learner.wellFormed K)

/-- The node tree read back from the node array: recursive traversal of tree
`tree_idx` from slot `slot`; a slot is a leaf iff its `leftChildIdx` is `-1`, the
children of another slot are at `leftChildIdx` and `leftChildIdx + 1`. Leaves are
labelled with their `leafIdx`. -/
def decode (data : List GPUForestNode) (n_trees tree_idx : Nat) : (fuel : Nat) → (slot : Nat) →
    Option (BTree Int)
  | 0, _ => none
  | fuel + 1, slot =>
    match data[slot * n_trees + tree_idx]? with
    | none => none
    | some node =>
      if node.leftChildIdx = -1 then some (BTree.leaf node.leafIdx)
      else if node.leftChildIdx < 0 then none
      else
        match decode data n_trees tree_idx fuel node.leftChildIdx.toNat,
            decode data n_trees tree_idx fuel (node.leftChildIdx.toNat + 1) with
        | some l, some r => some (BTree.inner node.featureIdx node.featureThreshold l r)
        | _, _ => none

/-- The layout `convert_node` produces for a subtree: its root in slot `output_idx`,
its descendants in the slots from `first_free_idx` on, its leaves numbered from
`nextLeaf` on. -/
def Enc (data : List GPUForestNode) (n_trees tree_idx : Nat) :
    BTree PredictionGaussianMean → (output_idx first_free_idx nextLeaf : Nat) → Prop
  | BTree.leaf _, output_idx, _, nextLeaf =>
    data[output_idx * n_trees + tree_idx]? = some ⟨-1, nextLeaf, 0, 0⟩
  | BTree.inner f th l r, output_idx, first_free_idx, nextLeaf =>
    data[output_idx * n_trees + tree_idx]? = some ⟨first_free_idx, -1, f, th⟩ ∧
      Enc data n_trees tree_idx l first_free_idx (first_free_idx + 2) nextLeaf ∧
      Enc data n_trees tree_idx r (first_free_idx + 1) (first_free_idx + 2 + l.nbDesc)
        (nextLeaf + l.nbLeaves)

/-- The payloads of the leaves of a trained tree, in depth-first order. -/
def Learner.payloads (tree : Learner) : List PredictionGaussianMean :=
  match tree.toTree tree.nodes.length 0 with
  | some bt => bt.labels
  | none => []

/-- The number of leaves of the first `k` trees of a list. -/
def leavesBefore (trees : List Learner) (k : Nat) : Nat :=
  ((trees.take k).map Learner.nbLeaves).sum

/-- The total number of leaves of an ensemble. -/
def EnsembleLearner.nbLeaves (e : EnsembleLearner) : Nat :=
  (e.trees.map Learner.nbLeaves).sum

/-- A tree with its leaves numbered depth-first, left before right, from `first` on. -/
def BTree.numbered {α : Type} : BTree α → (first : Nat) → BTree Int
  | leaf _, first => leaf first
  | inner f th l r, first => inner f th (l.numbered first) (r.numbered (first + l.nbLeaves))

/-- The nodes of a source tree are stored from slot `slot` on: the slot of a leaf
holds a record, the slot of an inner node holds a record whose `leftChildIdx` is
a slot `c`, and the left and right subtrees are stored from `c` and `c + 1` on;
every node and the record in its slot satisfy `P`. -/
def Stored {α : Type} (P : BTree α → Nat → GPUForestNode → Prop) (data : List GPUForestNode)
    (n_trees tree_idx : Nat) : BTree α → (slot : Nat) → Prop
  | BTree.leaf a, slot =>
    ∃ node, data[slot * n_trees + tree_idx]? = some node ∧ P (BTree.leaf a) slot node
  | BTree.inner f th l r, slot =>
    ∃ (node : GPUForestNode) (c : Nat), data[slot * n_trees + tree_idx]? = some node ∧
      node.leftChildIdx = (c : Int) ∧
      P (BTree.inner f th l r) slot node ∧
      Stored P data n_trees tree_idx l c ∧ Stored P data n_trees tree_idx r (c + 1)

/-- The record of a leaf is marked as one; the record of an inner node carries its
decision rule and points to child slots above its own slot. -/
def ChildrenAbove {α : Type} : BTree α → Nat → GPUForestNode → Prop
  | BTree.leaf _, _, node => node.leftChildIdx = -1
  | BTree.inner f th _ _, slot, node =>
    node.featureIdx = f ∧ node.featureThreshold = th ∧
      (slot : Int) < node.leftChildIdx ∧ (slot : Int) < node.leftChildIdx + 1

/-- The first alternative of the node invariant: a leaf record. -/
def GPUForestNode.leafKind (node : GPUForestNode) : Prop :=
  node.leftChildIdx = -1 ∧ 0 ≤ node.leafIdx

/-- The second alternative of the node invariant: an inner record. -/
def GPUForestNode.innerKind (node : GPUForestNode) : Prop :=
  0 ≤ node.leftChildIdx ∧ node.leafIdx = -1

/-- Exactly one of the two alternatives of the node invariant holds. -/
def GPUForestNode.oneKind (node : GPUForestNode) : Prop :=
  (node.leafKind ∨ node.innerKind) ∧ ¬(node.leafKind ∧ node.innerKind)

/-- The record satisfies exactly one alternative, the first one exactly when the
source node is a leaf. -/
def KindMatches {α : Type} (bt : BTree α) (_slot : Nat) (node : GPUForestNode) : Prop :=
  node.oneKind ∧ (node.leafKind ↔ bt.isLeaf = true)

/-- The leaf indices of the trees `trees` (columns `treeIdx`, `treeIdx + 1`, ...)
in the order the leaves are met: trees in index order, each tree from slot 0
depth-first, left before right. -/
def leafOrder (data : List GPUForestNode) (n_trees : Nat) : (trees : List Learner) →
    (treeIdx : Nat) → List Int
  | [], _ => []
  | tree :: trees, treeIdx =>
    (match decode data n_trees treeIdx tree.nbNodes 0 with
      | some dt => dt.labels
      | none => []) ++ leafOrder data n_trees trees (treeIdx + 1)

/-- Modelled from the spec: the lookup walk of `find_leaves` in one tree (section
4.2; the kernel is not among the sources). From `slot`, while `leftChildIdx` is
not `-1`, step to `leftChildIdx` or to `leftChildIdx + 1`; `goLeft step node`
is the decision taken at the node met at step `step`. The result is the list of
the slots visited and the `leafIdx` recorded; `none` when `fuel` steps do not
reach a leaf or a slot lies outside the array. -/
def walkWith (data : List GPUForestNode) (n_trees tree_idx : Nat)
    (goLeft : Nat → GPUForestNode → Bool) : (fuel : Nat) → (step slot : Nat) →
    Option (List Nat × Int)
  | 0, _, _ => none
  | fuel + 1, step, slot =>
    match data[slot * n_trees + tree_idx]? with
    | none => none
    | some node =>
      if node.leftChildIdx = -1 then some ([slot], node.leafIdx)
      else
        let next : Int := if goLeft step node then node.leftChildIdx else node.leftChildIdx + 1
        if next < 0 then none
        else
          match walkWith data n_trees tree_idx goLeft fuel (step + 1) next.toNat with
          | some (visited, leafIdx) => some (slot :: visited, leafIdx)
          | none => none

/-- Modelled from the spec: the walk for a descriptor: route left if the feature
channel addressed by `featureIdx` is below `featureThreshold`, else right. -/
def walk (data : List GPUForestNode) (n_trees tree_idx : Nat) (descriptor : Int → ℚ)
    (fuel : Nat) : Option (List Nat × Int) :=
  walkWith data n_trees tree_idx
    (fun _ node => decide (descriptor node.featureIdx < node.featureThreshold)) fuel 0 0

/-- The constants of the example: two trees, ten modes, reservoirs of 1024. -/
def exampleConsts : Consts := ⟨2, 10, 1024, id, id⟩

/-- An ensemble of two trees: tree 0 a single leaf with two trained modes, tree 1 a
split on feature 0 at threshold 1/2 with two leaves. -/
def exampleEnsemble : EnsembleLearner :=
  ⟨[⟨[Node.leaf (some ⟨[[⟨5, [1, 2, 3], [1, 0, 0, 0, 1, 0, 0, 0, 1], 1⟩,
            ⟨5, [mkRat 21 2, 20, mkRat 2559 10], [1, 0, 0, 0, 1, 0, 0, 0, 1], 1⟩],
          [⟨7, [4, 5, 6], [1, 0, 0, 0, 1, 0, 0, 0, 1], 1⟩,
            ⟨7, [30, 40, 50], [1, 0, 0, 0, 1, 0, 0, 0, 1], 1⟩]]⟩)], 1, 1⟩,
    ⟨[Node.inner 1 2 [0, 0, mkRat 1 2], Node.leaf none, Node.leaf none], 3, 2⟩]⟩

/-- The forest the constructor builds from `exampleEnsemble`. -/
def exampleForest : GPUForest :=
  { m_forestImage := some ⟨2, 3,
      [⟨-1, 0, 0, 0⟩, ⟨1, -1, 0, mkRat 1 2⟩,
       ⟨0, 0, 0, 0⟩, ⟨-1, 1, 0, 0⟩,
       ⟨0, 0, 0, 0⟩, ⟨-1, 2, 0, 0⟩]⟩
    m_predictionsBlock := some
      [⟨[⟨[4, 5, 6], [1, 0, 0, 0, 1, 0, 0, 0, 1], 1, [30, 40, 50], 7⟩,
         ⟨[1, 2, 3], [1, 0, 0, 0, 1, 0, 0, 0, 1], 1, [10, 20, 255], 5⟩], 2⟩,
       ⟨[], 0⟩, ⟨[], 0⟩]
    m_leafReservoirs := some ⟨1024, [⟨[], 0⟩, ⟨[], 0⟩, ⟨[], 0⟩]⟩
    m_nbNodesPerTree := [1, 3]
    m_nbLeavesPerTree := [1, 2]
    m_leafPredictions := (exampleEnsemble.trees.map Learner.payloads).flatten
    m_leafImage := []
    m_maxReservoirsToUpdate := 1000
    m_reservoirUpdateStartIdx := 0 }

/-- The text `save_structure_to_file` writes for `exampleForest`: the tree count,
the dimensions of the two trees, and two records per tree. -/
def exampleText : List Token :=
  [Token.int 2,
   Token.int 1, Token.int 1,
   Token.int 3, Token.int 2,
   Token.int (-1), Token.int 0, Token.int 0, Token.real 0,
   Token.int 0, Token.int 0, Token.int 0, Token.real 0,
   Token.int 1, Token.int (-1), Token.int 0, Token.real (mkRat 1 2),
   Token.int (-1), Token.int 1, Token.int 0, Token.real 0]

/-- The node image `load_structure_from_file` reads from `exampleText`. -/
def exampleReloadedImage : ForestImage :=
  ⟨2, 3,
    [⟨-1, 0, 0, 0⟩, ⟨1, -1, 0, mkRat 1 2⟩,
     ⟨0, 0, 0, 0⟩, ⟨-1, 1, 0, 0⟩,
     ⟨0, 0, 0, 0⟩, ⟨0, 0, 0, 0⟩]⟩

/-- A file for two trees that declares 1 + 5 = 6 nodes and holds the first four
records only. -/
def truncatedText : List Token :=
  [Token.int 2,
   Token.int 1, Token.int 1,
   Token.int 5, Token.int 3,
   Token.int (-1), Token.int 0, Token.int 0, Token.real 0,
   Token.int 1, Token.int (-1), Token.int 0, Token.real (mkRat 1 2),
   Token.int 3, Token.int (-1), Token.int 1, Token.real (mkRat 1 4),
   Token.int (-1), Token.int 1, Token.int 0, Token.real 0]

/-- Constants with five trees. -/
def fiveTreeConsts : Consts := ⟨5, 10, 1024, id, id⟩

/-- Whether a member function returned. -/
def Outcome.isOk {σ : Type} : Outcome σ → Bool
  | Outcome.ok _ => true
  | _ => false

/-- Kernels that leave the reservoirs and the predictions as they are. -/
def exampleKernels : Kernels Unit :=
  { find_leaves := fun _ _ => []
    add_examples := fun reservoirs _ _ => reservoirs
    find_modes := fun _ predictions _ _ => predictions
    find_modes_length := fun _ _ _ _ => rfl }

/-! ## Runs of the scheduler -/

/-- The leaves the next call of `add_features_to_forest` clusters: the window it
passes to `find_modes`. -/
def GPUForest.clustered (self : GPUForest) : List Int :=
  match self.m_predictionsBlock with
  | some predictions =>
    clusteredLeaves self.m_reservoirUpdateStartIdx
      (updateCount self.m_maxReservoirsToUpdate self.m_reservoirUpdateStartIdx
        predictions.length)
  | none => []

/-- Consecutive calls of `add_features_to_forest`, one per frame. -/
def GPUForest.add_frames {Features : Type} (kernels : Kernels Features) :
    (frames : List Features) → (self : GPUForest) → Outcome GPUForest
  | [], self => Outcome.ok self
  | features :: frames, self =>
    match self.add_features_to_forest kernels features with
    | Outcome.ok self => GPUForest.add_frames kernels frames self
    | other => other

/-- The windows clustered by consecutive calls of `add_features_to_forest`, in the
order of the calls. -/
def GPUForest.clusteredBy {Features : Type} (kernels : Kernels Features) :
    (frames : List Features) → (self : GPUForest) → List (List Int)
  | [], _ => []
  | features :: frames, self =>
    self.clustered ::
      (match self.add_features_to_forest kernels features with
        | Outcome.ok self => GPUForest.clusteredBy kernels frames self
        | _ => [])

/-- The quotient `a / b` rounded up, for `b > 0`. -/
def ceilDiv (a b : Int) : Int := (a + b - 1) / b

/-- A state the scheduler can run on: the three pointers are set, the predictions
block has `L` entries and the window size is `M`. -/
def GPUForest.Schedulable (self : GPUForest) (L : Nat) (M : Int) : Prop :=
  (∃ image, self.m_forestImage = some image) ∧
    (∃ predictions, self.m_predictionsBlock = some predictions ∧ predictions.length = L) ∧
    (∃ reservoirs, self.m_leafReservoirs = some reservoirs) ∧
    self.m_maxReservoirsToUpdate = M

/-- The number of frames from the first window of a run to the next window of the
run that holds `leaf`. -/
def framesToNext (windows : List (List Int)) (leaf : Int) : Option Nat :=
  match windows with
  | [] => none
  | _ :: rest => (rest.findIdx? (fun w => decide (leaf ∈ w))).map (fun k => k + 1)

/-- The example forest with a window of two leaves. -/
def smallWindowForest : GPUForest :=
  { exampleForest with m_maxReservoirsToUpdate := 2 }

/-- A state with 1500 leaves (a predictions block and reservoirs of 1500 entries),
the window of 1000 leaves the constructor sets, and the cursor at 0. -/
def bigForest : GPUForest :=
  { exampleForest with
    m_predictionsBlock := some (List.replicate 1500 GPUForestPrediction.zero)
    m_leafReservoirs := some (GPUReservoir.create 1024 1500) }

/-! ## Reset and evaluation -/

/-- Modelled from the spec: `GPUReservoir::clear()` (section 4.3; `GPUReservoir_CUDA`
is not among the sources) resets all reservoirs to empty with zero seen-count. -/
def GPUReservoir.clear (reservoirs : GPUReservoir) : GPUReservoir :=
  ⟨reservoirs.capacity, reservoirs.reservoirs.map (fun _ => ⟨[], 0⟩)⟩

/-- The function `GPUForest::reset_predictions`: `m_predictionsBlock->Clear()` sets
every prediction to zero bytes, `m_leafReservoirs->clear()` empties the
reservoirs. Undefined when one of the two pointers is null. -/
def GPUForest.reset_predictions (self : GPUForest) : Outcome GPUForest :=
  match self.m_predictionsBlock, self.m_leafReservoirs with
  | some predictions, some reservoirs =>
    Outcome.ok
      { self with
        m_predictionsBlock := some (predictions.map (fun _ => GPUForestPrediction.zero))
        m_leafReservoirs := some reservoirs.clear }
  | _, _ => Outcome.undefined

/-- The function `GPUForest::evaluate_forest`: `find_leaves(features, m_leafImage)`
fills the leaf image, `get_predictions(m_leafImage, predictions)` fills the output
image. The two kernels are not among the sources; by section 4.2 `find_leaves`
writes its output only, and `get_predictions` reads the predictions block and the
leaf image. The result is the state and the output image. Undefined when the
node image or the predictions block is null. -/
def GPUForest.evaluate_forest {Features Predictions : Type} (kernels : Kernels Features)
    (get_predictions : List GPUForestPrediction → List (List Int) → Predictions)
    (features : Features) (self : GPUForest) : Outcome (GPUForest × Predictions) :=
  match self.m_forestImage, self.m_predictionsBlock with
  | some image, some predictions =>
    let leafImage := kernels.find_leaves image features
    Outcome.ok ({ self with m_leafImage := leafImage }, get_predictions predictions leafImage)
  | _, _ => Outcome.undefined

/-! ## Leaf payloads -/

/-- A trained mode has the channels `convert_predictions` reads: a position
Gaussian `[0]` with a mean of 3 components and a 3 x 3 inverse covariance, and a
colour Gaussian `[1]` with a mean of at least 3 components. -/
def modeHasChannels (mode : List PredictedGaussianMean) : Bool :=
  match mode[0]?, mode[1]? with
  | some g0, some g1 =>
    decide (g0._mean.length = 3 ∧ g0._inverseCovariance.length = 9 ∧ 3 ≤ g1._mean.length)
  | _, _ => false

/-- A leaf payload all of whose modes have the channels `convert_predictions` reads. -/
def PredictionGaussianMean.wellFormed (p : PredictionGaussianMean) : Bool :=
  p._modes.all modeHasChannels

/-! ## The file format, as section 6 states it -/

/-- The node records the file format prescribes for the trees `treeIdx`,
`treeIdx + 1`, ... with the node counts `counts`: for each tree in index order,
the records of its slots `0, ..., nodeCount - 1` in slot order. -/
def formatRecords (K : Consts) (forestData : List GPUForestNode) :
    (counts : List Int) → (treeIdx : Nat) → Option (List Token)
  | [], _ => some []
  | nodeCount :: counts, treeIdx =>
    match writeTreeNodes K forestData treeIdx nodeCount.toNat 0,
        formatRecords K forestData counts (treeIdx + 1) with
    | some records, some rest => some (records ++ rest)
    | _, _ => none

/-- The text the file format prescribes for a forest: the tree count, the node and
leaf counts of every tree, then the node records of every tree. -/
def formatText (K : Consts) (self : GPUForest) : Option (List Token) :=
  match writeDims self K.GPUFOREST_NTREES 0, self.m_forestImage with
  | some dims, some image =>
    match formatRecords K image.data (self.m_nbNodesPerTree.take K.GPUFOREST_NTREES) 0 with
    | some records => some (Token.int K.GPUFOREST_NTREES :: (dims ++ records))
    | none => none
  | _, _ => none

/-- The text the file format prescribes for `exampleForest`: one record for tree 0
and three records for tree 1. -/
def exampleFormatText : List Token :=
  [Token.int 2,
   Token.int 1, Token.int 1,
   Token.int 3, Token.int 2,
   Token.int (-1), Token.int 0, Token.int 0, Token.real 0,
   Token.int 1, Token.int (-1), Token.int 0, Token.real (mkRat 1 2),
   Token.int (-1), Token.int 1, Token.int 0, Token.real 0,
   Token.int (-1), Token.int 2, Token.int 0, Token.real 0]

/-- The node and leaf counts as they stand in a file: `nodeCount_t leafCount_t` for
every tree. -/
def dimTokens : List Int → List Int → List Token
  | nbNodes :: nodeCounts, nbLeaves :: leafCounts =>
    Token.int nbNodes :: Token.int nbLeaves :: dimTokens nodeCounts leafCounts
  | _, _ => []

/-- The sums `totalNbLeaves += nbLeaves` of `load_structure_from_file`, started at
`acc`, all stay in the range of `int`. -/
def sumsFitInt32 : Int → List Int → Bool
  | _, [] => true
  | acc, nbLeaves :: leafCounts =>
    decide (-2147483648 ≤ acc + nbLeaves ∧ acc + nbLeaves < 2147483648) &&
      sumsFitInt32 (acc + nbLeaves) leafCounts

/-- The state `load_structure_from_file` leaves when it reads `exampleText`. -/
def exampleReloaded : GPUForest :=
  { exampleForest with
    m_forestImage := some exampleReloadedImage
    m_predictionsBlock := some [⟨[], 0⟩, ⟨[], 0⟩, ⟨[], 0⟩] }

/-! ## Reachable slots -/

/-- Slot `slot` of tree `tree_idx` is reachable from slot `root` by following the
links of the node array: from a slot whose `leftChildIdx` is a slot `c`, to `c`
and to `c + 1`. -/
inductive Reachable (data : List GPUForestNode) (n_trees tree_idx : Nat) : Nat → Nat → Prop
  | refl (slot : Nat) : Reachable data n_trees tree_idx slot slot
  | left (root slot c : Nat) (node : GPUForestNode) :
    data[root * n_trees + tree_idx]? = some node → node.leftChildIdx = (c : Int) →
    Reachable data n_trees tree_idx c slot → Reachable data n_trees tree_idx root slot
  | right (root slot c : Nat) (node : GPUForestNode) :
    data[root * n_trees + tree_idx]? = some node → node.leftChildIdx = (c : Int) →
    Reachable data n_trees tree_idx (c + 1) slot → Reachable data n_trees tree_idx root slot

/-! ## Reservoirs -/

/-- Modelled from the spec: the insertion of one example into the reservoir of a
leaf by `add_examples` (section 4.3; `GPUReservoir_CUDA` is not among the
sources). While the reservoir is below capacity the example is appended; once
it is full, a slot is drawn uniformly among the examples seen so far (`draw` is
the random number of this insertion) and the example replaces it when the slot
exists, that is with probability `capacity / examplesSeenSoFar`; the seen-count
is incremented regardless. -/
def Reservoir.add (capacity : Nat) (reservoir : Reservoir) (example_ : PositionColourExample)
    (draw : Nat) : Reservoir :=
  if reservoir.examples.length < capacity then
    ⟨reservoir.examples ++ [example_], reservoir.seen + 1⟩
  else
    let slot := draw % (reservoir.seen + 1)
    if slot < capacity then ⟨reservoir.examples.set slot example_, reservoir.seen + 1⟩
    else ⟨reservoir.examples, reservoir.seen + 1⟩

/-- Modelled from the spec: the insertion of a sequence of examples, each with its
random number, into the reservoir of one leaf. -/
def Reservoir.addAll (capacity : Nat) :
    (reservoir : Reservoir) → (inputs : List (PositionColourExample × Nat)) → Reservoir
  | reservoir, [] => reservoir
  | reservoir, (example_, draw) :: inputs =>
    Reservoir.addAll capacity (Reservoir.add capacity reservoir example_ draw) inputs

/-- A trained mode with two channels, the colour means being 21/2, 20 and 2559/10. -/
def exampleMode : List PredictedGaussianMean :=
  [⟨5, [1, 2, 3], [1, 0, 0, 0, 1, 0, 0, 0, 1], 1⟩,
   ⟨5, [mkRat 21 2, 20, mkRat 2559 10], [1, 0, 0, 0, 1, 0, 0, 0, 1], 1⟩]

/-- Constants with room for a single mode per leaf. -/
def oneModeConsts : Consts := ⟨2, 1, 1024, id, id⟩

/-! ## The writes of `convert_node` -/

/-- The recursion `GPUForest::convert_node` as in `convert_node`, together with the
list `written` of the slots `output_idx` whose record it has written, in the
order of the writes. -/
def convert_node_traced : (fuel : Nat) → (tree : Learner) → (node_idx tree_idx n_trees output_idx
    first_free_idx : Nat) → (gpu_nodes : List GPUForestNode) →
    (m_leafPredictions : List PredictionGaussianMean) → (written : List Nat) →
    Option (Nat × List GPUForestNode × List PredictionGaussianMean × List Nat)
  | 0, _, _, _, _, _, _, _, _, _ => none
  | fuel + 1, tree, node_idx, tree_idx, n_trees, output_idx, first_free_idx, gpu_nodes,
      m_leafPredictions, written =>
    match tree.nodes[node_idx]? with
    | none => none
    | some node =>
      if output_idx * n_trees + tree_idx < gpu_nodes.length then
        match node with
        | Node.leaf prediction =>
          let gpuNode : GPUForestNode :=
            { leftChildIdx := -1
              featureIdx := 0
              featureThreshold := 0
              leafIdx := m_leafPredictions.length }
          let pred : PredictionGaussianMean :=
            match prediction with
            | some pred => pred
            | none => ⟨[]⟩
          some (first_free_idx, gpu_nodes.set (output_idx * n_trees + tree_idx) gpuNode,
            m_leafPredictions ++ [pred], written ++ [output_idx])
        | Node.inner leftChildIndex rightChildIndex params =>
          match params[1]?, params[2]? with
          | some p1, some p2 =>
            let leftChildIdx := first_free_idx
            let rightChildIdx := first_free_idx + 1
            let gpuNode : GPUForestNode :=
              { leafIdx := -1
                leftChildIdx := leftChildIdx
                featureIdx := floatToInt p1
                featureThreshold := p2 }
            let gpu_nodes := gpu_nodes.set (output_idx * n_trees + tree_idx) gpuNode
            match convert_node_traced fuel tree leftChildIndex tree_idx n_trees leftChildIdx
                (first_free_idx + 2) gpu_nodes m_leafPredictions (written ++ [output_idx]) with
            | none => none
            | some (first_free_idx, gpu_nodes, m_leafPredictions, written) =>
              convert_node_traced fuel tree rightChildIndex tree_idx n_trees rightChildIdx
                first_free_idx gpu_nodes m_leafPredictions written
          | _, _ => none
      else none

/-- The slots of the nodes of a subtree whose root is in slot `output_idx` and whose
descendants take the slots from `first_free_idx` on, in the order `convert_node`
visits the nodes. -/
def BTree.slots {α : Type} : BTree α → (output_idx first_free_idx : Nat) → List Nat
  | leaf _, output_idx, _ => [output_idx]
  | inner _ _ l r, output_idx, first_free_idx =>
    output_idx ::
      (l.slots first_free_idx (first_free_idx + 2)
        ++ r.slots (first_free_idx + 1) (first_free_idx + 2 + l.nbDesc))

/-! ## Sequences of calls -/

/-- A call of one of the three member functions that work on a built forest. -/
inductive SchedulerCall (Features : Type)
  | add_features_to_forest (features : Features)
  | evaluate_forest (features : Features)
  | reset_predictions

/-- One call on a forest; the output image of `evaluate_forest` is dropped. -/
def GPUForest.call {Features Predictions : Type} (kernels : Kernels Features)
    (get_predictions : List GPUForestPrediction → List (List Int) → Predictions) :
    SchedulerCall Features → GPUForest → Outcome GPUForest
  | SchedulerCall.add_features_to_forest features, self =>
    self.add_features_to_forest kernels features
  | SchedulerCall.evaluate_forest features, self =>
    match self.evaluate_forest kernels get_predictions features with
    | Outcome.ok (self, _) => Outcome.ok self
    | Outcome.thrown what (self, _) => Outcome.thrown what self
    | Outcome.undefined => Outcome.undefined
  | SchedulerCall.reset_predictions, self => self.reset_predictions

/-- A sequence of calls on a forest, each on the state the one before leaves. -/
def GPUForest.calls {Features Predictions : Type} (kernels : Kernels Features)
    (get_predictions : List GPUForestPrediction → List (List Int) → Predictions) :
    List (SchedulerCall Features) → GPUForest → Outcome GPUForest
  | [], self => Outcome.ok self
  | c :: cs, self =>
    match self.call kernels get_predictions c with
    | Outcome.ok self => GPUForest.calls kernels get_predictions cs self
    | other => other

/-- The invariant of the scheduler: the state is schedulable and the cursor is a
multiple of the window size inside `[0, L)`. -/
def GPUForest.CursorOk (self : GPUForest) (L : Nat) (M : Int) : Prop :=
  self.Schedulable L M ∧
    (∃ j : Nat, self.m_reservoirUpdateStartIdx = (j : Int) * M) ∧
    0 ≤ self.m_reservoirUpdateStartIdx ∧ self.m_reservoirUpdateStartIdx < (L : Int)

/-! ## The feature grid of `RGBDPatchFeatureCalculator_CPU::compute_feature` -/

/-- The dimensions `outDims` of the output images of `compute_feature`:
`(noDims.x / m_featureStep, noDims.y / m_featureStep)`, the division being the
truncating division of the language. -/
def compute_feature_outDims (width height m_featureStep : Int) : Int × Int :=
  (Int.tdiv width m_featureStep, Int.tdiv height m_featureStep)

/-- The pairs `(xyOut, xyIn)` for which the loops of `compute_feature` call
`compute_colour_patch_feature` and `compute_depth_patch_feature`, in the order of
the loops: `yOut` over `[0, outDims.height)`, `xOut` over `[0, outDims.width)`,
`xyIn = (xOut * m_featureStep, yOut * m_featureStep)`. -/
def compute_feature_samples (width height m_featureStep : Int) :
    List ((Int × Int) × (Int × Int)) :=
  let outDims := compute_feature_outDims width height m_featureStep
  ((List.range outDims.2.toNat).map (fun (yOut : Nat) =>
    (List.range outDims.1.toNat).map (fun (xOut : Nat) =>
      (((xOut : Int), (yOut : Int)),
        ((xOut : Int) * m_featureStep, (yOut : Int) * m_featureStep))))).flatten

/-! ## The cost function of `relocopt` -/

/-- The constant `std::numeric_limits<float>::max()`. -/
def FLT_MAX : ℚ := 340282346638528859811704183484516925440

/-- The extraction `fs >> x1 >> ... >> xn` of `n` floats: the values and the rest of
the text, `none` when the stream fails. -/
def readFloats (K : Consts) : Nat → List Token → Option (List ℚ × List Token)
  | 0, tokens => some ([], tokens)
  | n + 1, tokens =>
    match readFloat K tokens with
    | none => none
    | some (x, rest) =>
      match readFloats K n rest with
      | none => none
      | some (xs, rest) => some (x :: xs, rest)

/-- The function `grove_cost_fn` of `relocopt` (built without `COST_IS_TIME`), as a
function of what the run of the script leaves: its exit code and the text of the
output file (`none` when the file cannot be opened). `addFloat` is the addition
of two floats. The result is the cost returned, or the message of the exception
thrown. -/
def grove_cost_fn (K : Consts) (addFloat : ℚ → ℚ → ℚ) (exitCode : Int)
    (output : Option (List Token)) : Except String ℚ :=
  if exitCode ≠ 0 then Except.error "System call failed. Terminating evaluation."
  else
    let cost := FLT_MAX
    match output with
    | none => Except.ok cost
    | some tokens =>
      match readFloats K 7 tokens with
      | some ([relocLoss, _, trainingMicroseconds, updateMicroseconds, _, _,
          totalRelocalisationMicroseconds], _) =>
        let maxTrainingTime : ℚ := 10000
        let maxRelocalisationTime : ℚ := 150000
        let maxUpdateTime : ℚ := 10000
        let cost := relocLoss
        if trainingMicroseconds > maxTrainingTime ∨
            totalRelocalisationMicroseconds > maxRelocalisationTime ∨
            updateMicroseconds > maxUpdateTime then
          Except.ok (addFloat cost 100)
        else Except.ok cost
      | _ => Except.ok cost

/-- The output file of a run with loss 1 whose relocalisation took 200 ms. -/
def slowRunOutput : List Token :=
  [Token.real 1, Token.real 2, Token.real 5000, Token.real 5000, Token.real 1000,
    Token.real 1000, Token.real 200000]

/-! ## A forest of two single-leaf trees -/

/-- An ensemble of two trees that are a single leaf each. -/
def twoLeafEnsemble : EnsembleLearner :=
  ⟨[⟨[Node.leaf none], 1, 1⟩, ⟨[Node.leaf none], 1, 1⟩]⟩

/-- The forest the constructor builds from `twoLeafEnsemble`: a node image of
2 x 1 slots. -/
def twoLeafForest : GPUForest :=
  { m_forestImage := some ⟨2, 1, [⟨-1, 0, 0, 0⟩, ⟨-1, 1, 0, 0⟩]⟩
    m_predictionsBlock := some [⟨[], 0⟩, ⟨[], 0⟩]
    m_leafReservoirs := some ⟨1024, [⟨[], 0⟩, ⟨[], 0⟩]⟩
    m_nbNodesPerTree := [1, 1]
    m_nbLeavesPerTree := [1, 1]
    m_leafPredictions := (twoLeafEnsemble.trees.map Learner.payloads).flatten
    m_leafImage := []
    m_maxReservoirsToUpdate := 1000
    m_reservoirUpdateStartIdx := 0 }

/-- The text the file format prescribes for `twoLeafForest`: the tree count, the
dimensions of the two trees, and one record per tree. -/
def twoLeafText : List Token :=
  [Token.int 2,
   Token.int 1, Token.int 1,
   Token.int 1, Token.int 1,
   Token.int (-1), Token.int 0, Token.int 0, Token.real 0,
   Token.int (-1), Token.int 1, Token.int 0, Token.real 0]

/-! ## Lemmas on `convert_node` -/

theorem slot_index_inj {T s t s' t' : Nat} (ht : t < T) (ht' : t' < T)
    (h : s * T + t = s' * T + t') : s = s' ∧ t = t' := by
  have h1 : (s * T + t) / T = s := by
    rw [Nat.add_comm, Nat.add_mul_div_right _ _ (by omega), Nat.div_eq_of_lt ht, Nat.zero_add]
  have h2 : (s' * T + t') / T = s' := by
    rw [Nat.add_comm, Nat.add_mul_div_right _ _ (by omega), Nat.div_eq_of_lt ht', Nat.zero_add]
  have hs : s = s' := by rw [← h1, ← h2, h]
  subst hs
  exact ⟨rfl, by omega⟩

theorem slot_index_lt {T H s t : Nat} (ht : t < T) (hs : s < H) : s * T + t < H * T := by
  have : (s + 1) * T ≤ H * T := Nat.mul_le_mul_right T hs
  have h2 : (s + 1) * T = s * T + T := by ring
  omega

theorem BTree.nbNodes_eq {α : Type} (bt : BTree α) : bt.nbNodes = bt.nbDesc + 1 := by
  induction bt with
  | leaf a => rfl
  | inner f th l r ihl ihr => simp only [BTree.nbNodes, BTree.nbDesc, ihl, ihr]; omega

theorem BTree.nbLeaves_pos {α : Type} (bt : BTree α) : 0 < bt.nbLeaves := by
  induction bt with
  | leaf a => simp [BTree.nbLeaves]
  | inner f th l r ihl ihr => simp only [BTree.nbLeaves]; omega

theorem BTree.length_labels {α : Type} (bt : BTree α) : bt.labels.length = bt.nbLeaves := by
  induction bt with
  | leaf a => rfl
  | inner f th l r ihl ihr => simp [BTree.labels, BTree.nbLeaves, ihl, ihr]

/-- The layout of a subtree only depends on the slots it occupies. -/
theorem Enc.congr {data data' : List GPUForestNode} {T t : Nat}
    (bt : BTree PredictionGaussianMean) :
    ∀ (out ff L : Nat),
      (∀ s, (s = out ∨ (ff ≤ s ∧ s < ff + bt.nbDesc)) → data'[s * T + t]? = data[s * T + t]?) →
      Enc data T t bt out ff L → Enc data' T t bt out ff L := by
  induction bt with
  | leaf a =>
    intro out ff L hfr h
    simp only [Enc] at h ⊢
    rw [hfr out (Or.inl rfl)]; exact h
  | inner f th l r ihl ihr =>
    intro out ff L hfr h
    simp only [Enc] at h ⊢
    simp only [BTree.nbDesc] at hfr
    refine ⟨?_, ?_, ?_⟩
    · rw [hfr out (Or.inl rfl)]; exact h.1
    · refine ihl ff (ff + 2) L ?_ h.2.1
      intro s hs
      apply hfr
      right; omega
    · refine ihr (ff + 1) (ff + 2 + l.nbDesc) (L + l.nbLeaves) ?_ h.2.2
      intro s hs
      apply hfr
      right; omega

/-- What one call of `convert_node` does on a subtree that `toTree` can read: it
returns, the free index advances by the number of descendants, the payloads of
the leaves are appended in depth-first order, only the slots of the subtree are
written, and they hold the layout `Enc`. -/
theorem convert_node_enc (tree : Learner) (t T H : Nat) (ht : t < T) :
    ∀ (fuel i out ff : Nat) (gpu : List GPUForestNode) (lp : List PredictionGaussianMean)
      (bt : BTree PredictionGaussianMean),
      tree.toTree fuel i = some bt → gpu.length = H * T → out < ff → ff + bt.nbDesc ≤ H →
      ∃ gpu', convert_node fuel tree i t T out ff gpu lp
          = some (ff + bt.nbDesc, gpu', lp ++ bt.labels) ∧
        gpu'.length = gpu.length ∧
        (∀ s t', t' < T → (t' ≠ t ∨ (s ≠ out ∧ (s < ff ∨ ff + bt.nbDesc ≤ s))) →
          gpu'[s * T + t']? = gpu[s * T + t']?) ∧
        Enc gpu' T t bt out ff lp.length := by
  intro fuel
  induction fuel with
  | zero => intro i out ff gpu lp bt h; simp [Learner.toTree] at h
  | succ fuel ih =>
    intro i out ff gpu lp bt h hlen hout hH
    have hidx : out * T + t < gpu.length := by
      rw [hlen]; exact slot_index_lt ht (by omega)
    have hset : ∀ (n : GPUForestNode) s t', t' < T → (t' ≠ t ∨ s ≠ out) →
        (gpu.set (out * T + t) n)[s * T + t']? = gpu[s * T + t']? := by
      intro n s t' ht' hne
      apply List.getElem?_set_ne
      intro heq
      have := slot_index_inj ht ht' heq
      omega
    unfold Learner.toTree at h
    unfold convert_node
    cases hnode : tree.nodes[i]? with
    | none => simp [hnode] at h
    | some node =>
      cases node with
      | leaf prediction =>
        simp only [hnode, Option.some.injEq] at h
        subst h
        simp only [hidx, if_true, BTree.nbDesc, BTree.labels, Nat.add_zero]
        refine ⟨_, rfl, by simp, ?_, ?_⟩
        · intro s t' ht' hcond
          apply hset _ s t' ht'
          omega
        · simp only [Enc]
          rw [List.getElem?_set_self hidx]
      | inner li ri params =>
        simp only [hnode] at h
        cases hp1 : params[1]? with
        | none => simp [hp1] at h
        | some p1 =>
          cases hp2 : params[2]? with
          | none => simp [hp1, hp2] at h
          | some p2 =>
            cases hl : tree.toTree fuel li with
            | none => simp [hp1, hp2, hl] at h
            | some bl =>
              cases hr : tree.toTree fuel ri with
              | none => simp [hp1, hp2, hl, hr] at h
              | some br =>
                simp only [hp1, hp2, hl, hr, Option.some.injEq] at h
                subst h
                simp only [BTree.nbDesc] at hH ⊢
                simp only [hidx, if_true, hp1, hp2]
                obtain ⟨g2, hc2, hlen2, hfr2, henc2⟩ :=
                  ih li ff (ff + 2) (gpu.set (out * T + t) ⟨ff, -1, floatToInt p1, p2⟩) lp bl hl
                    (by simp [hlen]) (by omega) (by omega)
                obtain ⟨g3, hc3, hlen3, hfr3, henc3⟩ :=
                  ih ri (ff + 1) (ff + 2 + bl.nbDesc) g2 (lp ++ bl.labels) br hr
                    (by rw [hlen2]; simp [hlen]) (by omega) (by omega)
                simp only [hc2]
                refine ⟨g3, ?_, ?_, ?_, ?_⟩
                · rw [hc3]
                  simp only [BTree.labels, List.append_assoc]
                  congr 2
                  omega
                · rw [hlen3, hlen2]; simp
                · intro s t' ht' hcond
                  rw [hfr3 s t' ht' (by omega), hfr2 s t' ht' (by omega)]
                  apply hset _ s t' ht'
                  omega
                · simp only [Enc]
                  refine ⟨?_, ?_, ?_⟩
                  · rw [hfr3 out t ht (by omega), hfr2 out t ht (by omega),
                      List.getElem?_set_self hidx]
                  · refine Enc.congr bl ff (ff + 2) lp.length ?_ henc2
                    intro s hs
                    exact hfr3 s t ht (by omega)
                  · have := henc3
                    simp only [List.length_append, BTree.length_labels] at this
                    exact this

theorem Learner.wellFormed_tree {K : Consts} {tree : Learner} (h : tree.wellFormed K = true) :
    ∃ bt, tree.toTree tree.nodes.length 0 = some bt ∧ bt.nbNodes = tree.nbNodes ∧
      bt.nbLeaves = tree.nbLeaves ∧ tree.payloads = bt.labels ∧
      ∀ p ∈ bt.labels, (convertPrediction K p).isSome = true := by
  unfold Learner.wellFormed at h
  cases hbt : tree.toTree tree.nodes.length 0 with
  | none => simp [hbt] at h
  | some bt =>
    simp only [hbt, Bool.and_eq_true, beq_iff_eq, List.all_eq_true] at h
    exact ⟨bt, rfl, h.1.1, h.1.2, by simp [Learner.payloads, hbt], h.2⟩

theorem mapOption_isSome {α β : Type} (f : α → Option β) :
    ∀ (l : List α), (∀ a ∈ l, (f a).isSome = true) →
      ∃ r, mapOption f l = some r ∧ r.length = l.length ∧
        ∀ (i : Nat) (a : α), l[i]? = some a → r[i]? = f a := by
  intro l
  induction l with
  | nil => intro _; exact ⟨[], rfl, rfl, by simp⟩
  | cons a as ih =>
    intro h
    obtain ⟨r, hr, hlen, hget⟩ := ih (fun x hx => h x (List.mem_cons_of_mem a hx))
    have ha := h a (List.mem_cons_self a as)
    cases hfa : f a with
    | none => simp [hfa] at ha
    | some b =>
      refine ⟨b :: r, by simp [mapOption, hfa, hr], by simp [hlen], ?_⟩
      intro i x hx
      cases i with
      | zero => simp at hx; subst hx; simp [hfa]
      | succ i => simp at hx; simpa using hget i x hx

theorem le_foldr_max (l : List Nat) : ∀ n ∈ l, n ≤ l.foldr max 0 := by
  induction l with
  | nil => simp
  | cons a as ih =>
    intro n hn
    simp only [List.foldr_cons]
    rcases List.mem_cons.mp hn with h | h
    · subst h; exact le_max_left _ _
    · exact le_trans (ih n h) (le_max_right _ _)

theorem leavesBefore_zero (trees : List Learner) : leavesBefore trees 0 = 0 := by
  simp [leavesBefore]

theorem leavesBefore_cons_succ (tree : Learner) (trees : List Learner) (k : Nat) :
    leavesBefore (tree :: trees) (k + 1) = tree.nbLeaves + leavesBefore trees k := by
  simp [leavesBefore]

/-- The loop of the constructor over well-formed trees: it completes, records the
node and leaf counts and the payloads of every tree, leaves the columns of the
other trees and the slots beyond `GetNbNodes` untouched, and every tree has the
layout `Enc` from slot 0, its leaves numbered after those of the trees before. -/
theorem convertTrees_enc (K : Consts) (T H : Nat) :
    ∀ (trees : List Learner) (treeIdx : Nat) (data : List GPUForestNode) (self : GPUForest),
      (∀ tree ∈ trees, tree.wellFormed K = true ∧ tree.nbNodes ≤ H) →
      treeIdx + trees.length ≤ T → data.length = H * T →
      ∃ data', convertTrees T trees treeIdx data self = some (data',
          { self with
            m_nbNodesPerTree := self.m_nbNodesPerTree ++ trees.map (fun tr => (tr.nbNodes : Int))
            m_nbLeavesPerTree :=
              self.m_nbLeavesPerTree ++ trees.map (fun tr => (tr.nbLeaves : Int))
            m_leafPredictions :=
              self.m_leafPredictions ++ (trees.map Learner.payloads).flatten }) ∧
        data'.length = data.length ∧
        (∀ s t', t' < T → (t' < treeIdx ∨ treeIdx + trees.length ≤ t') →
          data'[s * T + t']? = data[s * T + t']?) ∧
        (∀ k tree, trees[k]? = some tree → ∀ s, tree.nbNodes ≤ s →
          data'[s * T + (treeIdx + k)]? = data[s * T + (treeIdx + k)]?) ∧
        (∀ k tree, trees[k]? = some tree → ∃ bt, tree.toTree tree.nodes.length 0 = some bt ∧
          Enc data' T (treeIdx + k) bt 0 1 (self.m_leafPredictions.length + leavesBefore trees k)) := by
  intro trees
  induction trees with
  | nil =>
    intro treeIdx data self _ _ _
    refine ⟨data, ?_, rfl, fun _ _ _ _ => rfl, ?_, ?_⟩
    · simp [convertTrees]
    · intro k tree hk; simp at hk
    · intro k tree hk; simp at hk
  | cons tree rest ih =>
    intro treeIdx data self hwf hT hlen
    obtain ⟨hwf0, hH0⟩ := hwf tree (List.mem_cons_self _ _)
    obtain ⟨bt, hbt, hnodes, hleaves, hpay, -⟩ := Learner.wellFormed_tree hwf0
    have hlt : treeIdx < T := by simp at hT; omega
    have hsz := bt.nbNodes_eq
    obtain ⟨g1, hc1, hlen1, hfr1, henc1⟩ :=
      convert_node_enc tree treeIdx T H hlt tree.nodes.length 0 0 1 data self.m_leafPredictions bt
        hbt hlen (by omega) (by omega)
    obtain ⟨g2, hc2, hlen2, hfr2, hun2, henc2⟩ :=
      ih (treeIdx + 1) g1
        { self with
          m_nbNodesPerTree := self.m_nbNodesPerTree ++ [(tree.nbNodes : Int)]
          m_nbLeavesPerTree := self.m_nbLeavesPerTree ++ [(tree.nbLeaves : Int)]
          m_leafPredictions := self.m_leafPredictions ++ bt.labels }
        (fun x hx => hwf x (List.mem_cons_of_mem _ hx))
        (by simp at hT ⊢; omega) (by rw [hlen1]; exact hlen)
    refine ⟨g2, ?_, ?_, ?_, ?_, ?_⟩
    · simp only [convertTrees, hc1, hc2]
      simp [hpay]
    · rw [hlen2, hlen1]
    · intro s t' ht' hcond
      simp only [List.length_cons] at hcond
      rw [hfr2 s t' ht' (by omega), hfr1 s t' ht' (by omega)]
    · intro k x hk s hs
      cases k with
      | zero =>
        simp at hk; subst hk
        rw [Nat.add_zero, hfr2 s treeIdx hlt (by omega), hfr1 s treeIdx hlt (by omega)]
      | succ k =>
        simp at hk
        have hk' : k < rest.length := by
          rcases List.getElem?_eq_some.mp hk with ⟨h, _⟩; exact h
        simp only [List.length_cons] at hT
        have e1 : treeIdx + (k + 1) = treeIdx + 1 + k := by omega
        rw [e1, hun2 k x hk s hs, hfr1 s (treeIdx + 1 + k) (by omega) (by omega)]
    · intro k x hk
      cases k with
      | zero =>
        simp at hk; subst hk
        refine ⟨bt, hbt, ?_⟩
        rw [leavesBefore_zero, Nat.add_zero, Nat.add_zero]
        refine Enc.congr bt 0 1 _ ?_ henc1
        intro s _
        exact hfr2 s treeIdx hlt (by omega)
      | succ k =>
        simp at hk
        obtain ⟨bx, hbx, hencx⟩ := henc2 k x hk
        refine ⟨bx, hbx, ?_⟩
        have e1 : treeIdx + (k + 1) = treeIdx + 1 + k := by omega
        rw [e1, leavesBefore_cons_succ]
        simp only [List.length_append, BTree.length_labels, hleaves] at hencx
        rw [← Nat.add_assoc]
        exact hencx

theorem EnsembleLearner.wellFormed_trees {K : Consts} {e : EnsembleLearner}
    (h : e.wellFormed K = true) :
    e.trees.length = K.GPUFOREST_NTREES ∧ ∀ tree ∈ e.trees, tree.wellFormed K = true := by
  simpa [EnsembleLearner.wellFormed] using h

theorem length_payloads_flatten (K : Consts) :
    ∀ (trees : List Learner), (∀ tree ∈ trees, tree.wellFormed K = true) →
      (trees.map Learner.payloads).flatten.length = (trees.map Learner.nbLeaves).sum := by
  intro trees
  induction trees with
  | nil => intro _; rfl
  | cons tree rest ih =>
    intro h
    obtain ⟨bt, -, -, hl, hp, -⟩ := Learner.wellFormed_tree (h tree (List.mem_cons_self _ _))
    simp only [List.map_cons, List.flatten_cons, List.length_append, List.sum_cons]
    rw [ih (fun x hx => h x (List.mem_cons_of_mem _ hx)), hp, BTree.length_labels, hl]

theorem mem_payloads_flatten (K : Consts) :
    ∀ (trees : List Learner), (∀ tree ∈ trees, tree.wellFormed K = true) →
      ∀ p ∈ (trees.map Learner.payloads).flatten, (convertPrediction K p).isSome = true := by
  intro trees h p hp
  simp only [List.mem_flatten, List.mem_map] at hp
  obtain ⟨l, ⟨tree, htree, rfl⟩, hpl⟩ := hp
  obtain ⟨bt, -, -, -, hpay, hall⟩ := Learner.wellFormed_tree (h tree htree)
  rw [hpay] at hpl
  exact hall p hpl

/-- The constructor on a well-formed ensemble: it completes; the state it leaves,
the size of the node array, the zero slots beyond each tree, and the layout of
each tree. -/
theorem build_ok (K : Consts) (e : EnsembleLearner) (hwf : e.wellFormed K = true) :
    ∃ data preds,
      GPUForest.build K e = Outcome.ok
        { m_forestImage := some ⟨K.GPUFOREST_NTREES, e.GetMaxNbNodesInAnyLearner, data⟩
          m_predictionsBlock := some preds
          m_leafReservoirs := some (GPUReservoir.create K.RESERVOIR_SIZE preds.length)
          m_nbNodesPerTree := e.trees.map (fun tr => (tr.nbNodes : Int))
          m_nbLeavesPerTree := e.trees.map (fun tr => (tr.nbLeaves : Int))
          m_leafPredictions := (e.trees.map Learner.payloads).flatten
          m_leafImage := []
          m_maxReservoirsToUpdate := 1000
          m_reservoirUpdateStartIdx := 0 } ∧
      data.length = e.GetMaxNbNodesInAnyLearner * K.GPUFOREST_NTREES ∧
      convert_predictions K (e.trees.map Learner.payloads).flatten = some preds ∧
      preds.length = e.nbLeaves ∧
      (e.trees.map Learner.payloads).flatten.length = e.nbLeaves ∧
      (∀ t tree, e.trees[t]? = some tree → ∀ s, tree.nbNodes ≤ s →
        s < e.GetMaxNbNodesInAnyLearner →
        data[s * K.GPUFOREST_NTREES + t]? = some GPUForestNode.zero) ∧
      (∀ t tree, e.trees[t]? = some tree → ∃ bt, tree.toTree tree.nodes.length 0 = some bt ∧
        bt.nbNodes = tree.nbNodes ∧ bt.nbLeaves = tree.nbLeaves ∧
        tree.nbNodes ≤ e.GetMaxNbNodesInAnyLearner ∧ t < K.GPUFOREST_NTREES ∧
        Enc data K.GPUFOREST_NTREES t bt 0 1 (leavesBefore e.trees t)) := by
  obtain ⟨hT, hall⟩ := EnsembleLearner.wellFormed_trees hwf
  have hmax : ∀ tree ∈ e.trees, tree.nbNodes ≤ e.GetMaxNbNodesInAnyLearner := by
    intro tree htree
    exact le_foldr_max _ _ (List.mem_map_of_mem _ htree)
  have hlen0 : (ForestImage.cleared e.GetNbTrees e.GetMaxNbNodesInAnyLearner).data.length
      = e.GetMaxNbNodesInAnyLearner * K.GPUFOREST_NTREES := by
    simp [ForestImage.cleared, EnsembleLearner.GetNbTrees, hT, Nat.mul_comm]
  obtain ⟨data, hc, hlen, -, hun, henc⟩ :=
    convertTrees_enc K K.GPUFOREST_NTREES e.GetMaxNbNodesInAnyLearner e.trees 0
      (ForestImage.cleared e.GetNbTrees e.GetMaxNbNodesInAnyLearner).data GPUForest.init
      (fun tree htree => ⟨hall tree htree, hmax tree htree⟩) (by omega) hlen0
  obtain ⟨preds, hpreds, hplen, -⟩ :=
    mapOption_isSome (convertPrediction K) _ (mem_payloads_flatten K e.trees hall)
  have hpl := length_payloads_flatten K e.trees hall
  refine ⟨data, preds, ?_, by rw [hlen, hlen0], hpreds, ?_, hpl, ?_, ?_⟩
  · unfold GPUForest.build
    simp only [EnsembleLearner.GetNbTrees, hT, ne_eq, not_true_eq_false, if_false]
    simp only [EnsembleLearner.GetNbTrees, hT] at hc
    simp only [hc]
    simp only [GPUForest.init, List.nil_append, convert_predictions] at hpreds ⊢
    simp only [hpreds]
    simp [ForestImage.cleared]
  · rw [hplen, hpl]; rfl
  · intro t tree ht s hs hsH
    have h1 := hun t tree ht s hs
    simp only [Nat.zero_add] at h1
    rw [h1]
    have ht' : t < K.GPUFOREST_NTREES := by
      rcases List.getElem?_eq_some.mp ht with ⟨h, _⟩; omega
    have := slot_index_lt ht' hsH
    simp only [ForestImage.cleared, EnsembleLearner.GetNbTrees, hT]
    rw [List.getElem?_replicate_of_lt (by rw [Nat.mul_comm K.GPUFOREST_NTREES]; exact this)]
  · intro t tree ht
    obtain ⟨bt, hbt, hencbt⟩ := henc t tree ht
    have hmem : tree ∈ e.trees := List.getElem?_mem ht
    obtain ⟨bt', hbt', hn, hl, -, -⟩ := Learner.wellFormed_tree (hall tree hmem)
    rw [hbt] at hbt'
    cases hbt'
    have ht' : t < K.GPUFOREST_NTREES := by
      rcases List.getElem?_eq_some.mp ht with ⟨h, _⟩; omega
    refine ⟨bt, hbt, hn, hl, hmax tree hmem, ht', ?_⟩
    simpa [GPUForest.init] using hencbt

/-! ## The node array read back -/

theorem BTree.shape_numbered {α : Type} (bt : BTree α) :
    ∀ k, (bt.numbered k).shape = bt.shape := by
  induction bt with
  | leaf a => intro k; rfl
  | inner f th l r ihl ihr => intro k; simp [BTree.numbered, BTree.shape, ihl, ihr]

theorem BTree.nbLeaves_numbered {α : Type} (bt : BTree α) :
    ∀ k, (bt.numbered k).nbLeaves = bt.nbLeaves := by
  induction bt with
  | leaf a => intro k; rfl
  | inner f th l r ihl ihr => intro k; simp [BTree.numbered, BTree.nbLeaves, ihl, ihr]

theorem BTree.labels_numbered {α : Type} (bt : BTree α) :
    ∀ k, (bt.numbered k).labels = (List.range' k bt.nbLeaves).map Int.ofNat := by
  induction bt with
  | leaf a => intro k; simp [BTree.numbered, BTree.labels, BTree.nbLeaves]
  | inner f th l r ihl ihr =>
    intro k
    simp only [BTree.numbered, BTree.labels, BTree.nbLeaves, ihl, ihr]
    rw [← List.map_append, List.range'_append_1, Nat.add_comm r.nbLeaves]

/-- Reading back a layout `Enc` gives the source tree with its leaves numbered. -/
theorem decode_of_enc {data : List GPUForestNode} {T t : Nat}
    (bt : BTree PredictionGaussianMean) :
    ∀ (out ff L fuel : Nat), Enc data T t bt out ff L → bt.nbNodes ≤ fuel →
      decode data T t fuel out = some (bt.numbered L) := by
  induction bt with
  | leaf a =>
    intro out ff L fuel h hf
    simp only [BTree.nbNodes] at hf
    obtain ⟨fuel, rfl⟩ : ∃ k, fuel = k + 1 := ⟨fuel - 1, by omega⟩
    simp only [Enc] at h
    simp [decode, h, BTree.numbered]
  | inner f th l r ihl ihr =>
    intro out ff L fuel h hf
    simp only [BTree.nbNodes] at hf
    obtain ⟨fuel, rfl⟩ : ∃ k, fuel = k + 1 := ⟨fuel - 1, by omega⟩
    simp only [Enc] at h
    obtain ⟨h0, hl, hr⟩ := h
    have e1 : ¬ ((ff : Int) = -1) := by omega
    have e2 : ¬ ((ff : Int) < 0) := by omega
    simp only [decode, h0, e1, e2, if_false, Int.toNat_ofNat]
    rw [ihl ff (ff + 2) L fuel hl (by omega),
      ihr (ff + 1) (ff + 2 + l.nbDesc) (L + l.nbLeaves) fuel hr (by omega)]
    rfl

theorem stored_childrenAbove_of_enc {data : List GPUForestNode} {T t : Nat}
    (bt : BTree PredictionGaussianMean) :
    ∀ (out ff L : Nat), Enc data T t bt out ff L → out < ff →
      Stored ChildrenAbove data T t bt out := by
  induction bt with
  | leaf a =>
    intro out ff L h _
    exact ⟨_, h, rfl⟩
  | inner f th l r ihl ihr =>
    intro out ff L h hlt
    obtain ⟨h0, hl, hr⟩ := h
    refine ⟨_, ff, h0, rfl, ⟨rfl, rfl, ?_, ?_⟩, ihl ff (ff + 2) L hl (by omega),
      ihr (ff + 1) _ _ hr (by omega)⟩
    · show (out : Int) < (ff : Int); omega
    · show (out : Int) < (ff : Int) + 1; omega

theorem leafKind_leaf (L : Nat) : (GPUForestNode.mk (-1) L 0 0).leafKind := by
  constructor
  · rfl
  · show (0 : Int) ≤ (L : Int); omega

theorem kindMatches_leaf {α : Type} (a : α) (s L : Nat) :
    KindMatches (BTree.leaf a) s ⟨-1, L, 0, 0⟩ := by
  have h1 := leafKind_leaf L
  refine ⟨⟨Or.inl h1, ?_⟩, ?_⟩
  · rintro ⟨-, h, -⟩
    simp at h
  · simp [h1, BTree.isLeaf]

theorem kindMatches_inner {α : Type} (f : Int) (th : ℚ) (l r : BTree α) (s ff : Nat) :
    KindMatches (BTree.inner f th l r) s ⟨ff, -1, f, th⟩ := by
  have h1 : (GPUForestNode.mk ff (-1) f th).innerKind := by
    constructor
    · show (0 : Int) ≤ (ff : Int); omega
    · rfl
  have h2 : ¬ (GPUForestNode.mk ff (-1) f th).leafKind := by
    rintro ⟨h, -⟩
    have : (ff : Int) = -1 := h
    omega
  refine ⟨⟨Or.inr h1, fun h => h2 h.1⟩, ?_⟩
  simp [h2, BTree.isLeaf]

theorem stored_kindMatches_of_enc {data : List GPUForestNode} {T t : Nat}
    (bt : BTree PredictionGaussianMean) :
    ∀ (out ff L : Nat), Enc data T t bt out ff L → Stored KindMatches data T t bt out := by
  induction bt with
  | leaf a =>
    intro out ff L h
    exact ⟨_, h, kindMatches_leaf a out L⟩
  | inner f th l r ihl ihr =>
    intro out ff L h
    obtain ⟨h0, hl, hr⟩ := h
    exact ⟨_, ff, h0, rfl, kindMatches_inner f th l r out ff, ihl _ _ _ hl, ihr _ _ _ hr⟩

/-- Every slot of a layout `Enc` holds a record of exactly one kind. -/
theorem oneKind_of_enc {data : List GPUForestNode} {T t : Nat}
    (bt : BTree PredictionGaussianMean) :
    ∀ (out ff L : Nat), Enc data T t bt out ff L →
      ∀ s, (s = out ∨ (ff ≤ s ∧ s < ff + bt.nbDesc)) →
        ∃ node, data[s * T + t]? = some node ∧ node.oneKind := by
  induction bt with
  | leaf a =>
    intro out ff L h s hs
    simp only [BTree.nbDesc] at hs
    have : s = out := by omega
    subst this
    exact ⟨_, h, (kindMatches_leaf a s L).1⟩
  | inner f th l r ihl ihr =>
    intro out ff L h s hs
    obtain ⟨h0, hl, hr⟩ := h
    simp only [BTree.nbDesc] at hs
    by_cases h1 : s = out
    · subst h1
      exact ⟨_, h0, (kindMatches_inner f th l r s ff).1⟩
    · by_cases h2 : s = ff ∨ (ff + 2 ≤ s ∧ s < ff + 2 + l.nbDesc)
      · exact ihl ff (ff + 2) L hl s h2
      · exact ihr (ff + 1) (ff + 2 + l.nbDesc) (L + l.nbLeaves) hr s (by omega)

/-! ## Claims on the construction from an ensemble -/

/-- C1: for a well-formed ensemble of `GPUFOREST_NTREES` trees the constructor
completes, and the node array read back recursively from slot 0 of each tree
(leaf iff `leftChildIdx == -1`, children at `leftChildIdx` and `leftChildIdx + 1`)
is the original tree: the same shape with the same `featureIdx` and
`featureThreshold` at every inner node, and the same number of leaves. -/
theorem build_decode_isomorphic (K : Consts) (e : EnsembleLearner)
    (hwf : e.wellFormed K = true) :
    ∃ f img, GPUForest.build K e = Outcome.ok f ∧ f.m_forestImage = some img ∧
      ∀ (t : Nat) (tree : Learner), e.trees[t]? = some tree →
        ∃ bt dt, tree.toTree tree.nodes.length 0 = some bt ∧
          decode img.data img.width t tree.nbNodes 0 = some dt ∧
          dt.shape = bt.shape ∧ dt.nbLeaves = bt.nbLeaves ∧ dt.nbLeaves = tree.nbLeaves := by
  obtain ⟨data, preds, hb, -, -, -, -, -, henc⟩ := build_ok K e hwf
  refine ⟨_, _, hb, rfl, ?_⟩
  intro t tree ht
  obtain ⟨bt, hbt, hn, hl, -, -, henc⟩ := henc t tree ht
  refine ⟨bt, bt.numbered (leavesBefore e.trees t), hbt, ?_, bt.shape_numbered _, ?_, ?_⟩
  · exact decode_of_enc bt 0 1 _ _ henc (by omega)
  · exact bt.nbLeaves_numbered _
  · rw [bt.nbLeaves_numbered, hl]

/-- Witness of C1 on the example ensemble. -/
theorem build_decode_isomorphic_witness :
    exampleEnsemble.wellFormed exampleConsts = true ∧
    ∃ f img, GPUForest.build exampleConsts exampleEnsemble = Outcome.ok f ∧
      f.m_forestImage = some img ∧
      ∀ (t : Nat) (tree : Learner), exampleEnsemble.trees[t]? = some tree →
        ∃ bt dt, tree.toTree tree.nodes.length 0 = some bt ∧
          decode img.data img.width t tree.nbNodes 0 = some dt ∧
          dt.shape = bt.shape ∧ dt.nbLeaves = bt.nbLeaves ∧ dt.nbLeaves = tree.nbLeaves :=
  ⟨by decide, build_decode_isomorphic exampleConsts exampleEnsemble (by decide)⟩

/-- C3: the constructor throws exactly when the number of trees of the ensemble
differs from `GPUFOREST_NTREES`, and it then throws before anything is converted:
the members are those the default constructor set (no node image, no leaf
prediction, no per-tree count). -/
theorem build_throws_iff (K : Consts) (e : EnsembleLearner) :
    ((∃ what s, GPUForest.build K e = Outcome.thrown what s) ↔
        e.GetNbTrees ≠ K.GPUFOREST_NTREES) ∧
      ∀ what s, GPUForest.build K e = Outcome.thrown what s →
        s = GPUForest.init ∧ s.m_forestImage = none ∧ s.m_predictionsBlock = none ∧
          s.m_leafPredictions = [] ∧ s.m_nbNodesPerTree = [] ∧ s.m_nbLeavesPerTree = [] := by
  by_cases hT : e.GetNbTrees = K.GPUFOREST_NTREES
  · have hne : ∀ what s, GPUForest.build K e ≠ Outcome.thrown what s := by
      intro what s
      unfold GPUForest.build
      simp only [hT, ne_eq, not_true_eq_false, if_false]
      cases convertTrees K.GPUFOREST_NTREES e.trees 0
          (ForestImage.cleared K.GPUFOREST_NTREES e.GetMaxNbNodesInAnyLearner).data
          GPUForest.init with
      | none => simp
      | some r =>
        simp only []
        cases convert_predictions K r.2.m_leafPredictions with
        | none => simp
        | some preds => simp
    constructor
    · constructor
      · rintro ⟨what, s, h⟩
        exact absurd h (hne what s)
      · intro h
        exact absurd hT h
    · intro what s h
      exact absurd h (hne what s)
  · have hb : GPUForest.build K e = Outcome.thrown
        "Number of trees in the loaded forest different from the instantiation of GPUForest."
        GPUForest.init := by
      unfold GPUForest.build
      simp [hT]
    constructor
    · constructor
      · intro _; exact hT
      · intro _; exact ⟨_, _, hb⟩
    · intro what s h
      rw [hb] at h
      cases h
      exact ⟨rfl, rfl, rfl, rfl, rfl, rfl⟩

/-- C6: in the array the constructor builds for a well-formed ensemble, the root of
every tree is in slot 0, and every inner node, stored in a slot `s`, has its two
children stored in the slots `leftChildIdx` and `leftChildIdx + 1`, both above `s`. -/
theorem build_children_above (K : Consts) (e : EnsembleLearner)
    (hwf : e.wellFormed K = true) :
    ∃ f img, GPUForest.build K e = Outcome.ok f ∧ f.m_forestImage = some img ∧
      ∀ (t : Nat) (tree : Learner), e.trees[t]? = some tree →
        ∃ bt, tree.toTree tree.nodes.length 0 = some bt ∧
          Stored ChildrenAbove img.data img.width t bt 0 := by
  obtain ⟨data, preds, hb, -, -, -, -, -, henc⟩ := build_ok K e hwf
  refine ⟨_, _, hb, rfl, ?_⟩
  intro t tree ht
  obtain ⟨bt, hbt, -, -, -, -, henc⟩ := henc t tree ht
  exact ⟨bt, hbt, stored_childrenAbove_of_enc bt 0 1 _ henc (by omega)⟩

/-- Witness of C6 on the example ensemble. -/
theorem build_children_above_witness :
    exampleEnsemble.wellFormed exampleConsts = true ∧
    ∃ f img, GPUForest.build exampleConsts exampleEnsemble = Outcome.ok f ∧
      f.m_forestImage = some img ∧
      ∀ (t : Nat) (tree : Learner), exampleEnsemble.trees[t]? = some tree →
        ∃ bt, tree.toTree tree.nodes.length 0 = some bt ∧
          Stored ChildrenAbove img.data img.width t bt 0 :=
  ⟨by decide, build_children_above exampleConsts exampleEnsemble (by decide)⟩

/-- C7: in the array the constructor builds for a well-formed ensemble, every slot
`s < GetNbNodes` of a tree holds a record for which exactly one of
`leftChildIdx == -1 ∧ leafIdx >= 0` and `leftChildIdx >= 0 ∧ leafIdx == -1` holds,
and the record stored for a source node satisfies the first one exactly when the
source node is a leaf. -/
theorem build_node_kind (K : Consts) (e : EnsembleLearner) (hwf : e.wellFormed K = true) :
    ∃ f img, GPUForest.build K e = Outcome.ok f ∧ f.m_forestImage = some img ∧
      ∀ (t : Nat) (tree : Learner), e.trees[t]? = some tree →
        (∀ s, s < tree.nbNodes →
          ∃ node, img.data[s * img.width + t]? = some node ∧ node.oneKind) ∧
        ∃ bt, tree.toTree tree.nodes.length 0 = some bt ∧
          Stored KindMatches img.data img.width t bt 0 := by
  obtain ⟨data, preds, hb, -, -, -, -, -, henc⟩ := build_ok K e hwf
  refine ⟨_, _, hb, rfl, ?_⟩
  intro t tree ht
  obtain ⟨bt, hbt, hn, -, -, -, henc⟩ := henc t tree ht
  have hsz := bt.nbNodes_eq
  refine ⟨?_, bt, hbt, stored_kindMatches_of_enc bt 0 1 _ henc⟩
  intro s hs
  exact oneKind_of_enc bt 0 1 _ henc s (by omega)

/-- Witness of C7 on the example ensemble. -/
theorem build_node_kind_witness :
    exampleEnsemble.wellFormed exampleConsts = true ∧
    ∃ f img, GPUForest.build exampleConsts exampleEnsemble = Outcome.ok f ∧
      f.m_forestImage = some img ∧
      ∀ (t : Nat) (tree : Learner), exampleEnsemble.trees[t]? = some tree →
        (∀ s, s < tree.nbNodes →
          ∃ node, img.data[s * img.width + t]? = some node ∧ node.oneKind) ∧
        ∃ bt, tree.toTree tree.nodes.length 0 = some bt ∧
          Stored KindMatches img.data img.width t bt 0 :=
  ⟨by decide, build_node_kind exampleConsts exampleEnsemble (by decide)⟩

theorem leavesBefore_add_le :
    ∀ (trees : List Learner) (t : Nat) (tree : Learner), trees[t]? = some tree →
      leavesBefore trees t + tree.nbLeaves ≤ (trees.map Learner.nbLeaves).sum := by
  intro trees
  induction trees with
  | nil => intro t tree h; simp at h
  | cons x rest ih =>
    intro t tree h
    cases t with
    | zero =>
      simp at h; subst h
      simp [leavesBefore_zero]
    | succ t =>
      simp at h
      have := ih t tree h
      rw [leavesBefore_cons_succ]
      simp only [List.map_cons, List.sum_cons]
      omega

/-- The leaf indices met in the trees of a list of layouts `Enc` number the leaves
consecutively. -/
theorem leafOrder_of_enc (data : List GPUForestNode) (T : Nat) :
    ∀ (trees : List Learner) (t0 k0 : Nat),
      (∀ k tree, trees[k]? = some tree → ∃ bt : BTree PredictionGaussianMean,
        bt.nbNodes = tree.nbNodes ∧ bt.nbLeaves = tree.nbLeaves ∧
        Enc data T (t0 + k) bt 0 1 (k0 + leavesBefore trees k)) →
      leafOrder data T trees t0
        = (List.range' k0 (trees.map Learner.nbLeaves).sum).map Int.ofNat := by
  intro trees
  induction trees with
  | nil => intro t0 k0 _; simp [leafOrder]
  | cons tree rest ih =>
    intro t0 k0 h
    obtain ⟨bt, hn, hl, henc⟩ := h 0 tree (by simp)
    rw [leavesBefore_zero, Nat.add_zero, Nat.add_zero] at henc
    have hdec := decode_of_enc bt 0 1 k0 tree.nbNodes henc (by omega)
    have hrest := ih (t0 + 1) (k0 + tree.nbLeaves) (by
      intro k x hk
      obtain ⟨bx, hxn, hxl, hx⟩ := h (k + 1) x (by simpa using hk)
      refine ⟨bx, hxn, hxl, ?_⟩
      have e1 : t0 + (k + 1) = t0 + 1 + k := by omega
      rw [e1, leavesBefore_cons_succ, ← Nat.add_assoc] at hx
      exact hx)
    simp only [leafOrder, hdec, hrest, BTree.labels_numbered, hl, List.map_cons, List.sum_cons]
    rw [← List.map_append, List.range'_append_1, Nat.add_comm _ tree.nbLeaves]

/-- The lookup walk on a layout `Enc`: it reaches a leaf of the subtree within as
many steps as the subtree has nodes, through slots of the subtree only. -/
theorem walkWith_of_enc {data : List GPUForestNode} {T t : Nat}
    (goLeft : Nat → GPUForestNode → Bool) (bt : BTree PredictionGaussianMean) :
    ∀ (out ff L fuel step : Nat), Enc data T t bt out ff L → bt.nbNodes ≤ fuel →
      ∃ visited leafIdx, walkWith data T t goLeft fuel step out = some (visited, leafIdx) ∧
        visited.length ≤ bt.nbNodes ∧
        (∀ s ∈ visited, s = out ∨ (ff ≤ s ∧ s < ff + bt.nbDesc)) ∧
        (L : Int) ≤ leafIdx ∧ leafIdx < (L : Int) + bt.nbLeaves := by
  induction bt with
  | leaf a =>
    intro out ff L fuel step h hf
    simp only [BTree.nbNodes] at hf
    obtain ⟨fuel, rfl⟩ : ∃ k, fuel = k + 1 := ⟨fuel - 1, by omega⟩
    simp only [Enc] at h
    refine ⟨[out], L, by simp [walkWith, h], by simp [BTree.nbNodes], by simp, ?_, ?_⟩
    · exact le_refl _
    · simp [BTree.nbLeaves]
  | inner f th l r ihl ihr =>
    intro out ff L fuel step h hf
    simp only [BTree.nbNodes] at hf
    obtain ⟨fuel, rfl⟩ : ∃ k, fuel = k + 1 := ⟨fuel - 1, by omega⟩
    obtain ⟨h0, hl, hr⟩ := h
    have e1 : ¬ ((ff : Int) = -1) := by omega
    cases hgo : goLeft step ⟨ff, -1, f, th⟩ with
    | true =>
      obtain ⟨vis, leaf, hw, hlen, hvis, hlo, hhi⟩ :=
        ihl ff (ff + 2) L fuel (step + 1) hl (by omega)
      have e2 : ¬ ((ff : Int) < 0) := by omega
      refine ⟨out :: vis, leaf, ?_, ?_, ?_, hlo, ?_⟩
      · simp only [walkWith, h0, e1, hgo, if_true, if_false, e2, Int.toNat_ofNat, hw]
      · simp only [List.length_cons, BTree.nbNodes]; omega
      · intro s hs
        simp only [BTree.nbDesc]
        rcases List.mem_cons.mp hs with h1 | h1
        · exact Or.inl h1
        · have := hvis s h1
          omega
      · simp only [BTree.nbLeaves]
        have := r.nbLeaves_pos
        push_cast
        omega
    | false =>
      obtain ⟨vis, leaf, hw, hlen, hvis, hlo, hhi⟩ :=
        ihr (ff + 1) (ff + 2 + l.nbDesc) (L + l.nbLeaves) fuel (step + 1) hr (by omega)
      have e2 : ¬ ((ff : Int) + 1 < 0) := by omega
      have e3 : ((ff : Int) + 1).toNat = ff + 1 := by omega
      refine ⟨out :: vis, leaf, ?_, ?_, ?_, ?_, ?_⟩
      · simp only [walkWith, h0, e1, hgo, if_false, e2, e3, hw]
        simp only [Bool.false_eq_true, if_false, e2, e3, hw]
      · simp only [List.length_cons, BTree.nbNodes]; omega
      · intro s hs
        simp only [BTree.nbDesc]
        rcases List.mem_cons.mp hs with h1 | h1
        · exact Or.inl h1
        · have := hvis s h1
          omega
      · push_cast at hlo
        omega
      · simp only [BTree.nbLeaves]
        push_cast at hhi ⊢
        omega

/-- C8: the constructor numbers the leaves 0, 1, 2, ... in the order it meets them
(trees in index order, each tree depth-first, left before right): the leaf
indices read in that order are exactly `0, ..., L - 1`, `L` the number of leaves
of the ensemble; they are pairwise distinct, and the side table
`m_leafPredictions` and the predictions block end with `L` entries. -/
theorem build_leaf_indices (K : Consts) (e : EnsembleLearner) (hwf : e.wellFormed K = true) :
    ∃ f img preds, GPUForest.build K e = Outcome.ok f ∧ f.m_forestImage = some img ∧
      f.m_predictionsBlock = some preds ∧
      leafOrder img.data img.width e.trees 0 = (List.range e.nbLeaves).map Int.ofNat ∧
      (leafOrder img.data img.width e.trees 0).Nodup ∧
      f.m_leafPredictions.length = e.nbLeaves ∧ preds.length = e.nbLeaves := by
  obtain ⟨data, preds, hb, -, -, hpl, hll, -, henc⟩ := build_ok K e hwf
  have hlo : leafOrder data K.GPUFOREST_NTREES e.trees 0
      = (List.range e.nbLeaves).map Int.ofNat := by
    rw [List.range_eq_range']
    refine leafOrder_of_enc data K.GPUFOREST_NTREES e.trees 0 0 ?_
    intro k tree hk
    obtain ⟨bt, -, hn, hl, -, -, hx⟩ := henc k tree hk
    exact ⟨bt, hn, hl, by simpa using hx⟩
  refine ⟨_, _, preds, hb, rfl, rfl, hlo, ?_, hll, hpl⟩
  show (leafOrder data K.GPUFOREST_NTREES e.trees 0).Nodup
  rw [hlo]
  exact (List.nodup_range _).map (fun a b h => Int.ofNat.inj h)

/-- Witness of C8 on the example ensemble. -/
theorem build_leaf_indices_witness :
    exampleEnsemble.wellFormed exampleConsts = true ∧
    ∃ f img preds, GPUForest.build exampleConsts exampleEnsemble = Outcome.ok f ∧
      f.m_forestImage = some img ∧ f.m_predictionsBlock = some preds ∧
      leafOrder img.data img.width exampleEnsemble.trees 0
        = (List.range exampleEnsemble.nbLeaves).map Int.ofNat ∧
      (leafOrder img.data img.width exampleEnsemble.trees 0).Nodup ∧
      f.m_leafPredictions.length = exampleEnsemble.nbLeaves ∧
      preds.length = exampleEnsemble.nbLeaves :=
  ⟨by decide, build_leaf_indices exampleConsts exampleEnsemble (by decide)⟩

/-- C9: on the array the constructor builds for a well-formed ensemble, the lookup
walk of a tree from slot 0, whatever decisions it takes (in particular for every
descriptor), reaches a leaf record within `GetNbNodes` steps, visits only slots
below `GetNbNodes`, and records a `leafIdx` in `[0, L)`, `L` the size of the
predictions block. -/
theorem build_walk_terminates (K : Consts) (e : EnsembleLearner)
    (hwf : e.wellFormed K = true) :
    ∃ f img preds, GPUForest.build K e = Outcome.ok f ∧ f.m_forestImage = some img ∧
      f.m_predictionsBlock = some preds ∧
      ∀ (t : Nat) (tree : Learner), e.trees[t]? = some tree →
        (∀ goLeft : Nat → GPUForestNode → Bool, ∃ visited leafIdx,
          walkWith img.data img.width t goLeft tree.nbNodes 0 0 = some (visited, leafIdx) ∧
          visited.length ≤ tree.nbNodes ∧ (∀ s ∈ visited, s < tree.nbNodes) ∧
          0 ≤ leafIdx ∧ leafIdx < (preds.length : Int)) ∧
        (∀ descriptor : Int → ℚ, ∃ visited leafIdx,
          walk img.data img.width t descriptor tree.nbNodes = some (visited, leafIdx) ∧
          visited.length ≤ tree.nbNodes ∧ (∀ s ∈ visited, s < tree.nbNodes) ∧
          0 ≤ leafIdx ∧ leafIdx < (preds.length : Int)) := by
  obtain ⟨data, preds, hb, -, -, hpl, -, -, henc⟩ := build_ok K e hwf
  refine ⟨_, _, preds, hb, rfl, rfl, ?_⟩
  intro t tree ht
  obtain ⟨bt, -, hn, hl, -, -, hx⟩ := henc t tree ht
  have hsz := bt.nbNodes_eq
  have hle := leavesBefore_add_le e.trees t tree ht
  have key : ∀ goLeft : Nat → GPUForestNode → Bool, ∃ visited leafIdx,
      walkWith data K.GPUFOREST_NTREES t goLeft tree.nbNodes 0 0 = some (visited, leafIdx) ∧
      visited.length ≤ tree.nbNodes ∧ (∀ s ∈ visited, s < tree.nbNodes) ∧
      0 ≤ leafIdx ∧ leafIdx < (preds.length : Int) := by
    intro goLeft
    obtain ⟨vis, leaf, hw, hlen, hvis, hlo, hhi⟩ :=
      walkWith_of_enc goLeft bt 0 1 _ tree.nbNodes 0 hx (by omega)
    refine ⟨vis, leaf, hw, by omega, ?_, by omega, ?_⟩
    · intro s hs
      have := hvis s hs
      omega
    · rw [hpl]
      have : (e.nbLeaves : Int) = ((e.trees.map Learner.nbLeaves).sum : Nat) := rfl
      rw [this]
      omega
  exact ⟨key, fun descriptor => key _⟩

/-- Witness of C9 on the example ensemble. -/
theorem build_walk_terminates_witness :
    exampleEnsemble.wellFormed exampleConsts = true ∧
    ∃ f img preds, GPUForest.build exampleConsts exampleEnsemble = Outcome.ok f ∧
      f.m_forestImage = some img ∧ f.m_predictionsBlock = some preds ∧
      ∀ (t : Nat) (tree : Learner), exampleEnsemble.trees[t]? = some tree →
        (∀ goLeft : Nat → GPUForestNode → Bool, ∃ visited leafIdx,
          walkWith img.data img.width t goLeft tree.nbNodes 0 0 = some (visited, leafIdx) ∧
          visited.length ≤ tree.nbNodes ∧ (∀ s ∈ visited, s < tree.nbNodes) ∧
          0 ≤ leafIdx ∧ leafIdx < (preds.length : Int)) ∧
        (∀ descriptor : Int → ℚ, ∃ visited leafIdx,
          walk img.data img.width t descriptor tree.nbNodes = some (visited, leafIdx) ∧
          visited.length ≤ tree.nbNodes ∧ (∀ s ∈ visited, s < tree.nbNodes) ∧
          0 ≤ leafIdx ∧ leafIdx < (preds.length : Int)) :=
  ⟨by decide, build_walk_terminates exampleConsts exampleEnsemble (by decide)⟩

/-! ## Claims on persistence -/

/-- C2, at the forest of two trees (tree 0 a single leaf, tree 1 a split with
three nodes): the constructor builds `exampleForest`, `save_structure_to_file`
writes `exampleText`, which holds two records per tree, and
`load_structure_from_file` reads from it a node image whose slot 2 of tree 1 is
zero, where the saved forest has the leaf record `(-1, 2, 0, 0)`. -/
theorem save_load_loses_slot :
    GPUForest.build exampleConsts exampleEnsemble = Outcome.ok exampleForest ∧
    exampleForest.save_structure_to_file exampleConsts = some exampleText ∧
    (∃ f, GPUForest.load_structure_from_file exampleConsts (some exampleText) exampleForest
        = Outcome.ok f ∧ f.m_forestImage = some exampleReloadedImage) ∧
    (∃ img, exampleForest.m_forestImage = some img ∧
      img.data[2 * 2 + 1]? = some ⟨-1, 2, 0, 0⟩ ∧
      exampleReloadedImage.data[2 * 2 + 1]? = some ⟨0, 0, 0, 0⟩ ∧
      exampleReloadedImage.data ≠ img.data) := by
  refine ⟨by decide, by decide, ⟨_, rfl, by decide⟩, ⟨_, rfl, by decide, by decide, by decide⟩⟩

/-- C4: loading a file whose first token is a tree count other than
`GPUFOREST_NTREES` throws, and at the throw the node image, the predictions block
and the reservoirs are reset and the per-tree lists are empty, whatever the
members were before the call. -/
theorem load_wrong_tree_count (K : Consts) (self : GPUForest) (treeCount : Int)
    (rest : List Token) (h : treeCount ≠ (K.GPUFOREST_NTREES : Int)) :
    ∃ what s, GPUForest.load_structure_from_file K (some (Token.int treeCount :: rest)) self
        = Outcome.thrown what s ∧
      s.m_forestImage = none ∧ s.m_predictionsBlock = none ∧ s.m_leafReservoirs = none ∧
      s.m_nbNodesPerTree = [] ∧ s.m_nbLeavesPerTree = [] := by
  have hthrow : GPUForest.load_structure_from_file K (some (Token.int treeCount :: rest)) self
      = Outcome.thrown
        ("Number of trees of the loaded forest is incorrect. Should be "
          ++ toString K.GPUFOREST_NTREES ++ " - Read: " ++ toString treeCount)
        { self with
          m_forestImage := none
          m_predictionsBlock := none
          m_leafReservoirs := none
          m_nbNodesPerTree := []
          m_nbLeavesPerTree := []
          m_reservoirUpdateStartIdx := 0 } := by
    unfold GPUForest.load_structure_from_file
    simp only [readInt, ne_eq, h, not_false_eq_true, if_true]
  exact ⟨_, _, hthrow, rfl, rfl, rfl, rfl, rfl⟩

/-- Witness of C4: a file declaring three trees, loaded for five trees into a
forest that holds a structure. -/
theorem load_wrong_tree_count_witness :
    (3 : Int) ≠ (fiveTreeConsts.GPUFOREST_NTREES : Int) ∧
    ∃ what s, GPUForest.load_structure_from_file fiveTreeConsts
        (some (Token.int 3 :: exampleText)) exampleForest = Outcome.thrown what s ∧
      s.m_forestImage = none ∧ s.m_predictionsBlock = none ∧ s.m_leafReservoirs = none ∧
      s.m_nbNodesPerTree = [] ∧ s.m_nbLeavesPerTree = [] :=
  ⟨by decide, load_wrong_tree_count fiveTreeConsts exampleForest 3 exampleText (by decide)⟩

/-- C5, at a file for two trees that declares 1 + 5 = 6 nodes and holds four
records: `load_structure_from_file` reads two records per tree and returns. -/
theorem load_truncated_returns :
    (GPUForest.load_structure_from_file exampleConsts (some truncatedText)
      GPUForest.init).isOk = true ∧
    truncatedText.length = 5 + 4 * 4 := by
  refine ⟨by decide, by decide⟩

/-! ## Claims on the update scheduler -/

/-- With the cursor inside `[0, L)` and `L` in the range of `int`, `updateCount` is
`min(M, L - c)`. -/
theorem updateCount_eq (M c : Int) (L : Nat) (hc : 0 ≤ c) (hcL : c < (L : Int))
    (hL : (L : Int) < 2147483648) : updateCount M c L = min M ((L : Int) - c) := by
  unfold updateCount toInt32 toSizeT
  congr 1
  omega

/-- With the cursor inside `[0, L)` and `M`, `L` in the range of `int`, the cursor
advances by `M` and wraps to 0 once it reaches `L`. -/
theorem nextUpdateStart_eq (M c : Int) (L : Nat) (hM : 0 < M) (hM' : M < 2147483648)
    (hc : 0 ≤ c) (hcL : c < (L : Int)) (hL : (L : Int) < 2147483648) :
    nextUpdateStart M c L = if c + M < (L : Int) then c + M else 0 := by
  unfold nextUpdateStart toInt32 toSizeT
  simp only []
  split_ifs <;> omega

theorem mem_clusteredLeaves (startIdx count i : Int) :
    i ∈ clusteredLeaves startIdx count ↔ startIdx ≤ i ∧ i < startIdx + max count 0 := by
  unfold clusteredLeaves
  simp only [List.mem_map, List.mem_range]
  have hmax : max count 0 = (count.toNat : Int) := by
    rw [Int.toNat_eq_max]
  rw [hmax]
  constructor
  · rintro ⟨k, hk, rfl⟩
    have hk' : (k : Int) < (count.toNat : Int) := by exact_mod_cast hk
    have hk0 : (0 : Int) ≤ (k : Int) := Int.ofNat_nonneg k
    constructor <;> linarith
  · rintro ⟨h1, h2⟩
    have h3 : ((i - startIdx).toNat : Int) = i - startIdx := Int.toNat_of_nonneg (by linarith)
    refine ⟨(i - startIdx).toNat, ?_, ?_⟩
    · have : ((i - startIdx).toNat : Int) < (count.toNat : Int) := by rw [h3]; linarith
      exact_mod_cast this
    · rw [h3]; ring

/-- C10: in a state with `L` leaves, window size `M > 0` and cursor `c` with
`0 <= c < L` (`M` and `L` in the range of `int`), one call of
`add_features_to_forest` returns, calls `find_modes` on the window that starts at
`c` and has `min(M, L - c)` leaves, that is on exactly the leaves
`[c, c + min(M, L - c))`, and leaves the cursor at `c + M` if `c + M < L` and at
0 otherwise. -/
theorem add_features_window {Features : Type} (kernels : Kernels Features)
    (features : Features) (self : GPUForest) (image : ForestImage)
    (predictions : List GPUForestPrediction) (reservoirs : GPUReservoir)
    (hi : self.m_forestImage = some image) (hp : self.m_predictionsBlock = some predictions)
    (hr : self.m_leafReservoirs = some reservoirs)
    (hM : 0 < self.m_maxReservoirsToUpdate) (hM' : self.m_maxReservoirsToUpdate < 2147483648)
    (hc : 0 ≤ self.m_reservoirUpdateStartIdx)
    (hcL : self.m_reservoirUpdateStartIdx < (predictions.length : Int))
    (hL : (predictions.length : Int) < 2147483648) :
    ∃ self', self.add_features_to_forest kernels features = Outcome.ok self' ∧
      self'.m_predictionsBlock = some
        (kernels.find_modes
          (kernels.add_examples reservoirs features (kernels.find_leaves image features))
          predictions self.m_reservoirUpdateStartIdx
          (min self.m_maxReservoirsToUpdate
            ((predictions.length : Int) - self.m_reservoirUpdateStartIdx))) ∧
      (∀ i : Int,
        i ∈ clusteredLeaves self.m_reservoirUpdateStartIdx
            (updateCount self.m_maxReservoirsToUpdate self.m_reservoirUpdateStartIdx
              predictions.length) ↔
          self.m_reservoirUpdateStartIdx ≤ i ∧
            i < self.m_reservoirUpdateStartIdx + min self.m_maxReservoirsToUpdate
              ((predictions.length : Int) - self.m_reservoirUpdateStartIdx)) ∧
      self'.m_reservoirUpdateStartIdx =
        (if self.m_reservoirUpdateStartIdx + self.m_maxReservoirsToUpdate
            < (predictions.length : Int)
          then self.m_reservoirUpdateStartIdx + self.m_maxReservoirsToUpdate else 0) := by
  have hcount := updateCount_eq self.m_maxReservoirsToUpdate self.m_reservoirUpdateStartIdx
    predictions.length hc hcL hL
  have hnext := nextUpdateStart_eq self.m_maxReservoirsToUpdate self.m_reservoirUpdateStartIdx
    predictions.length hM hM' hc hcL hL
  have hcall : self.add_features_to_forest kernels features = Outcome.ok
      { self with
        m_leafImage := kernels.find_leaves image features
        m_leafReservoirs := some
          (kernels.add_examples reservoirs features (kernels.find_leaves image features))
        m_predictionsBlock := some
          (kernels.find_modes
            (kernels.add_examples reservoirs features (kernels.find_leaves image features))
            predictions self.m_reservoirUpdateStartIdx
            (updateCount self.m_maxReservoirsToUpdate self.m_reservoirUpdateStartIdx
              predictions.length))
        m_reservoirUpdateStartIdx :=
          nextUpdateStart self.m_maxReservoirsToUpdate self.m_reservoirUpdateStartIdx
            predictions.length } := by
    unfold GPUForest.add_features_to_forest
    simp only [hi, hp, hr]
  refine ⟨_, hcall, ?_, ?_, ?_⟩
  · simp only [hcount]
  · intro i
    rw [mem_clusteredLeaves, hcount]
    have : max (min self.m_maxReservoirsToUpdate
        ((predictions.length : Int) - self.m_reservoirUpdateStartIdx)) 0
        = min self.m_maxReservoirsToUpdate
          ((predictions.length : Int) - self.m_reservoirUpdateStartIdx) := by
      omega
    rw [this]
  · simp only [hnext]

/-- Witness of C10: the example forest (three leaves, window 1000, cursor 0). -/
theorem add_features_window_witness :
    ∃ self', exampleForest.add_features_to_forest exampleKernels () = Outcome.ok self' ∧
      self'.m_predictionsBlock = some
        (exampleKernels.find_modes
          (exampleKernels.add_examples ⟨1024, [⟨[], 0⟩, ⟨[], 0⟩, ⟨[], 0⟩]⟩ ()
            (exampleKernels.find_leaves ⟨2, 3, [⟨-1, 0, 0, 0⟩, ⟨1, -1, 0, mkRat 1 2⟩,
              ⟨0, 0, 0, 0⟩, ⟨-1, 1, 0, 0⟩, ⟨0, 0, 0, 0⟩, ⟨-1, 2, 0, 0⟩]⟩ ()))
          [⟨[⟨[4, 5, 6], [1, 0, 0, 0, 1, 0, 0, 0, 1], 1, [30, 40, 50], 7⟩,
             ⟨[1, 2, 3], [1, 0, 0, 0, 1, 0, 0, 0, 1], 1, [10, 20, 255], 5⟩], 2⟩,
           ⟨[], 0⟩, ⟨[], 0⟩]
          exampleForest.m_reservoirUpdateStartIdx
          (min exampleForest.m_maxReservoirsToUpdate
            (((3 : Nat) : Int) - exampleForest.m_reservoirUpdateStartIdx))) ∧
      (∀ i : Int,
        i ∈ clusteredLeaves exampleForest.m_reservoirUpdateStartIdx
            (updateCount exampleForest.m_maxReservoirsToUpdate
              exampleForest.m_reservoirUpdateStartIdx 3) ↔
          exampleForest.m_reservoirUpdateStartIdx ≤ i ∧
            i < exampleForest.m_reservoirUpdateStartIdx
              + min exampleForest.m_maxReservoirsToUpdate
                (((3 : Nat) : Int) - exampleForest.m_reservoirUpdateStartIdx)) ∧
      self'.m_reservoirUpdateStartIdx =
        (if exampleForest.m_reservoirUpdateStartIdx + exampleForest.m_maxReservoirsToUpdate
            < ((3 : Nat) : Int)
          then exampleForest.m_reservoirUpdateStartIdx + exampleForest.m_maxReservoirsToUpdate
          else 0) :=
  add_features_window exampleKernels () exampleForest _ _ _ rfl rfl rfl
    (by decide) (by decide) (by decide) (by decide) (by decide)

/-! ## Runs of the scheduler: lemmas -/

/-- One call on a schedulable state with the cursor in `[0, L)`: it returns, the
state stays schedulable, the window is `[c, c + min(M, L - c))` and the cursor
advances by `M` or wraps to 0. -/
theorem add_features_step {Features : Type} (kernels : Kernels Features) (features : Features)
    (self : GPUForest) (L : Nat) (M : Int) (hs : self.Schedulable L M)
    (hM : 0 < M) (hM' : M < 2147483648) (hc : 0 ≤ self.m_reservoirUpdateStartIdx)
    (hcL : self.m_reservoirUpdateStartIdx < (L : Int)) (hL : (L : Int) < 2147483648) :
    ∃ self', self.add_features_to_forest kernels features = Outcome.ok self' ∧
      self'.Schedulable L M ∧
      self'.m_reservoirUpdateStartIdx =
        (if self.m_reservoirUpdateStartIdx + M < (L : Int)
          then self.m_reservoirUpdateStartIdx + M else 0) ∧
      ∀ i : Int, i ∈ self.clustered ↔
        self.m_reservoirUpdateStartIdx ≤ i ∧
          i < self.m_reservoirUpdateStartIdx + min M ((L : Int) - self.m_reservoirUpdateStartIdx) := by
  obtain ⟨⟨image, hi⟩, ⟨predictions, hp, hlen⟩, ⟨reservoirs, hr⟩, hMeq⟩ := hs
  subst hlen
  subst hMeq
  have hcount := updateCount_eq self.m_maxReservoirsToUpdate self.m_reservoirUpdateStartIdx
    predictions.length hc hcL hL
  have hnext := nextUpdateStart_eq self.m_maxReservoirsToUpdate self.m_reservoirUpdateStartIdx
    predictions.length hM hM' hc hcL hL
  have hcall : self.add_features_to_forest kernels features = Outcome.ok
      { self with
        m_leafImage := kernels.find_leaves image features
        m_leafReservoirs := some
          (kernels.add_examples reservoirs features (kernels.find_leaves image features))
        m_predictionsBlock := some
          (kernels.find_modes
            (kernels.add_examples reservoirs features (kernels.find_leaves image features))
            predictions self.m_reservoirUpdateStartIdx
            (updateCount self.m_maxReservoirsToUpdate self.m_reservoirUpdateStartIdx
              predictions.length))
        m_reservoirUpdateStartIdx :=
          nextUpdateStart self.m_maxReservoirsToUpdate self.m_reservoirUpdateStartIdx
            predictions.length } := by
    unfold GPUForest.add_features_to_forest
    simp only [hi, hp, hr]
  refine ⟨_, hcall, ?_, hnext, ?_⟩
  · exact ⟨⟨image, hi⟩, ⟨_, rfl, kernels.find_modes_length _ _ _ _⟩, ⟨_, rfl⟩, rfl⟩
  · intro i
    unfold GPUForest.clustered
    simp only [hp]
    rw [mem_clusteredLeaves, hcount]
    have : max (min self.m_maxReservoirsToUpdate
        ((predictions.length : Int) - self.m_reservoirUpdateStartIdx)) 0
        = min self.m_maxReservoirsToUpdate
          ((predictions.length : Int) - self.m_reservoirUpdateStartIdx) := by
      omega
    rw [this]

/-- Calls that do not reach the end of the leaves: after `n` of them from cursor
`c`, with `c + n * M < L`, the cursor is `c + n * M` and the windows cover
`[c, c + n * M)`. -/
theorem add_frames_advance {Features : Type} (kernels : Kernels Features) (L : Nat) (M : Int)
    (hM : 0 < M) (hM' : M < 2147483648) (hL : (L : Int) < 2147483648) :
    ∀ (frames : List Features) (self : GPUForest), self.Schedulable L M →
      0 ≤ self.m_reservoirUpdateStartIdx →
      self.m_reservoirUpdateStartIdx + (frames.length : Int) * M < (L : Int) →
      ∃ self', self.add_frames kernels frames = Outcome.ok self' ∧ self'.Schedulable L M ∧
        self'.m_reservoirUpdateStartIdx
          = self.m_reservoirUpdateStartIdx + (frames.length : Int) * M ∧
        ∀ i : Int, (∃ w ∈ self.clusteredBy kernels frames, i ∈ w) ↔
          self.m_reservoirUpdateStartIdx ≤ i ∧
            i < self.m_reservoirUpdateStartIdx + (frames.length : Int) * M := by
  intro frames
  induction frames with
  | nil =>
    intro self hs hc hlt
    refine ⟨self, rfl, hs, by simp, ?_⟩
    intro i
    simp only [GPUForest.clusteredBy, List.not_mem_nil, false_and, exists_false, List.length_nil,
      Nat.cast_zero, zero_mul, add_zero, false_iff]
    omega
  | cons features rest ih =>
    intro self hs hc hlt
    have hlen : (((features :: rest).length : Nat) : Int) * M = (rest.length : Int) * M + M := by
      simp only [List.length_cons]; push_cast; ring
    rw [hlen] at hlt ⊢
    have hrest : 0 ≤ (rest.length : Int) * M :=
      mul_nonneg (Int.ofNat_nonneg _) (le_of_lt hM)
    obtain ⟨s1, hcall, hs1, hcur, hwin⟩ :=
      add_features_step kernels features self L M hs hM hM' hc (by omega) hL
    rw [if_pos (by omega)] at hcur
    obtain ⟨s2, hrun, hs2, hcur2, hwin2⟩ := ih s1 hs1 (by omega) (by rw [hcur]; omega)
    refine ⟨s2, ?_, hs2, by rw [hcur2, hcur]; omega, ?_⟩
    · simp only [GPUForest.add_frames, hcall, hrun]
    · intro i
      simp only [GPUForest.clusteredBy, hcall, List.mem_cons, exists_eq_or_imp]
      rw [hwin i, hwin2 i, hcur]
      have hmin : min M ((L : Int) - self.m_reservoirUpdateStartIdx) = M := by omega
      rw [hmin]
      omega

/-- Calls up to the wrap of the cursor: after `n` of them from cursor `c`, with
`c + (n - 1) * M < L <= c + n * M`, the cursor is 0 and the windows cover `[c, L)`. -/
theorem add_frames_wrap {Features : Type} (kernels : Kernels Features) (L : Nat) (M : Int)
    (hM : 0 < M) (hM' : M < 2147483648) (hL : (L : Int) < 2147483648) :
    ∀ (frames : List Features) (self : GPUForest), self.Schedulable L M →
      0 ≤ self.m_reservoirUpdateStartIdx → self.m_reservoirUpdateStartIdx < (L : Int) →
      self.m_reservoirUpdateStartIdx + ((frames.length : Int) - 1) * M < (L : Int) →
      (L : Int) ≤ self.m_reservoirUpdateStartIdx + (frames.length : Int) * M →
      ∃ self', self.add_frames kernels frames = Outcome.ok self' ∧ self'.Schedulable L M ∧
        self'.m_reservoirUpdateStartIdx = 0 ∧
        ∀ i : Int, (∃ w ∈ self.clusteredBy kernels frames, i ∈ w) ↔
          self.m_reservoirUpdateStartIdx ≤ i ∧ i < (L : Int) := by
  intro frames
  induction frames with
  | nil =>
    intro self hs hc hcL _ hge
    simp at hge
    omega
  | cons features rest ih =>
    intro self hs hc hcL hlt hge
    have hlen : (((features :: rest).length : Nat) : Int) * M = (rest.length : Int) * M + M := by
      simp only [List.length_cons]; push_cast; ring
    have hlen' : ((((features :: rest).length : Nat) : Int) - 1) * M = (rest.length : Int) * M := by
      simp only [List.length_cons]; push_cast; ring
    rw [hlen] at hge
    rw [hlen'] at hlt
    obtain ⟨s1, hcall, hs1, hcur, hwin⟩ :=
      add_features_step kernels features self L M hs hM hM' hc hcL hL
    cases rest with
    | nil =>
      simp only [List.length_nil, Nat.cast_zero, zero_mul, zero_add] at hge
      rw [if_neg (by omega)] at hcur
      refine ⟨s1, ?_, hs1, hcur, ?_⟩
      · simp only [GPUForest.add_frames, hcall]
      · intro i
        simp only [GPUForest.clusteredBy, hcall, List.mem_cons, List.not_mem_nil, or_false,
          exists_eq_left]
        rw [hwin i]
        have hmin : min M ((L : Int) - self.m_reservoirUpdateStartIdx)
            = (L : Int) - self.m_reservoirUpdateStartIdx := by omega
        rw [hmin]
        omega
    | cons f2 rest2 =>
      have hl2 : (((f2 :: rest2).length : Nat) : Int) * M = (rest2.length : Int) * M + M := by
        simp only [List.length_cons]; push_cast; ring
      have hl2' : ((((f2 :: rest2).length : Nat) : Int) - 1) * M = (rest2.length : Int) * M := by
        simp only [List.length_cons]; push_cast; ring
      have hrest : 0 ≤ (rest2.length : Int) * M :=
        mul_nonneg (Int.ofNat_nonneg _) (le_of_lt hM)
      rw [hl2] at hlt hge
      rw [if_pos (by omega)] at hcur
      obtain ⟨s2, hrun, hs2, hcur2, hwin2⟩ :=
        ih s1 hs1 (by omega) (by omega) (by rw [hcur, hl2']; omega) (by rw [hcur, hl2]; omega)
      refine ⟨s2, ?_, hs2, hcur2, ?_⟩
      · simp only [GPUForest.add_frames, hcall]
        exact hrun
      · intro i
        rw [GPUForest.clusteredBy]
        simp only [hcall, List.mem_cons, exists_eq_or_imp]
        rw [hwin i, hcur] at *
        have hmin : min M ((L : Int) - self.m_reservoirUpdateStartIdx) = M := by omega
        rw [hmin]
        have := hwin2 i
        rw [hcur] at this
        constructor
        · rintro (h | h)
          · omega
          · have := this.mp h; omega
        · intro h
          by_cases h1 : i < self.m_reservoirUpdateStartIdx + M
          · left; omega
          · right; exact this.mpr (by omega)

theorem add_frames_append {Features : Type} (kernels : Kernels Features) :
    ∀ (frames1 frames2 : List Features) (self s1 : GPUForest),
      self.add_frames kernels frames1 = Outcome.ok s1 →
      self.add_frames kernels (frames1 ++ frames2) = s1.add_frames kernels frames2 := by
  intro frames1
  induction frames1 with
  | nil =>
    intro frames2 self s1 h
    simp only [GPUForest.add_frames, Outcome.ok.injEq] at h
    subst h
    rfl
  | cons f rest ih =>
    intro frames2 self s1 h
    simp only [GPUForest.add_frames, List.cons_append] at h ⊢
    cases hcall : self.add_features_to_forest kernels f with
    | ok s =>
      simp only [hcall] at h ⊢
      exact ih frames2 s s1 h
    | thrown what s => simp [hcall] at h
    | undefined => simp [hcall] at h

/-- The rounded-up quotient: `(n - 1) * M < L <= n * M` for `n = ceilDiv L M`. -/
theorem ceilDiv_spec (L M : Int) (hM : 0 < M) :
    (ceilDiv L M - 1) * M < L ∧ L ≤ ceilDiv L M * M := by
  unfold ceilDiv
  have h1 := Int.emod_add_ediv (L + M - 1) M
  have h2 := Int.emod_nonneg (L + M - 1) (ne_of_gt hM)
  have h3 := Int.emod_lt_of_pos (L + M - 1) hM
  have h4 : (L + M - 1) / M * M = M * ((L + M - 1) / M) := mul_comm _ _
  constructor
  · have : ((L + M - 1) / M - 1) * M = (L + M - 1) / M * M - M := by ring
    rw [this, h4]; omega
  · rw [h4]; omega

theorem clustered_eq_of_schedulable {self self' : GPUForest} {L : Nat} {M : Int}
    (hs : self.Schedulable L M) (hs' : self'.Schedulable L M)
    (hc : self'.m_reservoirUpdateStartIdx = self.m_reservoirUpdateStartIdx) :
    self'.clustered = self.clustered := by
  obtain ⟨-, ⟨p, hp, hlen⟩, -, hM⟩ := hs
  obtain ⟨-, ⟨p', hp', hlen'⟩, -, hM'⟩ := hs'
  unfold GPUForest.clustered
  simp only [hp, hp', hlen, hlen', hM, hM', hc]

/-- C11: from cursor 0, in a state with `L > 0` leaves and window size `M > 0`
(both in the range of `int`), `ceil(L / M)` consecutive calls of
`add_features_to_forest` return, the union of the windows they cluster is exactly
`[0, L)`, and the cursor is back at 0. -/
theorem add_frames_full_cycle {Features : Type} (kernels : Kernels Features)
    (frames : List Features) (self : GPUForest) (L : Nat) (M : Int)
    (hs : self.Schedulable L M) (hL0 : 0 < L) (hL : (L : Int) < 2147483648)
    (hM : 0 < M) (hM' : M < 2147483648) (hc : self.m_reservoirUpdateStartIdx = 0)
    (hn : (frames.length : Int) = ceilDiv L M) :
    ∃ self', self.add_frames kernels frames = Outcome.ok self' ∧
      self'.m_reservoirUpdateStartIdx = 0 ∧
      ∀ i : Int, (∃ w ∈ self.clusteredBy kernels frames, i ∈ w) ↔ 0 ≤ i ∧ i < (L : Int) := by
  obtain ⟨h1, h2⟩ := ceilDiv_spec L M hM
  rw [← hn] at h1 h2
  obtain ⟨s, hrun, -, hcur, hwin⟩ :=
    add_frames_wrap kernels L M hM hM' hL frames self hs (by omega) (by omega)
      (by rw [hc]; omega) (by rw [hc]; omega)
  refine ⟨s, hrun, hcur, ?_⟩
  intro i
  rw [hwin i, hc]

/-- Witness of C11: three leaves and a window of two leaves, two calls. -/
theorem add_frames_full_cycle_witness :
    ∃ self', smallWindowForest.add_frames exampleKernels [(), ()] = Outcome.ok self' ∧
      self'.m_reservoirUpdateStartIdx = 0 ∧
      ∀ i : Int, (∃ w ∈ smallWindowForest.clusteredBy exampleKernels [(), ()], i ∈ w) ↔
        0 ≤ i ∧ i < ((3 : Nat) : Int) :=
  add_frames_full_cycle exampleKernels [(), ()] smallWindowForest 3 2
    ⟨⟨_, rfl⟩, ⟨_, rfl, rfl⟩, ⟨_, rfl⟩, rfl⟩ (by decide) (by decide) (by decide) (by decide)
    rfl (by decide)

/-- C20, as stated, fails: with 1500 leaves and the window of 1000 leaves, leaf 0 is
clustered by a call and next by the call two frames later, and 2 exceeds
`1500 / 1000` (as an integer quotient and as a fraction). Likewise on the forest
built from the example ensemble (3 leaves, window 1000), leaf 0 is clustered by
every call, one frame apart, and 1 exceeds `3 / 1000`. -/
theorem recluster_gap_exceeds_quotient :
    ((0 : Int) ∈ bigForest.clustered ∧
      framesToNext (bigForest.clusteredBy exampleKernels [(), (), ()]) 0 = some 2 ∧
      ¬ ((2 : Nat) ≤ 1500 / 1000) ∧ (1500 : Nat) < 2 * 1000) ∧
    ((0 : Int) ∈ exampleForest.clustered ∧
      framesToNext (exampleForest.clusteredBy exampleKernels [(), ()]) 0 = some 1 ∧
      ¬ ((1 : Nat) ≤ 3 / 1000) ∧ (3 : Nat) < 1 * 1000) := by
  set_option maxRecDepth 100000 in
  refine ⟨⟨by decide, by decide, by decide, by decide⟩,
    ⟨by decide, by decide, by decide, by decide⟩⟩

/-- C20, amended: in a state with `L` leaves and window size `M > 0` whose cursor is
a multiple of `M` inside `[0, L)` (as in every state the scheduler reaches from
cursor 0), `ceil(L / M)` consecutive calls of `add_features_to_forest` return and
bring the cursor back where it was: the call that follows them clusters the same
window again. A leaf clustered by a call is clustered again `ceil(L / M)` frames
later, so the number of frames to its next clustering is at most `ceil(L / M)`. -/
theorem recluster_within_period {Features : Type} (kernels : Kernels Features)
    (frames : List Features) (self : GPUForest) (L : Nat) (M : Int) (j : Nat)
    (hs : self.Schedulable L M) (hL : (L : Int) < 2147483648)
    (hM : 0 < M) (hM' : M < 2147483648)
    (hc : self.m_reservoirUpdateStartIdx = (j : Int) * M)
    (hcL : self.m_reservoirUpdateStartIdx < (L : Int))
    (hn : (frames.length : Int) = ceilDiv L M) :
    ∃ self', self.add_frames kernels frames = Outcome.ok self' ∧
      self'.m_reservoirUpdateStartIdx = self.m_reservoirUpdateStartIdx ∧
      self'.clustered = self.clustered ∧
      ∀ i : Int, i ∈ self.clustered → i ∈ self'.clustered := by
  obtain ⟨h1, h2⟩ := ceilDiv_spec L M hM
  rw [← hn] at h1 h2
  have hj0 : 0 ≤ (j : Int) * M := mul_nonneg (Int.ofNat_nonneg _) (le_of_lt hM)
  -- the cursor index `j` is below the number of frames
  have hjn : j < frames.length := by
    by_contra hge
    have hge' : (frames.length : Int) ≤ (j : Int) := by exact_mod_cast Nat.le_of_not_lt hge
    have : (frames.length : Int) * M ≤ (j : Int) * M :=
      mul_le_mul_of_nonneg_right hge' (le_of_lt hM)
    omega
  have hsplit : frames = frames.take (frames.length - j) ++ frames.drop (frames.length - j) :=
    (List.take_append_drop _ _).symm
  have hlen1 : (frames.take (frames.length - j)).length = frames.length - j := by
    simp
  have hlen2 : (frames.drop (frames.length - j)).length = j := by
    simp; omega
  have hcast : (((frames.length - j : Nat)) : Int) = (frames.length : Int) - (j : Int) := by
    omega
  obtain ⟨s1, hrun1, hs1, hcur1, -⟩ :=
    add_frames_wrap kernels L M hM hM' hL (frames.take (frames.length - j)) self hs
      (by omega) hcL
      (by
        rw [hlen1, hcast, hc]
        have : (j : Int) * M + ((frames.length : Int) - (j : Int) - 1) * M
            = ((frames.length : Int) - 1) * M := by ring
        rw [this]; exact h1)
      (by
        rw [hlen1, hcast, hc]
        have : (j : Int) * M + ((frames.length : Int) - (j : Int)) * M
            = (frames.length : Int) * M := by ring
        rw [this]; exact h2)
  obtain ⟨s2, hrun2, hs2, hcur2, -⟩ :=
    add_frames_advance kernels L M hM hM' hL (frames.drop (frames.length - j)) s1 hs1
      (by omega) (by rw [hcur1, hlen2]; omega)
  have hrun : self.add_frames kernels frames = Outcome.ok s2 := by
    rw [hsplit, add_frames_append kernels _ _ self s1 hrun1]
    exact hrun2
  have hcur : s2.m_reservoirUpdateStartIdx = self.m_reservoirUpdateStartIdx := by
    rw [hcur2, hcur1, hlen2, hc]; omega
  have hcl := clustered_eq_of_schedulable hs hs2 hcur
  refine ⟨s2, hrun, hcur, hcl, ?_⟩
  intro i hi
  rw [hcl]; exact hi

/-- Witness of the amended C20: three leaves, a window of two leaves, the cursor
at 2 (one window in), two calls. -/
theorem recluster_within_period_witness :
    ∃ self', GPUForest.add_frames exampleKernels [(), ()]
        { smallWindowForest with m_reservoirUpdateStartIdx := 2 } = Outcome.ok self' ∧
      self'.m_reservoirUpdateStartIdx
        = ({ smallWindowForest with m_reservoirUpdateStartIdx := 2 } : GPUForest).m_reservoirUpdateStartIdx ∧
      self'.clustered
        = ({ smallWindowForest with m_reservoirUpdateStartIdx := 2 } : GPUForest).clustered ∧
      ∀ i : Int,
        i ∈ ({ smallWindowForest with m_reservoirUpdateStartIdx := 2 } : GPUForest).clustered →
          i ∈ self'.clustered :=
  recluster_within_period exampleKernels [(), ()]
    { smallWindowForest with m_reservoirUpdateStartIdx := 2 } 3 2 1
    ⟨⟨_, rfl⟩, ⟨_, rfl, rfl⟩, ⟨_, rfl⟩, rfl⟩ (by decide) (by decide) (by decide)
    (by decide) (by decide) (by decide)

/-! ## Claims on reset and evaluation -/

/-- C12 fails on the code: one call of `add_features_to_forest` on a state with 1500
leaves leaves the cursor at 1000, and `reset_predictions` on the state it leaves
returns with the cursor still at 1000, not 0; the clean-up at the head of
`load_structure_from_file`, run on the same state, does set the cursor to 0. -/
theorem reset_keeps_cursor :
    ∃ s s', bigForest.add_features_to_forest exampleKernels () = Outcome.ok s ∧
      s.reset_predictions = Outcome.ok s' ∧
      s.m_reservoirUpdateStartIdx = 1000 ∧
      s'.m_reservoirUpdateStartIdx = 1000 ∧ s'.m_reservoirUpdateStartIdx ≠ 0 ∧
      ∃ what s'', GPUForest.load_structure_from_file exampleConsts none s
          = Outcome.thrown what s'' ∧ s''.m_reservoirUpdateStartIdx = 0 := by
  set_option maxRecDepth 100000 in
  exact ⟨_, _, rfl, rfl, by decide, by decide, by decide, _, _, rfl, rfl⟩

/-- What `reset_predictions` does on a state whose predictions block and reservoirs
exist: it returns and leaves every prediction cleared (`nbModes` 0, no mode),
every reservoir empty with zero seen-count, and the numbers of predictions and
of reservoirs as they were; it assigns no other member, so the update cursor is
the one before the call. -/
theorem reset_predictions_clears (self : GPUForest) (predictions : List GPUForestPrediction)
    (reservoirs : GPUReservoir) (hp : self.m_predictionsBlock = some predictions)
    (hr : self.m_leafReservoirs = some reservoirs) :
    ∃ self' predictions' reservoirs', self.reset_predictions = Outcome.ok self' ∧
      self'.m_predictionsBlock = some predictions' ∧
      self'.m_leafReservoirs = some reservoirs' ∧
      predictions'.length = predictions.length ∧
      (∀ p ∈ predictions', p.nbModes = 0 ∧ p.modes = []) ∧
      reservoirs'.reservoirs.length = reservoirs.reservoirs.length ∧
      reservoirs'.capacity = reservoirs.capacity ∧
      (∀ r ∈ reservoirs'.reservoirs, r.examples = [] ∧ r.seen = 0) ∧
      self'.m_reservoirUpdateStartIdx = self.m_reservoirUpdateStartIdx ∧
      self'.m_forestImage = self.m_forestImage ∧
      self'.m_maxReservoirsToUpdate = self.m_maxReservoirsToUpdate ∧
      self'.m_nbNodesPerTree = self.m_nbNodesPerTree ∧
      self'.m_nbLeavesPerTree = self.m_nbLeavesPerTree := by
  have hcall : self.reset_predictions = Outcome.ok
      { self with
        m_predictionsBlock := some (predictions.map (fun _ => GPUForestPrediction.zero))
        m_leafReservoirs := some reservoirs.clear } := by
    unfold GPUForest.reset_predictions
    simp only [hp, hr]
  refine ⟨_, _, _, hcall, rfl, rfl, by simp, ?_, by simp [GPUReservoir.clear], rfl, ?_,
    rfl, rfl, rfl, rfl, rfl⟩
  · intro p hp'
    simp only [List.mem_map] at hp'
    obtain ⟨_, _, rfl⟩ := hp'
    exact ⟨rfl, rfl⟩
  · intro r hr'
    simp only [GPUReservoir.clear, List.mem_map] at hr'
    obtain ⟨_, _, rfl⟩ := hr'
    exact ⟨rfl, rfl⟩

/-- The example forest with its cursor at 2: `reset_predictions` clears the three
predictions and the three reservoirs and leaves the cursor at 2. -/
theorem reset_predictions_clears_example :
    ∃ self' predictions' reservoirs',
      ({ exampleForest with m_reservoirUpdateStartIdx := 2 } : GPUForest).reset_predictions
        = Outcome.ok self' ∧
      self'.m_predictionsBlock = some predictions' ∧
      self'.m_leafReservoirs = some reservoirs' ∧
      predictions'.length = 3 ∧
      (∀ p ∈ predictions', p.nbModes = 0 ∧ p.modes = []) ∧
      reservoirs'.reservoirs.length = 3 ∧
      reservoirs'.capacity = 1024 ∧
      (∀ r ∈ reservoirs'.reservoirs, r.examples = [] ∧ r.seen = 0) ∧
      self'.m_reservoirUpdateStartIdx = 2 ∧
      self'.m_forestImage = exampleForest.m_forestImage ∧
      self'.m_maxReservoirsToUpdate = exampleForest.m_maxReservoirsToUpdate ∧
      self'.m_nbNodesPerTree = exampleForest.m_nbNodesPerTree ∧
      self'.m_nbLeavesPerTree = exampleForest.m_nbLeavesPerTree :=
  reset_predictions_clears { exampleForest with m_reservoirUpdateStartIdx := 2 } _ _ rfl rfl

/-- C13: on a state whose node image and predictions block exist, `evaluate_forest`
returns, and the reservoirs, the predictions block, the node image and the
update cursor (and every member other than the leaf image) are as before the
call; the leaf image is the one `find_leaves` computes and the output is the one
`get_predictions` computes from the unchanged predictions block. -/
theorem evaluate_forest_frame {Features Predictions : Type} (kernels : Kernels Features)
    (get_predictions : List GPUForestPrediction → List (List Int) → Predictions)
    (features : Features) (self : GPUForest) (image : ForestImage)
    (predictions : List GPUForestPrediction) (hi : self.m_forestImage = some image)
    (hp : self.m_predictionsBlock = some predictions) :
    ∃ self' output, self.evaluate_forest kernels get_predictions features
        = Outcome.ok (self', output) ∧
      self'.m_leafReservoirs = self.m_leafReservoirs ∧
      self'.m_predictionsBlock = self.m_predictionsBlock ∧
      self'.m_forestImage = self.m_forestImage ∧
      self'.m_reservoirUpdateStartIdx = self.m_reservoirUpdateStartIdx ∧
      self' = { self with m_leafImage := kernels.find_leaves image features } ∧
      output = get_predictions predictions (kernels.find_leaves image features) := by
  have hcall : self.evaluate_forest kernels get_predictions features = Outcome.ok
      ({ self with m_leafImage := kernels.find_leaves image features },
        get_predictions predictions (kernels.find_leaves image features)) := by
    unfold GPUForest.evaluate_forest
    simp only [hi, hp]
  exact ⟨_, _, hcall, rfl, rfl, rfl, rfl, rfl, rfl⟩

/-- Witness of C13 on the example forest, the output being the predictions read. -/
theorem evaluate_forest_frame_witness :
    ∃ self' output, exampleForest.evaluate_forest exampleKernels (fun p _ => p) ()
        = Outcome.ok (self', output) ∧
      self'.m_leafReservoirs = exampleForest.m_leafReservoirs ∧
      self'.m_predictionsBlock = exampleForest.m_predictionsBlock ∧
      self'.m_forestImage = exampleForest.m_forestImage ∧
      self'.m_reservoirUpdateStartIdx = exampleForest.m_reservoirUpdateStartIdx ∧
      self' = { exampleForest with
        m_leafImage := exampleKernels.find_leaves
          ⟨2, 3, [⟨-1, 0, 0, 0⟩, ⟨1, -1, 0, mkRat 1 2⟩, ⟨0, 0, 0, 0⟩, ⟨-1, 1, 0, 0⟩,
            ⟨0, 0, 0, 0⟩, ⟨-1, 2, 0, 0⟩]⟩ () } ∧
      output = (fun (p : List GPUForestPrediction) (_ : List (List Int)) => p)
        [⟨[⟨[4, 5, 6], [1, 0, 0, 0, 1, 0, 0, 0, 1], 1, [30, 40, 50], 7⟩,
           ⟨[1, 2, 3], [1, 0, 0, 0, 1, 0, 0, 0, 1], 1, [10, 20, 255], 5⟩], 2⟩,
         ⟨[], 0⟩, ⟨[], 0⟩]
        (exampleKernels.find_leaves
          ⟨2, 3, [⟨-1, 0, 0, 0⟩, ⟨1, -1, 0, mkRat 1 2⟩, ⟨0, 0, 0, 0⟩, ⟨-1, 1, 0, 0⟩,
            ⟨0, 0, 0, 0⟩, ⟨-1, 2, 0, 0⟩]⟩ ()) :=
  evaluate_forest_frame exampleKernels (fun p _ => p) () exampleForest _ _ rfl rfl

/-! ## Claims on the conversion of the leaf payloads -/

theorem mapOption_length {α β : Type} (f : α → Option β) :
    ∀ (l : List α) (r : List β), mapOption f l = some r → r.length = l.length := by
  intro l
  induction l with
  | nil => intro r h; simp only [mapOption, Option.some.injEq] at h; subst h; rfl
  | cons a as ih =>
    intro r h
    unfold mapOption at h
    cases hfa : f a with
    | none => simp [hfa] at h
    | some b =>
      cases hrest : mapOption f as with
      | none => simp [hfa, hrest] at h
      | some bs =>
        simp only [hfa, hrest, Option.some.injEq] at h
        subst h
        simp [ih bs hrest]

theorem mapOption_getElem {α β : Type} (f : α → Option β) :
    ∀ (l : List α) (r : List β), mapOption f l = some r →
      ∀ (i : Nat) (a : α), l[i]? = some a → r[i]? = f a := by
  intro l
  induction l with
  | nil => intro r _ i a hi; simp at hi
  | cons x xs ih =>
    intro r h i a hi
    unfold mapOption at h
    cases hfx : f x with
    | none => simp [hfx] at h
    | some b =>
      cases hrest : mapOption f xs with
      | none => simp [hfx, hrest] at h
      | some bs =>
        simp only [hfx, hrest, Option.some.injEq] at h
        subst h
        cases i with
        | zero => simp at hi; subst hi; simp [hfx]
        | succ i => simp at hi; simpa using ih bs hrest i a hi

theorem mapOption_mem {α β : Type} (f : α → Option β) :
    ∀ (l : List α) (r : List β), mapOption f l = some r →
      ∀ b ∈ r, ∃ a ∈ l, f a = some b := by
  intro l
  induction l with
  | nil => intro r h b hb; simp only [mapOption, Option.some.injEq] at h; subst h; simp at hb
  | cons x xs ih =>
    intro r h b hb
    unfold mapOption at h
    cases hfx : f x with
    | none => simp [hfx] at h
    | some y =>
      cases hrest : mapOption f xs with
      | none => simp [hfx, hrest] at h
      | some ys =>
        simp only [hfx, hrest, Option.some.injEq] at h
        subst h
        rcases List.mem_cons.mp hb with h1 | h1
        · subst h1; exact ⟨x, List.mem_cons_self _ _, hfx⟩
        · obtain ⟨a, ha, hfa⟩ := ih ys hrest b h1
          exact ⟨a, List.mem_cons_of_mem _ ha, hfa⟩

theorem mapOption_pairwise {α β : Type} (f : α → Option β) (R : α → α → Prop)
    (S : β → β → Prop)
    (hRS : ∀ a a' b b', f a = some b → f a' = some b' → R a a' → S b b') :
    ∀ (l : List α) (r : List β), mapOption f l = some r → l.Pairwise R → r.Pairwise S := by
  intro l
  induction l with
  | nil =>
    intro r h _
    simp only [mapOption, Option.some.injEq] at h
    subst h
    exact List.Pairwise.nil
  | cons x xs ih =>
    intro r h hp
    unfold mapOption at h
    cases hfx : f x with
    | none => simp [hfx] at h
    | some y =>
      cases hrest : mapOption f xs with
      | none => simp [hfx, hrest] at h
      | some ys =>
        simp only [hfx, hrest, Option.some.injEq] at h
        subst h
        rw [List.pairwise_cons] at hp ⊢
        refine ⟨?_, ih ys hrest hp.2⟩
        intro b hb
        obtain ⟨a, ha, hfa⟩ := mapOption_mem f xs ys hrest b hb
        exact hRS x a y b hfx hfa (hp.1 a ha)

/-- A mode with its channels is converted, and its `nbInliers` is the number of
points of its position Gaussian. -/
theorem convertMode_of_channels (K : Consts) (mode : List PredictedGaussianMean)
    (h : modeHasChannels mode = true) :
    ∃ m, convertMode K mode = some m ∧ m.nbInliers = nbPointsOf mode := by
  unfold modeHasChannels at h
  unfold convertMode nbPointsOf
  cases h0 : mode[0]? with
  | none => simp [h0] at h
  | some g0 =>
    cases h1 : mode[1]? with
    | none => simp [h0, h1] at h
    | some g1 =>
      simp only [h0, h1, decide_eq_true_eq] at h
      obtain ⟨hm, hc, hl⟩ := h
      have e0 : g1._mean[0]? = some (g1._mean[0]) := List.getElem?_eq_getElem (by omega)
      have e1 : g1._mean[1]? = some (g1._mean[1]) := List.getElem?_eq_getElem (by omega)
      have e2 : g1._mean[2]? = some (g1._mean[2]) := List.getElem?_eq_getElem (by omega)
      simp only [hm, hc, and_self, if_true, e0, e1, e2]
      exact ⟨_, rfl, rfl⟩

theorem convertMode_nbInliers (K : Consts) (mode : List PredictedGaussianMean)
    (m : GPUForestMode) (h : convertMode K mode = some m) : m.nbInliers = nbPointsOf mode := by
  unfold convertMode at h
  unfold nbPointsOf
  cases h0 : mode[0]? with
  | none => simp [h0] at h
  | some g0 =>
    cases h1 : mode[1]? with
    | none => simp [h0, h1] at h
    | some g1 =>
      simp only [h0, h1] at h
      split at h
      · split at h
        · simp only [Option.some.injEq] at h
          subst h
          rfl
        · simp at h
      · simp at h

theorem sortModes_pairwise (modes : List (List PredictedGaussianMean)) :
    (sortModes modes).Pairwise (fun a b => nbPointsOf b ≤ nbPointsOf a) := by
  haveI : IsTotal (List PredictedGaussianMean) (fun a b => nbPointsOf b ≤ nbPointsOf a) :=
    ⟨fun a b => le_total _ _⟩
  haveI : IsTrans (List PredictedGaussianMean) (fun a b => nbPointsOf b ≤ nbPointsOf a) :=
    ⟨fun a b c h1 h2 => le_trans h2 h1⟩
  exact List.sorted_insertionSort _ modes

/-- The conversion of one well-formed leaf payload: it returns a prediction with
`min(n, MAX_MODES)` modes, in non-increasing order of `nbInliers`. -/
theorem convertPrediction_of_wellFormed (K : Consts) (p : PredictionGaussianMean)
    (hwf : p.wellFormed = true) :
    ∃ pred, convertPrediction K p = some pred ∧
      pred.nbModes = min p._modes.length K.MAX_MODES ∧ pred.modes.length = pred.nbModes ∧
      (pred.modes.map GPUForestMode.nbInliers).Pairwise (fun a b => b ≤ a) := by
  unfold PredictionGaussianMean.wellFormed at hwf
  rw [List.all_eq_true] at hwf
  have hnil : ¬ (2 ≤ p._modes.length ∧ [] ∈ p._modes) := by
    rintro ⟨-, h⟩
    have := hwf [] h
    simp [modeHasChannels] at this
  have hall : ∀ mode ∈ (sortModes p._modes).take K.MAX_MODES,
      (convertMode K mode).isSome = true := by
    intro mode hmode
    have h1 : mode ∈ sortModes p._modes := List.mem_of_mem_take hmode
    have h2 : mode ∈ p._modes := (List.perm_insertionSort _ _).mem_iff.mp h1
    obtain ⟨m, hm, -⟩ := convertMode_of_channels K mode (hwf mode h2)
    simp [hm]
  obtain ⟨modes, hmodes, hlen, -⟩ := mapOption_isSome (convertMode K) _ hall
  have hsorted : modes.Pairwise (fun a b => b.nbInliers ≤ a.nbInliers) := by
    refine mapOption_pairwise (convertMode K) (fun a b => nbPointsOf b ≤ nbPointsOf a) _ ?_
      _ modes hmodes ((sortModes_pairwise p._modes).sublist (List.take_sublist _ _))
    intro a a' b b' hb hb' hR
    rw [convertMode_nbInliers K a b hb, convertMode_nbInliers K a' b' hb']
    exact hR
  refine ⟨⟨modes, modes.length⟩, ?_, ?_, rfl, ?_⟩
  · unfold convertPrediction
    simp only [hnil, if_false, hmodes]
  · show modes.length = _
    rw [hlen, List.length_take]
    unfold sortModes
    rw [List.length_insertionSort, Nat.min_comm]
  · rw [List.pairwise_map]
    exact hsorted

/-- C14: for well-formed leaf payloads `convert_predictions` returns, and the
prediction it writes for a payload with `n` trained modes has
`nbModes = min(n, MAX_MODES)` populated modes, in non-increasing order of
`nbInliers`; a leaf without a trained prediction (for which the constructor
records an empty payload) gets `nbModes = 0`. -/
theorem convert_predictions_modes (K : Consts) (leafPredictions : List PredictionGaussianMean)
    (hwf : ∀ p ∈ leafPredictions, p.wellFormed = true) :
    ∃ predictions, convert_predictions K leafPredictions = some predictions ∧
      predictions.length = leafPredictions.length ∧
      ∀ (i : Nat) (p : PredictionGaussianMean) (pred : GPUForestPrediction),
        leafPredictions[i]? = some p → predictions[i]? = some pred →
          pred.nbModes = min p._modes.length K.MAX_MODES ∧
          pred.modes.length = pred.nbModes ∧
          (pred.modes.map GPUForestMode.nbInliers).Pairwise (fun a b => b ≤ a) ∧
          (p = leafPayload none → pred.nbModes = 0) := by
  have hall : ∀ p ∈ leafPredictions, (convertPrediction K p).isSome = true := by
    intro p hp
    obtain ⟨pred, hpred, -⟩ := convertPrediction_of_wellFormed K p (hwf p hp)
    simp [hpred]
  obtain ⟨predictions, hpreds, hlen, hget⟩ := mapOption_isSome (convertPrediction K) _ hall
  refine ⟨predictions, hpreds, hlen, ?_⟩
  intro i p pred hi hpi
  obtain ⟨pred', hpred', h1, h2, h3⟩ :=
    convertPrediction_of_wellFormed K p (hwf p (List.getElem?_mem hi))
  have : pred = pred' := by
    have := hget i p hi
    rw [hpi, hpred'] at this
    exact Option.some.inj this
  subst this
  refine ⟨h1, h2, h3, ?_⟩
  intro hnone
  rw [h1, hnone]
  simp [leafPayload]

/-- Witness of C14: the payloads of the example ensemble (two modes with 5 and 7
points, and two leaves without a trained prediction). -/
theorem convert_predictions_modes_witness :
    ∃ predictions,
      convert_predictions exampleConsts (exampleEnsemble.trees.map Learner.payloads).flatten
        = some predictions ∧
      predictions.length = (exampleEnsemble.trees.map Learner.payloads).flatten.length ∧
      ∀ (i : Nat) (p : PredictionGaussianMean) (pred : GPUForestPrediction),
        (exampleEnsemble.trees.map Learner.payloads).flatten[i]? = some p →
          predictions[i]? = some pred →
          pred.nbModes = min p._modes.length exampleConsts.MAX_MODES ∧
          pred.modes.length = pred.nbModes ∧
          (pred.modes.map GPUForestMode.nbInliers).Pairwise (fun a b => b ≤ a) ∧
          (p = leafPayload none → pred.nbModes = 0) :=
  convert_predictions_modes exampleConsts (exampleEnsemble.trees.map Learner.payloads).flatten
    (by decide)

/-! ## Claims on the predictions after the construction -/

theorem payloads_flatten_getElem (K : Consts) :
    ∀ (trees : List Learner) (t : Nat) (tree : Learner),
      (∀ x ∈ trees, x.wellFormed K = true) → trees[t]? = some tree →
      ∀ (i : Nat) (p : PredictionGaussianMean), tree.payloads[i]? = some p →
        (trees.map Learner.payloads).flatten[leavesBefore trees t + i]? = some p := by
  intro trees
  induction trees with
  | nil => intro t tree _ h; simp at h
  | cons x rest ih =>
    intro t tree hwf ht i p hi
    cases t with
    | zero =>
      simp at ht; subst ht
      rw [leavesBefore_zero, Nat.zero_add]
      simp only [List.map_cons, List.flatten_cons]
      have hlt : i < x.payloads.length := (List.getElem?_eq_some.mp hi).1
      rw [List.getElem?_append_left hlt]
      exact hi
    | succ t =>
      simp at ht
      obtain ⟨bx, -, -, hl, hp, -⟩ := Learner.wellFormed_tree (hwf x (List.mem_cons_self _ _))
      have hlen : x.payloads.length = x.nbLeaves := by
        rw [hp, BTree.length_labels, hl]
      rw [leavesBefore_cons_succ]
      simp only [List.map_cons, List.flatten_cons]
      rw [List.getElem?_append_right (by omega)]
      have e : x.nbLeaves + leavesBefore rest t + i - x.payloads.length
          = leavesBefore rest t + i := by omega
      rw [e]
      exact ih t tree (fun y hy => hwf y (List.mem_cons_of_mem _ hy)) ht i p hi

theorem labels_numbered_getElem {α : Type} (bt : BTree α) (k i : Nat) (j : Int)
    (h : (bt.numbered k).labels[i]? = some j) : j = ((k + i : Nat) : Int) := by
  have hlt : i < bt.nbLeaves := by
    have := (List.getElem?_eq_some.mp h).1
    simpa [BTree.labels_numbered] using this
  rw [BTree.labels_numbered, List.getElem?_map, List.getElem?_range' _ _ hlt] at h
  simp only [Option.map_some', Option.some.injEq, Nat.one_mul] at h
  rw [← h]
  rfl

/-- C15: after the construction from a well-formed ensemble, the predictions block
and the reservoirs have one entry per leaf of the ensemble, and for every tree
the `i`-th leaf of the source tree (depth-first, left before right), whose record
in the node array is the `i`-th leaf record read back from slot 0, has at its
`leafIdx` in the predictions block the conversion of its own payload. -/
theorem build_predictions_match (K : Consts) (e : EnsembleLearner)
    (hwf : e.wellFormed K = true) :
    ∃ f img predictions reservoirs, GPUForest.build K e = Outcome.ok f ∧
      f.m_forestImage = some img ∧ f.m_predictionsBlock = some predictions ∧
      f.m_leafReservoirs = some reservoirs ∧
      predictions.length = e.nbLeaves ∧ reservoirs.reservoirs.length = e.nbLeaves ∧
      ∀ (t : Nat) (tree : Learner), e.trees[t]? = some tree →
        ∃ bt dt, tree.toTree tree.nodes.length 0 = some bt ∧
          decode img.data img.width t tree.nbNodes 0 = some dt ∧ dt.shape = bt.shape ∧
          ∀ (i : Nat) (p : PredictionGaussianMean) (leafIdx : Int),
            bt.labels[i]? = some p → dt.labels[i]? = some leafIdx →
              0 ≤ leafIdx ∧ (convertPrediction K p).isSome = true ∧
                predictions[leafIdx.toNat]? = convertPrediction K p := by
  obtain ⟨hT, hall⟩ := EnsembleLearner.wellFormed_trees hwf
  obtain ⟨data, preds, hb, -, hconv, hpl, -, -, henc⟩ := build_ok K e hwf
  refine ⟨_, _, preds, _, hb, rfl, rfl, rfl, hpl, ?_, ?_⟩
  · simp [GPUReservoir.create, hpl]
  · intro t tree ht
    obtain ⟨bt, hbt, hn, hl, -, -, hx⟩ := henc t tree ht
    have hdec := decode_of_enc bt 0 1 _ tree.nbNodes hx (by omega)
    refine ⟨bt, bt.numbered (leavesBefore e.trees t), hbt, hdec, bt.shape_numbered _, ?_⟩
    intro i p leafIdx hi hj
    have hidx := labels_numbered_getElem bt _ i leafIdx hj
    have hpay : tree.payloads = bt.labels := by
      simp [Learner.payloads, hbt]
    have hflat := payloads_flatten_getElem K e.trees t tree hall ht i p (by rw [hpay]; exact hi)
    have hget := mapOption_getElem (convertPrediction K) _ preds hconv _ p hflat
    have hsome : (convertPrediction K p).isSome = true :=
      mem_payloads_flatten K e.trees hall p (List.getElem?_mem hflat)
    subst hidx
    refine ⟨Int.ofNat_nonneg _, hsome, ?_⟩
    rw [Int.toNat_ofNat]
    exact hget

/-- Witness of C15 on the example ensemble. -/
theorem build_predictions_match_witness :
    exampleEnsemble.wellFormed exampleConsts = true ∧
    ∃ f img predictions reservoirs,
      GPUForest.build exampleConsts exampleEnsemble = Outcome.ok f ∧
      f.m_forestImage = some img ∧ f.m_predictionsBlock = some predictions ∧
      f.m_leafReservoirs = some reservoirs ∧
      predictions.length = exampleEnsemble.nbLeaves ∧
      reservoirs.reservoirs.length = exampleEnsemble.nbLeaves ∧
      ∀ (t : Nat) (tree : Learner), exampleEnsemble.trees[t]? = some tree →
        ∃ bt dt, tree.toTree tree.nodes.length 0 = some bt ∧
          decode img.data img.width t tree.nbNodes 0 = some dt ∧ dt.shape = bt.shape ∧
          ∀ (i : Nat) (p : PredictionGaussianMean) (leafIdx : Int),
            bt.labels[i]? = some p → dt.labels[i]? = some leafIdx →
              0 ≤ leafIdx ∧ (convertPrediction exampleConsts p).isSome = true ∧
                predictions[leafIdx.toNat]? = convertPrediction exampleConsts p :=
  ⟨by decide, build_predictions_match exampleConsts exampleEnsemble (by decide)⟩

/-! ## Claims on the text written and on the state after a load -/

/-- C16, at the forest of two trees (tree 0 with one node, tree 1 with three):
`save_structure_to_file` writes the tree count, the two lines of counts and then
two records per tree (slots 0 and 1 of tree 0, slots 0 and 1 of tree 1), where
the format has the one record of tree 0 and the three records of tree 1. -/
theorem save_writes_ntrees_records :
    exampleForest.save_structure_to_file exampleConsts = some exampleText ∧
    formatText exampleConsts exampleForest = some exampleFormatText ∧
    exampleText ≠ exampleFormatText ∧
    exampleText.drop 5 =
      [Token.int (-1), Token.int 0, Token.int 0, Token.real 0,
       Token.int 0, Token.int 0, Token.int 0, Token.real 0,
       Token.int 1, Token.int (-1), Token.int 0, Token.real (mkRat 1 2),
       Token.int (-1), Token.int 1, Token.int 0, Token.real 0] := by
  refine ⟨by decide, by decide, by decide, by decide⟩

theorem readInt_some {tokens rest : List Token} {value : Int}
    (h : readInt tokens = some (value, rest)) : tokens = Token.int value :: rest := by
  cases tokens with
  | nil => simp [readInt] at h
  | cons tok toks =>
    cases tok with
    | int v =>
      simp only [readInt, Option.some.injEq, Prod.mk.injEq] at h
      rw [h.1, h.2]
    | real v => simp [readInt] at h
    | junk => simp [readInt] at h

theorem toInt32_of_range (x : Int) (h1 : -2147483648 ≤ x) (h2 : x < 2147483648) :
    toInt32 x = x := by
  unfold toInt32
  omega

/-- The loop over the tree dimensions, when it completes: it has read `todo` pairs
of counts from the text, appended them to the two lists, and formed the maximum
of the node counts and (when no sum leaves the range of `int`) the sum of the
leaf counts. -/
theorem readDims_done :
    ∀ (todo i : Nat) (tokens : List Token) (self : GPUForest) (maxNbNodes totalNbLeaves : Int)
      (rest : List Token) (self' : GPUForest) (maxNbNodes' totalNbLeaves' : Int),
      readDims todo i tokens self maxNbNodes totalNbLeaves
        = ReadDims.done rest self' maxNbNodes' totalNbLeaves' →
      ∃ nodeCounts leafCounts, nodeCounts.length = todo ∧ leafCounts.length = todo ∧
        tokens = dimTokens nodeCounts leafCounts ++ rest ∧
        self' = { self with
          m_nbNodesPerTree := self.m_nbNodesPerTree ++ nodeCounts
          m_nbLeavesPerTree := self.m_nbLeavesPerTree ++ leafCounts } ∧
        maxNbNodes' = nodeCounts.foldl (fun m n => max n m) maxNbNodes ∧
        (sumsFitInt32 totalNbLeaves leafCounts = true →
          totalNbLeaves' = totalNbLeaves + leafCounts.sum) := by
  intro todo
  induction todo with
  | zero =>
    intro i tokens self mx tot rest self' mx' tot' h
    simp only [readDims, ReadDims.done.injEq] at h
    obtain ⟨h1, h2, h3, h4⟩ := h
    subst h1 h2 h3 h4
    exact ⟨[], [], rfl, rfl, by simp [dimTokens], by simp, rfl, by simp⟩
  | succ todo ih =>
    intro i tokens self mx tot rest self' mx' tot' h
    unfold readDims at h
    cases h1 : readInt tokens with
    | none => simp [h1] at h
    | some r1 =>
      obtain ⟨nbNodes, rest1⟩ := r1
      cases h2 : readInt rest1 with
      | none => simp [h1, h2] at h
      | some r2 =>
        obtain ⟨nbLeaves, rest2⟩ := r2
        simp only [h1, h2] at h
        obtain ⟨ns, ls, hns, hls, htok, hself, hmx, htot⟩ := ih _ _ _ _ _ _ _ _ _ h
        refine ⟨nbNodes :: ns, nbLeaves :: ls, by simp [hns], by simp [hls], ?_, ?_, ?_, ?_⟩
        · rw [readInt_some h1, readInt_some h2, htok]
          simp [dimTokens]
        · rw [hself]
          simp
        · rw [hmx]
          simp
        · intro hfit
          simp only [sumsFitInt32, Bool.and_eq_true, decide_eq_true_eq] at hfit
          obtain ⟨⟨hlo, hhi⟩, hfit'⟩ := hfit
          rw [toInt32_of_range _ hlo hhi] at htot
          rw [htot hfit']
          simp only [List.sum_cons]
          ring

/-- A load that returns: the text begins with the tree count `GPUFOREST_NTREES` and
the counts of every tree, which are the two per-tree lists of the state; the
node image has `GPUFOREST_NTREES` columns and as many rows as the largest node
count; the predictions block and the reservoirs are fresh, of the size
`totalNbLeaves`; the cursor is 0. -/
theorem load_ok_inv (K : Consts) (file : Option (List Token)) (self f : GPUForest)
    (h : GPUForest.load_structure_from_file K file self = Outcome.ok f) :
    ∃ (rest : List Token) (data : List GPUForestNode) (totalNbLeaves : Int),
      file = some (Token.int K.GPUFOREST_NTREES
        :: (dimTokens f.m_nbNodesPerTree f.m_nbLeavesPerTree ++ rest)) ∧
      f.m_nbNodesPerTree.length = K.GPUFOREST_NTREES ∧
      f.m_nbLeavesPerTree.length = K.GPUFOREST_NTREES ∧
      f.m_forestImage = some ⟨K.GPUFOREST_NTREES,
        (f.m_nbNodesPerTree.foldl (fun m n => max n m) 0).toNat, data⟩ ∧
      0 ≤ totalNbLeaves ∧
      (sumsFitInt32 0 f.m_nbLeavesPerTree = true → totalNbLeaves = f.m_nbLeavesPerTree.sum) ∧
      f.m_predictionsBlock
        = some (List.replicate totalNbLeaves.toNat GPUForestPrediction.zero) ∧
      f.m_leafReservoirs = some (GPUReservoir.create K.RESERVOIR_SIZE totalNbLeaves.toNat) ∧
      f.m_reservoirUpdateStartIdx = 0 ∧
      f.m_maxReservoirsToUpdate = self.m_maxReservoirsToUpdate ∧
      f.m_leafPredictions = self.m_leafPredictions := by
  unfold GPUForest.load_structure_from_file at h
  cases file with
  | none => simp at h
  | some tokens =>
    simp only [] at h
    cases h1 : readInt tokens with
    | none => simp [h1] at h
    | some r1 =>
      obtain ⟨nbTrees, toks⟩ := r1
      simp only [h1] at h
      by_cases hT : nbTrees = (K.GPUFOREST_NTREES : Int)
      · simp only [hT, ne_eq, not_true_eq_false, if_false] at h
        cases h2 : readDims K.GPUFOREST_NTREES 0 toks
            { self with
              m_forestImage := none
              m_predictionsBlock := none
              m_leafReservoirs := none
              m_nbNodesPerTree := []
              m_nbLeavesPerTree := []
              m_reservoirUpdateStartIdx := 0 } 0 0 with
        | failed i s => simp [h2] at h
        | done rest s1 mx tot =>
          simp only [h2] at h
          obtain ⟨ns, ls, hns, hls, htok, hself, hmx, htot⟩ := readDims_done _ _ _ _ _ _ _ _ _ _ h2
          by_cases hneg : tot < 0
          · simp [hneg] at h
          · simp only [hneg, if_false] at h
            cases h3 : readAllNodes K K.GPUFOREST_NTREES s1.m_nbNodesPerTree.length
                K.GPUFOREST_NTREES 0 (ForestImage.cleared K.GPUFOREST_NTREES mx.toNat).data
                rest with
            | outOfBounds => simp [h3] at h
            | failed a b c => simp [h3] at h
            | done data rest' =>
              simp only [h3, Outcome.ok.injEq] at h
              subst h
              subst hself
              refine ⟨rest, data, tot, ?_, by simpa using hns, by simpa using hls, ?_, by omega,
                ?_, rfl, rfl, rfl, rfl, rfl⟩
              · rw [readInt_some h1, hT, htok]
                simp only [List.nil_append]
              · rw [hmx]
                simp only [List.nil_append]
                rfl
              · intro hfit
                simp only [List.nil_append] at hfit ⊢
                rw [htot hfit]
                simp
      · simp [hT] at h

/-- C17: after a load that returns (the sums of the declared leaf counts staying in
the range of `int`), the predictions block and the reservoirs have as many
entries as the sum of the leaf counts the file declares, every prediction has
`nbModes` 0 and every reservoir is empty, whatever the state was before; the
leaf counts are those that follow the tree count in the text. -/
theorem load_predictions_fresh (K : Consts) (file : Option (List Token)) (self f : GPUForest)
    (hload : GPUForest.load_structure_from_file K file self = Outcome.ok f)
    (hfit : sumsFitInt32 0 f.m_nbLeavesPerTree = true) :
    ∃ predictions reservoirs, f.m_predictionsBlock = some predictions ∧
      f.m_leafReservoirs = some reservoirs ∧
      (predictions.length : Int) = f.m_nbLeavesPerTree.sum ∧
      (reservoirs.reservoirs.length : Int) = f.m_nbLeavesPerTree.sum ∧
      (∀ p ∈ predictions, p.nbModes = 0 ∧ p.modes = []) ∧
      (∀ r ∈ reservoirs.reservoirs, r.examples = [] ∧ r.seen = 0) ∧
      f.m_nbLeavesPerTree.length = K.GPUFOREST_NTREES ∧
      ∃ nodeCounts rest, nodeCounts.length = K.GPUFOREST_NTREES ∧
        file = some (Token.int K.GPUFOREST_NTREES
          :: (dimTokens nodeCounts f.m_nbLeavesPerTree ++ rest)) := by
  obtain ⟨rest, data, tot, hfile, hns, hls, -, htot0, htot, hp, hr, -, -, -⟩ :=
    load_ok_inv K file self f hload
  have hsum := htot hfit
  refine ⟨_, _, hp, hr, ?_, ?_, ?_, ?_, hls, f.m_nbNodesPerTree, rest, hns, hfile⟩
  · rw [List.length_replicate, Int.toNat_of_nonneg htot0, hsum]
  · simp only [GPUReservoir.create, List.length_replicate]
    rw [Int.toNat_of_nonneg htot0, hsum]
  · intro p hp'
    rw [List.eq_of_mem_replicate hp']
    exact ⟨rfl, rfl⟩
  · intro r hr'
    simp only [GPUReservoir.create] at hr'
    rw [List.eq_of_mem_replicate hr']
    exact ⟨rfl, rfl⟩

/-- Witness of C17: the text written for the example forest, loaded into the
example forest, whose first prediction has two modes. -/
theorem load_predictions_fresh_witness :
    ∃ predictions reservoirs, exampleReloaded.m_predictionsBlock = some predictions ∧
      exampleReloaded.m_leafReservoirs = some reservoirs ∧
      (predictions.length : Int) = exampleReloaded.m_nbLeavesPerTree.sum ∧
      (reservoirs.reservoirs.length : Int) = exampleReloaded.m_nbLeavesPerTree.sum ∧
      (∀ p ∈ predictions, p.nbModes = 0 ∧ p.modes = []) ∧
      (∀ r ∈ reservoirs.reservoirs, r.examples = [] ∧ r.seen = 0) ∧
      exampleReloaded.m_nbLeavesPerTree.length = exampleConsts.GPUFOREST_NTREES ∧
      ∃ nodeCounts rest, nodeCounts.length = exampleConsts.GPUFOREST_NTREES ∧
        some exampleText = some (Token.int exampleConsts.GPUFOREST_NTREES
          :: (dimTokens nodeCounts exampleReloaded.m_nbLeavesPerTree ++ rest)) :=
  load_predictions_fresh exampleConsts (some exampleText) exampleForest exampleReloaded
    (by decide) (by decide)

/-! ## Claims on the unused slots -/

/-- In a layout `Enc`, the slots reachable from the root of the subtree are slots of
the subtree. -/
theorem reachable_of_enc {data : List GPUForestNode} {T t : Nat} {root s : Nat}
    (hreach : Reachable data T t root s) :
    ∀ (bt : BTree PredictionGaussianMean) (ff L : Nat), Enc data T t bt root ff L →
      s = root ∨ (ff ≤ s ∧ s < ff + bt.nbDesc) := by
  induction hreach with
  | refl slot => intro bt ff L _; exact Or.inl rfl
  | left root slot c node hnode hc _ ih =>
    intro bt ff L henc
    cases bt with
    | leaf a =>
      simp only [Enc] at henc
      rw [henc] at hnode
      cases hnode
      have : (-1 : Int) = (c : Int) := hc
      omega
    | inner f th l r =>
      obtain ⟨h0, hl, -⟩ := henc
      rw [h0] at hnode
      cases hnode
      have hcf : c = ff := by
        have : (ff : Int) = (c : Int) := hc
        omega
      subst hcf
      have := ih l (c + 2) L hl
      simp only [BTree.nbDesc]
      omega
  | right root slot c node hnode hc _ ih =>
    intro bt ff L henc
    cases bt with
    | leaf a =>
      simp only [Enc] at henc
      rw [henc] at hnode
      cases hnode
      have : (-1 : Int) = (c : Int) := hc
      omega
    | inner f th l r =>
      obtain ⟨h0, -, hr⟩ := henc
      rw [h0] at hnode
      cases hnode
      have hcf : c = ff := by
        have : (ff : Int) = (c : Int) := hc
        omega
      subst hcf
      have := ih r (c + 2 + l.nbDesc) (L + l.nbLeaves) hr
      simp only [BTree.nbDesc]
      omega

/-- C18: after the construction from a well-formed ensemble the node array has
`GPUFOREST_NTREES` columns and `GetMaxNbNodesInAnyLearner` rows, every slot of a
tree at or beyond its `GetNbNodes` is all-zero, and every slot reachable from
slot 0 of the tree by the links `leftChildIdx`, `leftChildIdx + 1` is below its
`GetNbNodes`: no unused slot is reachable. -/
theorem build_unused_slots (K : Consts) (e : EnsembleLearner) (hwf : e.wellFormed K = true) :
    ∃ f img, GPUForest.build K e = Outcome.ok f ∧ f.m_forestImage = some img ∧
      img.width = K.GPUFOREST_NTREES ∧ img.height = e.GetMaxNbNodesInAnyLearner ∧
      img.data.length = img.height * img.width ∧
      ∀ (t : Nat) (tree : Learner), e.trees[t]? = some tree →
        (∀ s, tree.nbNodes ≤ s → s < img.height →
          img.data[s * img.width + t]? = some ⟨0, 0, 0, 0⟩) ∧
        (∀ s, Reachable img.data img.width t 0 s → s < tree.nbNodes) := by
  obtain ⟨data, preds, hb, hlen, -, -, -, hzero, henc⟩ := build_ok K e hwf
  refine ⟨_, _, hb, rfl, rfl, rfl, hlen, ?_⟩
  intro t tree ht
  refine ⟨fun s hs hsH => hzero t tree ht s hs hsH, ?_⟩
  intro s hreach
  obtain ⟨bt, -, hn, -, -, -, hx⟩ := henc t tree ht
  have hsz := bt.nbNodes_eq
  have := reachable_of_enc hreach bt 1 _ hx
  omega

/-- Witness of C18 on the example ensemble. -/
theorem build_unused_slots_witness :
    exampleEnsemble.wellFormed exampleConsts = true ∧
    ∃ f img, GPUForest.build exampleConsts exampleEnsemble = Outcome.ok f ∧
      f.m_forestImage = some img ∧
      img.width = exampleConsts.GPUFOREST_NTREES ∧
      img.height = exampleEnsemble.GetMaxNbNodesInAnyLearner ∧
      img.data.length = img.height * img.width ∧
      ∀ (t : Nat) (tree : Learner), exampleEnsemble.trees[t]? = some tree →
        (∀ s, tree.nbNodes ≤ s → s < img.height →
          img.data[s * img.width + t]? = some ⟨0, 0, 0, 0⟩) ∧
        (∀ s, Reachable img.data img.width t 0 s → s < tree.nbNodes) :=
  ⟨by decide, build_unused_slots exampleConsts exampleEnsemble (by decide)⟩

/-! ## Claims on the reservoirs -/

theorem Reservoir.add_seen (capacity : Nat) (r : Reservoir) (ex : PositionColourExample)
    (draw : Nat) : (Reservoir.add capacity r ex draw).seen = r.seen + 1 := by
  unfold Reservoir.add
  split
  · rfl
  · simp only []
    split <;> rfl

theorem Reservoir.add_length (capacity : Nat) (r : Reservoir) (ex : PositionColourExample)
    (draw : Nat) :
    (Reservoir.add capacity r ex draw).examples.length
      = if r.examples.length < capacity then r.examples.length + 1 else r.examples.length := by
  unfold Reservoir.add
  split
  · simp
  · simp only []
    split <;> simp

/-- The occupancy after a sequence of insertions: it grows by one per example up
to the capacity and stays there; the seen-count grows by one per example. -/
theorem Reservoir.addAll_spec (capacity : Nat) :
    ∀ (inputs : List (PositionColourExample × Nat)) (r : Reservoir),
      r.examples.length ≤ capacity →
      (Reservoir.addAll capacity r inputs).examples.length
        = min capacity (r.examples.length + inputs.length) ∧
      (Reservoir.addAll capacity r inputs).seen = r.seen + inputs.length := by
  intro inputs
  induction inputs with
  | nil =>
    intro r hr
    constructor
    · simp only [Reservoir.addAll, List.length_nil, Nat.add_zero]
      omega
    · simp [Reservoir.addAll]
  | cons x xs ih =>
    intro r hr
    obtain ⟨ex, draw⟩ := x
    have hlen := Reservoir.add_length capacity r ex draw
    have hseen := Reservoir.add_seen capacity r ex draw
    have hle : (Reservoir.add capacity r ex draw).examples.length ≤ capacity := by
      rw [hlen]; split <;> omega
    obtain ⟨h1, h2⟩ := ih (Reservoir.add capacity r ex draw) hle
    simp only [Reservoir.addAll, List.length_cons]
    rw [h1, h2, hlen, hseen]
    constructor
    · split <;> omega
    · omega

/-- C19: for a capacity `C` (in particular `C > 0`) and `N > C` examples inserted
into the empty reservoir of one leaf, whatever the random numbers drawn, the
reservoir ends with exactly `C` examples and a seen-count of `N`, and after every
number of insertions its occupancy is at most `C`. -/
theorem reservoir_capacity_bound (capacity : Nat)
    (inputs : List (PositionColourExample × Nat)) (hN : capacity < inputs.length) :
    (Reservoir.addAll capacity ⟨[], 0⟩ inputs).examples.length = capacity ∧
      (Reservoir.addAll capacity ⟨[], 0⟩ inputs).seen = inputs.length ∧
      ∀ k, (Reservoir.addAll capacity ⟨[], 0⟩ (inputs.take k)).examples.length ≤ capacity := by
  obtain ⟨h1, h2⟩ := Reservoir.addAll_spec capacity inputs ⟨[], 0⟩ (Nat.zero_le _)
  refine ⟨?_, ?_, ?_⟩
  · rw [h1]; simp only [List.length_nil]; omega
  · rw [h2]; simp
  · intro k
    rw [(Reservoir.addAll_spec capacity (inputs.take k) ⟨[], 0⟩ (Nat.zero_le _)).1]
    exact Nat.min_le_left _ _

/-- Witness of C19: capacity 2, three examples. -/
theorem reservoir_capacity_bound_witness :
    (Reservoir.addAll 2 ⟨[], 0⟩
        [(⟨[0, 0, 0], [1, 1, 1]⟩, 0), (⟨[1, 0, 0], [2, 2, 2]⟩, 5),
          (⟨[2, 0, 0], [3, 3, 3]⟩, 4)]).examples.length = 2 ∧
      (Reservoir.addAll 2 ⟨[], 0⟩
        [(⟨[0, 0, 0], [1, 1, 1]⟩, 0), (⟨[1, 0, 0], [2, 2, 2]⟩, 5),
          (⟨[2, 0, 0], [3, 3, 3]⟩, 4)]).seen
        = [((⟨[0, 0, 0], [1, 1, 1]⟩ : PositionColourExample), 0),
            (⟨[1, 0, 0], [2, 2, 2]⟩, 5), (⟨[2, 0, 0], [3, 3, 3]⟩, 4)].length ∧
      ∀ k, (Reservoir.addAll 2 ⟨[], 0⟩
        ([((⟨[0, 0, 0], [1, 1, 1]⟩ : PositionColourExample), 0),
            (⟨[1, 0, 0], [2, 2, 2]⟩, 5), (⟨[2, 0, 0], [3, 3, 3]⟩, 4)].take k)).examples.length
        ≤ 2 :=
  reservoir_capacity_bound 2
    [(⟨[0, 0, 0], [1, 1, 1]⟩, 0), (⟨[1, 0, 0], [2, 2, 2]⟩, 5), (⟨[2, 0, 0], [3, 3, 3]⟩, 4)]
    (by decide)

/-! ## Claims on the modes kept and on the colour bytes -/

theorem mapOption_map_eq {α β γ : Type} (f : α → Option β) (g : β → γ) (h : α → γ)
    (hfg : ∀ a b, f a = some b → g b = h a) :
    ∀ (l : List α) (r : List β), mapOption f l = some r → r.map g = l.map h := by
  intro l
  induction l with
  | nil =>
    intro r hr
    simp only [mapOption, Option.some.injEq] at hr
    subst hr
    rfl
  | cons x xs ih =>
    intro r hr
    unfold mapOption at hr
    cases hfx : f x with
    | none => simp [hfx] at hr
    | some y =>
      cases hrest : mapOption f xs with
      | none => simp [hfx, hrest] at hr
      | some ys =>
        simp only [hfx, hrest, Option.some.injEq] at hr
        subst hr
        simp only [List.map_cons, hfg x y hfx, ih ys hrest]

/-- The conversion of one well-formed payload with more than `MAX_MODES` modes: the
modes split into the `MAX_MODES` kept, which are converted in order, and the
discarded ones, none of which has more points than a kept one. -/
theorem convertPrediction_kept (K : Consts) (p : PredictionGaussianMean)
    (hwf : p.wellFormed = true) (hn : K.MAX_MODES < p._modes.length) :
    ∃ pred kept discarded, convertPrediction K p = some pred ∧
      (kept ++ discarded).Perm p._modes ∧ kept.length = K.MAX_MODES ∧
      pred.nbModes = K.MAX_MODES ∧
      mapOption (convertMode K) kept = some pred.modes ∧
      (∀ k ∈ kept, ∀ d ∈ discarded, nbPointsOf d ≤ nbPointsOf k) ∧
      pred.modes.map GPUForestMode.nbInliers = kept.map nbPointsOf := by
  have hwf' := hwf
  unfold PredictionGaussianMean.wellFormed at hwf'
  rw [List.all_eq_true] at hwf'
  have hnil : ¬ (2 ≤ p._modes.length ∧ [] ∈ p._modes) := by
    rintro ⟨-, h⟩
    have := hwf' [] h
    simp [modeHasChannels] at this
  have hall : ∀ mode ∈ (sortModes p._modes).take K.MAX_MODES,
      (convertMode K mode).isSome = true := by
    intro mode hmode
    have h1 : mode ∈ sortModes p._modes := List.mem_of_mem_take hmode
    have h2 : mode ∈ p._modes := (List.perm_insertionSort _ _).mem_iff.mp h1
    obtain ⟨m, hm, -⟩ := convertMode_of_channels K mode (hwf' mode h2)
    simp [hm]
  obtain ⟨modes, hmodes, hlen, -⟩ := mapOption_isSome (convertMode K) _ hall
  have hsortlen : (sortModes p._modes).length = p._modes.length := by
    unfold sortModes
    exact List.length_insertionSort _ _
  have hpw := sortModes_pairwise p._modes
  rw [← List.take_append_drop K.MAX_MODES (sortModes p._modes), List.pairwise_append] at hpw
  refine ⟨⟨modes, modes.length⟩, (sortModes p._modes).take K.MAX_MODES,
    (sortModes p._modes).drop K.MAX_MODES, ?_, ?_, ?_, ?_, hmodes, ?_, ?_⟩
  · unfold convertPrediction
    simp only [hnil, if_false, hmodes]
  · rw [List.take_append_drop]
    exact List.perm_insertionSort _ _
  · rw [List.length_take, hsortlen]
    omega
  · show modes.length = _
    rw [hlen, List.length_take, hsortlen]
    omega
  · intro k hk d hd
    exact hpw.2.2 k hk d hd
  · exact mapOption_map_eq (convertMode K) GPUForestMode.nbInliers nbPointsOf
      (fun a b hab => convertMode_nbInliers K a b hab) _ modes hmodes

/-- C21: for well-formed leaf payloads, the prediction `convert_predictions` writes
for a payload with more than `MAX_MODES` trained modes has `MAX_MODES` modes: the
trained modes split into `MAX_MODES` kept ones, which are the modes converted, in
order, and the discarded ones, and every discarded mode has a point count
`[0]._nbPoints` at most that of every kept mode; the `nbInliers` of each mode
written is the point count of the kept mode it was copied from. -/
theorem convert_predictions_keeps_largest (K : Consts)
    (leafPredictions : List PredictionGaussianMean)
    (hwf : ∀ p ∈ leafPredictions, p.wellFormed = true) :
    ∃ predictions, convert_predictions K leafPredictions = some predictions ∧
      ∀ (i : Nat) (p : PredictionGaussianMean) (pred : GPUForestPrediction),
        leafPredictions[i]? = some p → predictions[i]? = some pred →
        K.MAX_MODES < p._modes.length →
        ∃ kept discarded, (kept ++ discarded).Perm p._modes ∧
          kept.length = K.MAX_MODES ∧ pred.nbModes = K.MAX_MODES ∧
          mapOption (convertMode K) kept = some pred.modes ∧
          (∀ k ∈ kept, ∀ d ∈ discarded, nbPointsOf d ≤ nbPointsOf k) ∧
          pred.modes.map GPUForestMode.nbInliers = kept.map nbPointsOf := by
  have hall : ∀ p ∈ leafPredictions, (convertPrediction K p).isSome = true := by
    intro p hp
    obtain ⟨pred, hpred, -⟩ := convertPrediction_of_wellFormed K p (hwf p hp)
    simp [hpred]
  obtain ⟨predictions, hpreds, -, hget⟩ := mapOption_isSome (convertPrediction K) _ hall
  refine ⟨predictions, hpreds, ?_⟩
  intro i p pred hi hpi hn
  obtain ⟨pred', kept, discarded, hpred', h1, h2, h3, h4, h5, h6⟩ :=
    convertPrediction_kept K p (hwf p (List.getElem?_mem hi)) hn
  have : pred = pred' := by
    have := hget i p hi
    rw [hpi, hpred'] at this
    exact Option.some.inj this
  subst this
  exact ⟨kept, discarded, h1, h2, h3, h4, h5, h6⟩

/-- Witness of C21: the payloads of the example ensemble, with room for one mode
per leaf (the first payload has two modes, with 5 and 7 points). -/
theorem convert_predictions_keeps_largest_witness :
    ∃ predictions,
      convert_predictions oneModeConsts (exampleEnsemble.trees.map Learner.payloads).flatten
        = some predictions ∧
      ∀ (i : Nat) (p : PredictionGaussianMean) (pred : GPUForestPrediction),
        (exampleEnsemble.trees.map Learner.payloads).flatten[i]? = some p →
        predictions[i]? = some pred →
        oneModeConsts.MAX_MODES < p._modes.length →
        ∃ kept discarded, (kept ++ discarded).Perm p._modes ∧
          kept.length = oneModeConsts.MAX_MODES ∧ pred.nbModes = oneModeConsts.MAX_MODES ∧
          mapOption (convertMode oneModeConsts) kept = some pred.modes ∧
          (∀ k ∈ kept, ∀ d ∈ discarded, nbPointsOf d ≤ nbPointsOf k) ∧
          pred.modes.map GPUForestMode.nbInliers = kept.map nbPointsOf :=
  convert_predictions_keeps_largest oneModeConsts
    (exampleEnsemble.trees.map Learner.payloads).flatten (by decide)

/-- The conversion to a byte of a value in `[0, 256)` is its floor. -/
theorem floatToUInt8_floor (x : ℚ) (h0 : 0 ≤ x) (h1 : x < 256) :
    ((floatToUInt8 x : Nat) : Int) = ⌊x⌋ ∧ ((floatToUInt8 x : Nat) : ℚ) ≤ x ∧
      x < ((floatToUInt8 x : Nat) : ℚ) + 1 := by
  have hnum : 0 ≤ x.num := Rat.num_nonneg.mpr h0
  have hfl : floatToInt x = ⌊x⌋ := by
    unfold floatToInt
    rw [Rat.floor_def, Int.tdiv_eq_ediv hnum (Int.ofNat_nonneg _)]
  have hf0 : 0 ≤ ⌊x⌋ := Int.floor_nonneg.mpr h0
  have hf1 : ⌊x⌋ < 256 := by
    rw [Int.floor_lt]
    exact_mod_cast h1
  have hbyte : ((floatToUInt8 x : Nat) : Int) = ⌊x⌋ := by
    unfold floatToUInt8
    rw [hfl]
    omega
  have hq : ((floatToUInt8 x : Nat) : ℚ) = ((⌊x⌋ : Int) : ℚ) := by
    rw [← hbyte]
    simp
  refine ⟨hbyte, ?_, ?_⟩
  · rw [hq]; exact Int.floor_le x
  · rw [hq]; exact Int.lt_floor_add_one x

/-- C22: for a trained mode with its channels whose three colour means lie in
`[0, 256)`, the mode is converted, and each colour byte written is the floor of
the corresponding mean: the byte `c` satisfies `c <= mean < c + 1`. -/
theorem convertMode_colour (K : Consts) (mode : List PredictedGaussianMean)
    (g1 : PredictedGaussianMean) (c0 c1 c2 : ℚ) (hch : modeHasChannels mode = true)
    (h1 : mode[1]? = some g1) (hc0 : g1._mean[0]? = some c0) (hc1 : g1._mean[1]? = some c1)
    (hc2 : g1._mean[2]? = some c2)
    (hr0 : 0 ≤ c0 ∧ c0 < 256) (hr1 : 0 ≤ c1 ∧ c1 < 256) (hr2 : 0 ≤ c2 ∧ c2 < 256) :
    ∃ (m : GPUForestMode) (b0 b1 b2 : Nat), convertMode K mode = some m ∧
      m.colour = [b0, b1, b2] ∧
      (b0 : Int) = ⌊c0⌋ ∧ (b1 : Int) = ⌊c1⌋ ∧ (b2 : Int) = ⌊c2⌋ ∧
      (b0 : ℚ) ≤ c0 ∧ c0 < (b0 : ℚ) + 1 ∧ (b1 : ℚ) ≤ c1 ∧ c1 < (b1 : ℚ) + 1 ∧
      (b2 : ℚ) ≤ c2 ∧ c2 < (b2 : ℚ) + 1 := by
  obtain ⟨e0, d0, f0⟩ := floatToUInt8_floor c0 hr0.1 hr0.2
  obtain ⟨e1, d1, f1⟩ := floatToUInt8_floor c1 hr1.1 hr1.2
  obtain ⟨e2, d2, f2⟩ := floatToUInt8_floor c2 hr2.1 hr2.2
  have hconv : ∃ m, convertMode K mode = some m ∧
      m.colour = [floatToUInt8 c0, floatToUInt8 c1, floatToUInt8 c2] := by
    unfold modeHasChannels at hch
    unfold convertMode
    cases h0 : mode[0]? with
    | none => simp [h0] at hch
    | some g0 =>
      simp only [h0, h1, decide_eq_true_eq] at hch
      obtain ⟨hm, hc, -⟩ := hch
      simp only [h1, hm, hc, and_self, if_true, hc0, hc1, hc2]
      exact ⟨_, rfl, rfl⟩
  obtain ⟨m, hm, hcol⟩ := hconv
  exact ⟨m, _, _, _, hm, hcol, e0, e1, e2, d0, f0, d1, f1, d2, f2⟩

/-- Witness of C22: colour means 21/2, 20 and 2559/10. -/
theorem convertMode_colour_witness :
    ∃ (m : GPUForestMode) (b0 b1 b2 : Nat), convertMode exampleConsts exampleMode = some m ∧
      m.colour = [b0, b1, b2] ∧
      (b0 : Int) = ⌊mkRat 21 2⌋ ∧ (b1 : Int) = ⌊(20 : ℚ)⌋ ∧ (b2 : Int) = ⌊mkRat 2559 10⌋ ∧
      (b0 : ℚ) ≤ mkRat 21 2 ∧ mkRat 21 2 < (b0 : ℚ) + 1 ∧
      (b1 : ℚ) ≤ 20 ∧ (20 : ℚ) < (b1 : ℚ) + 1 ∧
      (b2 : ℚ) ≤ mkRat 2559 10 ∧ mkRat 2559 10 < (b2 : ℚ) + 1 :=
  convertMode_colour exampleConsts exampleMode
    ⟨5, [mkRat 21 2, 20, mkRat 2559 10], [1, 0, 0, 0, 1, 0, 0, 0, 1], 1⟩
    (mkRat 21 2) 20 (mkRat 2559 10) (by decide) rfl rfl rfl rfl
    ⟨by decide, by decide⟩ ⟨by decide, by decide⟩ ⟨by decide, by decide⟩

/-! ## Claims on the slots written by `convert_node` -/

/-- Forgetting the list of written slots gives `convert_node`. -/
theorem convert_node_traced_erase (tree : Learner) (t T : Nat) :
    ∀ (fuel i out ff : Nat) (gpu : List GPUForestNode) (lp : List PredictionGaussianMean)
      (w : List Nat),
      (convert_node_traced fuel tree i t T out ff gpu lp w).map
          (fun r => (r.1, r.2.1, r.2.2.1))
        = convert_node fuel tree i t T out ff gpu lp := by
  intro fuel
  induction fuel with
  | zero => intro i out ff gpu lp w; rfl
  | succ fuel ih =>
    intro i out ff gpu lp w
    unfold convert_node_traced convert_node
    cases hnode : tree.nodes[i]? with
    | none => rfl
    | some node =>
      simp only []
      by_cases hidx : out * T + t < gpu.length
      · simp only [hidx, if_true]
        cases node with
        | leaf prediction => rfl
        | inner li ri params =>
          simp only []
          cases hp1 : params[1]? with
          | none => rfl
          | some p1 =>
            cases hp2 : params[2]? with
            | none => rfl
            | some p2 =>
              simp only []
              have hl := ih li ff (ff + 2)
                (gpu.set (out * T + t) ⟨ff, -1, floatToInt p1, p2⟩) lp (w ++ [out])
              cases hL : convert_node_traced fuel tree li t T ff (ff + 2)
                  (gpu.set (out * T + t) ⟨ff, -1, floatToInt p1, p2⟩) lp (w ++ [out]) with
              | none =>
                rw [hL] at hl
                simp only [Option.map_none'] at hl
                simp only [← hl]
                rfl
              | some r =>
                obtain ⟨ff1, g1, lp1, w1⟩ := r
                rw [hL] at hl
                simp only [Option.map_some'] at hl
                simp only [← hl]
                exact ih ri (ff + 1) ff1 g1 lp1 w1
      · simp only [hidx, if_false]
        rfl

/-- One call of `convert_node` on a subtree that `toTree` can read writes the slots
`BTree.slots`, in that order. -/
theorem convert_node_traced_slots (tree : Learner) (t T H : Nat) (ht : t < T) :
    ∀ (fuel i out ff : Nat) (gpu : List GPUForestNode) (lp : List PredictionGaussianMean)
      (w : List Nat) (bt : BTree PredictionGaussianMean),
      tree.toTree fuel i = some bt → gpu.length = H * T → out < ff → ff + bt.nbDesc ≤ H →
      ∃ gpu', convert_node_traced fuel tree i t T out ff gpu lp w
          = some (ff + bt.nbDesc, gpu', lp ++ bt.labels, w ++ bt.slots out ff) ∧
        gpu'.length = gpu.length := by
  intro fuel
  induction fuel with
  | zero => intro i out ff gpu lp w bt h; simp [Learner.toTree] at h
  | succ fuel ih =>
    intro i out ff gpu lp w bt h hlen hout hH
    have hidx : out * T + t < gpu.length := by
      rw [hlen]; exact slot_index_lt ht (by omega)
    unfold Learner.toTree at h
    unfold convert_node_traced
    cases hnode : tree.nodes[i]? with
    | none => simp [hnode] at h
    | some node =>
      cases node with
      | leaf prediction =>
        simp only [hnode, Option.some.injEq] at h
        subst h
        simp only [hidx, if_true, BTree.nbDesc, BTree.labels, BTree.slots, Nat.add_zero]
        exact ⟨_, rfl, by simp⟩
      | inner li ri params =>
        simp only [hnode] at h
        cases hp1 : params[1]? with
        | none => simp [hp1] at h
        | some p1 =>
          cases hp2 : params[2]? with
          | none => simp [hp1, hp2] at h
          | some p2 =>
            cases hl : tree.toTree fuel li with
            | none => simp [hp1, hp2, hl] at h
            | some bl =>
              cases hr : tree.toTree fuel ri with
              | none => simp [hp1, hp2, hl, hr] at h
              | some br =>
                simp only [hp1, hp2, hl, hr, Option.some.injEq] at h
                subst h
                simp only [BTree.nbDesc] at hH ⊢
                simp only [hidx, if_true, hp1, hp2]
                obtain ⟨g2, hc2, hlen2⟩ :=
                  ih li ff (ff + 2) (gpu.set (out * T + t) ⟨ff, -1, floatToInt p1, p2⟩) lp
                    (w ++ [out]) bl hl (by simp [hlen]) (by omega) (by omega)
                obtain ⟨g3, hc3, hlen3⟩ :=
                  ih ri (ff + 1) (ff + 2 + bl.nbDesc) g2 (lp ++ bl.labels)
                    (w ++ [out] ++ bl.slots ff (ff + 2)) br hr
                    (by rw [hlen2]; simp [hlen]) (by omega) (by omega)
                simp only [hc2]
                refine ⟨g3, ?_, ?_⟩
                · rw [hc3]
                  simp only [BTree.labels, BTree.slots, List.append_assoc, List.singleton_append,
                    List.cons_append]
                  congr 2
                  omega
                · rw [hlen3, hlen2]; simp

/-- The slots of a subtree are its root slot and the block of slots of its
descendants, each once. -/
theorem BTree.slots_perm {α : Type} (bt : BTree α) :
    ∀ (out ff : Nat), (bt.slots out ff).Perm (out :: List.range' ff bt.nbDesc) := by
  induction bt with
  | leaf a => intro out ff; simp [BTree.slots, BTree.nbDesc]
  | inner f th l r ihl ihr =>
    intro out ff
    simp only [BTree.slots, BTree.nbDesc]
    refine List.Perm.cons out ?_
    have hsplit : List.range' ff (2 + l.nbDesc + r.nbDesc)
        = ff :: (ff + 1) :: (List.range' (ff + 2) l.nbDesc
          ++ List.range' (ff + 2 + l.nbDesc) r.nbDesc) := by
      have e : 2 + l.nbDesc + r.nbDesc = (l.nbDesc + r.nbDesc) + 1 + 1 := by omega
      rw [e, List.range'_succ, List.range'_succ, List.range'_append_1,
        Nat.add_comm r.nbDesc]
    rw [hsplit]
    have h1 := ihl ff (ff + 2)
    have h2 := ihr (ff + 1) (ff + 2 + l.nbDesc)
    refine (List.Perm.append h1 h2).trans ?_
    simp only [List.cons_append]
    exact List.Perm.cons ff List.perm_middle

/-- C24: for a trained tree whose nodes form a binary tree with `n` nodes, a column
`t < T` and a node array of `H >= n` rows, the call
`convert_node(tree, 0, t, T, 0, 1, nodes)` returns `n`; the slots it writes, one
per node of the tree, are pairwise distinct and are exactly `0, ..., n - 1`; every
write is inside the node array. -/
theorem convert_node_slots (tree : Learner) (bt : BTree PredictionGaussianMean)
    (t T H : Nat) (gpu : List GPUForestNode) (lp : List PredictionGaussianMean)
    (hbt : tree.toTree tree.nodes.length 0 = some bt) (ht : t < T)
    (hlen : gpu.length = H * T) (hH : bt.nbNodes ≤ H) :
    ∃ gpu' lp' written,
      convert_node_traced tree.nodes.length tree 0 t T 0 1 gpu lp []
        = some (bt.nbNodes, gpu', lp', written) ∧
      convert_node tree.nodes.length tree 0 t T 0 1 gpu lp = some (bt.nbNodes, gpu', lp') ∧
      written.length = bt.nbNodes ∧ written.Nodup ∧ written.Perm (List.range bt.nbNodes) ∧
      (∀ s, s ∈ written ↔ s < bt.nbNodes) ∧
      ∀ s ∈ written, s < H ∧ s * T + t < gpu.length := by
  have hsz := bt.nbNodes_eq
  obtain ⟨g, hc, -⟩ :=
    convert_node_traced_slots tree t T H ht tree.nodes.length 0 0 1 gpu lp [] bt hbt hlen
      (by omega) (by omega)
  have hperm : (bt.slots 0 1).Perm (List.range bt.nbNodes) := by
    refine (bt.slots_perm 0 1).trans ?_
    rw [List.range_eq_range', hsz, List.range'_succ]
  have hmem : ∀ s, s ∈ bt.slots 0 1 ↔ s < bt.nbNodes := by
    intro s
    rw [hperm.mem_iff, List.mem_range]
  have hret : 1 + bt.nbDesc = bt.nbNodes := by omega
  rw [hret, List.nil_append] at hc
  refine ⟨g, lp ++ bt.labels, bt.slots 0 1, hc, ?_, ?_, ?_, hperm, hmem, ?_⟩
  · have := convert_node_traced_erase tree t T tree.nodes.length 0 0 1 gpu lp []
    rw [hc] at this
    simpa using this.symm
  · rw [hperm.length_eq, List.length_range]
  · exact hperm.nodup_iff.mpr (List.nodup_range _)
  · intro s hs
    have hlt : s < H := by
      have := (hmem s).mp hs
      omega
    exact ⟨hlt, by rw [hlen]; exact slot_index_lt ht hlt⟩

/-- Witness of C24: the split with two leaves, converted into column 1 of a node
array of two columns and three rows. -/
theorem convert_node_slots_witness :
    ∃ gpu' lp' written,
      convert_node_traced 3
          ⟨[Node.inner 1 2 [0, 0, mkRat 1 2], Node.leaf none, Node.leaf none], 3, 2⟩
          0 1 2 0 1 (List.replicate 6 GPUForestNode.zero) [] []
        = some ((BTree.inner 0 (mkRat 1 2) (BTree.leaf (leafPayload none))
            (BTree.leaf (leafPayload none))).nbNodes, gpu', lp', written) ∧
      convert_node 3
          ⟨[Node.inner 1 2 [0, 0, mkRat 1 2], Node.leaf none, Node.leaf none], 3, 2⟩
          0 1 2 0 1 (List.replicate 6 GPUForestNode.zero) []
        = some ((BTree.inner 0 (mkRat 1 2) (BTree.leaf (leafPayload none))
            (BTree.leaf (leafPayload none))).nbNodes, gpu', lp') ∧
      written.length = (BTree.inner 0 (mkRat 1 2) (BTree.leaf (leafPayload none))
            (BTree.leaf (leafPayload none))).nbNodes ∧
      written.Nodup ∧
      written.Perm (List.range (BTree.inner 0 (mkRat 1 2) (BTree.leaf (leafPayload none))
            (BTree.leaf (leafPayload none))).nbNodes) ∧
      (∀ s, s ∈ written ↔ s < (BTree.inner 0 (mkRat 1 2) (BTree.leaf (leafPayload none))
            (BTree.leaf (leafPayload none))).nbNodes) ∧
      ∀ s ∈ written, s < 3 ∧ s * 2 + 1 < (List.replicate 6 GPUForestNode.zero).length :=
  convert_node_slots
    ⟨[Node.inner 1 2 [0, 0, mkRat 1 2], Node.leaf none, Node.leaf none], 3, 2⟩
    (BTree.inner 0 (mkRat 1 2) (BTree.leaf (leafPayload none)) (BTree.leaf (leafPayload none)))
    1 2 3 (List.replicate 6 GPUForestNode.zero) [] (by decide) (by decide) (by decide)
    (by decide)

/-! ## Claims on the invariant of the scheduler -/

theorem convertTrees_scheduler_fields (nTrees : Nat) :
    ∀ (trees : List Learner) (treeIdx : Nat) (data data' : List GPUForestNode)
      (self self' : GPUForest),
      convertTrees nTrees trees treeIdx data self = some (data', self') →
      self'.m_maxReservoirsToUpdate = self.m_maxReservoirsToUpdate ∧
        self'.m_reservoirUpdateStartIdx = self.m_reservoirUpdateStartIdx := by
  intro trees
  induction trees with
  | nil =>
    intro treeIdx data data' self self' h
    simp only [convertTrees, Option.some.injEq, Prod.mk.injEq] at h
    rw [← h.2]
    exact ⟨rfl, rfl⟩
  | cons tree rest ih =>
    intro treeIdx data data' self self' h
    unfold convertTrees at h
    simp only [] at h
    split at h
    · simp at h
    · have := ih _ _ _ _ _ h
      exact this

/-- A construction that returns leaves a schedulable state with the window of 1000
leaves and the cursor at 0. -/
theorem build_schedulable (K : Consts) (e : EnsembleLearner) (f : GPUForest)
    (h : GPUForest.build K e = Outcome.ok f) :
    ∃ L, f.Schedulable L 1000 ∧ f.m_reservoirUpdateStartIdx = 0 := by
  unfold GPUForest.build at h
  simp only [] at h
  split at h
  · simp at h
  · split at h
    · simp at h
    · rename_i data self' hconv
      split at h
      · simp at h
      · rename_i preds hpreds
        simp only [Outcome.ok.injEq] at h
        subst h
        obtain ⟨hM, hc⟩ := convertTrees_scheduler_fields _ _ _ _ _ _ _ hconv
        refine ⟨preds.length, ⟨⟨_, rfl⟩, ⟨_, rfl, rfl⟩, ⟨_, rfl⟩, ?_⟩, ?_⟩
        · show self'.m_maxReservoirsToUpdate = 1000
          rw [hM]; rfl
        · show self'.m_reservoirUpdateStartIdx = 0
          rw [hc]; rfl

/-- A load that returns leaves a schedulable state with the window size it had and
the cursor at 0. -/
theorem load_schedulable (K : Consts) (file : Option (List Token)) (self f : GPUForest)
    (h : GPUForest.load_structure_from_file K file self = Outcome.ok f) :
    ∃ L, f.Schedulable L self.m_maxReservoirsToUpdate ∧ f.m_reservoirUpdateStartIdx = 0 := by
  obtain ⟨rest, data, tot, -, -, -, himg, -, -, hp, hr, hc, hM, -⟩ := load_ok_inv K file self f h
  exact ⟨_, ⟨⟨_, himg⟩, ⟨_, hp, rfl⟩, ⟨_, hr⟩, hM⟩, hc⟩

/-- Each of the three calls keeps the invariant of the scheduler. -/
theorem call_cursorOk {Features Predictions : Type} (kernels : Kernels Features)
    (get_predictions : List GPUForestPrediction → List (List Int) → Predictions)
    (L : Nat) (M : Int) (hM : 0 < M) (hM' : M < 2147483648) (hL : (L : Int) < 2147483648)
    (c : SchedulerCall Features) (self : GPUForest) (h : self.CursorOk L M) :
    ∃ self', self.call kernels get_predictions c = Outcome.ok self' ∧ self'.CursorOk L M := by
  obtain ⟨hs, ⟨j, hj⟩, hc0, hcL⟩ := h
  cases c with
  | add_features_to_forest features =>
    obtain ⟨s1, hcall, hs1, hcur, -⟩ :=
      add_features_step kernels features self L M hs hM hM' hc0 hcL hL
    refine ⟨s1, hcall, hs1, ?_, ?_, ?_⟩
    · by_cases hlt : self.m_reservoirUpdateStartIdx + M < (L : Int)
      · rw [if_pos hlt] at hcur
        refine ⟨j + 1, ?_⟩
        rw [hcur, hj]
        push_cast
        ring
      · rw [if_neg hlt] at hcur
        exact ⟨0, by rw [hcur]; simp⟩
    · rw [hcur]; split <;> omega
    · rw [hcur]; split <;> omega
  | evaluate_forest features =>
    obtain ⟨⟨image, hi⟩, ⟨predictions, hp, hlen⟩, ⟨reservoirs, hr⟩, hMeq⟩ := hs
    have hcall : self.evaluate_forest kernels get_predictions features = Outcome.ok
        ({ self with m_leafImage := kernels.find_leaves image features },
          get_predictions predictions (kernels.find_leaves image features)) := by
      unfold GPUForest.evaluate_forest
      simp only [hi, hp]
    refine ⟨{ self with m_leafImage := kernels.find_leaves image features }, ?_, ?_⟩
    · simp only [GPUForest.call, hcall]
    · exact ⟨⟨⟨image, hi⟩, ⟨predictions, hp, hlen⟩, ⟨reservoirs, hr⟩, hMeq⟩, ⟨j, hj⟩, hc0, hcL⟩
  | reset_predictions =>
    obtain ⟨⟨image, hi⟩, ⟨predictions, hp, hlen⟩, ⟨reservoirs, hr⟩, hMeq⟩ := hs
    have hcall : self.reset_predictions = Outcome.ok
        { self with
          m_predictionsBlock := some (predictions.map (fun _ => GPUForestPrediction.zero))
          m_leafReservoirs := some reservoirs.clear } := by
      unfold GPUForest.reset_predictions
      simp only [hp, hr]
    refine ⟨_, hcall, ⟨⟨image, hi⟩, ⟨_, rfl, by simp [hlen]⟩, ⟨_, rfl⟩, hMeq⟩, ⟨j, hj⟩, hc0, hcL⟩

theorem calls_cursorOk {Features Predictions : Type} (kernels : Kernels Features)
    (get_predictions : List GPUForestPrediction → List (List Int) → Predictions)
    (L : Nat) (M : Int) (hM : 0 < M) (hM' : M < 2147483648) (hL : (L : Int) < 2147483648) :
    ∀ (cs : List (SchedulerCall Features)) (self : GPUForest), self.CursorOk L M →
      ∃ self', self.calls kernels get_predictions cs = Outcome.ok self' ∧
        self'.CursorOk L M := by
  intro cs
  induction cs with
  | nil => intro self h; exact ⟨self, rfl, h⟩
  | cons c cs ih =>
    intro self h
    obtain ⟨s1, hcall, h1⟩ := call_cursorOk kernels get_predictions L M hM hM' hL c self h
    obtain ⟨s2, hcalls, h2⟩ := ih s1 h1
    exact ⟨s2, by simp only [GPUForest.calls, hcall, hcalls], h2⟩

/-- C25: from a forest the constructor has built, or one `load_structure_from_file`
has loaded, with `L > 0` leaves (`L` and the window size `M > 0` in the range of
`int`), every sequence of calls of `add_features_to_forest`, `evaluate_forest` and
`reset_predictions` returns, and in the state it reaches the cursor `c` is a
multiple of `M` with `0 <= c < L`; the window the next `add_features_to_forest`
passes to `find_modes` has a count of at least 1 and lies inside `[0, L)`. -/
theorem scheduler_invariant {Features Predictions : Type} (kernels : Kernels Features)
    (get_predictions : List GPUForestPrediction → List (List Int) → Predictions)
    (s0 : GPUForest) (predictions : List GPUForestPrediction)
    (hfresh : (∃ K e, GPUForest.build K e = Outcome.ok s0) ∨
      (∃ K file self, GPUForest.load_structure_from_file K file self = Outcome.ok s0))
    (hp : s0.m_predictionsBlock = some predictions) (hL0 : 0 < predictions.length)
    (hL : (predictions.length : Int) < 2147483648)
    (hM : 0 < s0.m_maxReservoirsToUpdate) (hM' : s0.m_maxReservoirsToUpdate < 2147483648)
    (cs : List (SchedulerCall Features)) :
    ∃ s, s0.calls kernels get_predictions cs = Outcome.ok s ∧
      s.m_maxReservoirsToUpdate = s0.m_maxReservoirsToUpdate ∧
      (∃ p, s.m_predictionsBlock = some p ∧ p.length = predictions.length) ∧
      (∃ j : Nat, s.m_reservoirUpdateStartIdx = (j : Int) * s.m_maxReservoirsToUpdate) ∧
      0 ≤ s.m_reservoirUpdateStartIdx ∧
      s.m_reservoirUpdateStartIdx < (predictions.length : Int) ∧
      1 ≤ updateCount s.m_maxReservoirsToUpdate s.m_reservoirUpdateStartIdx
        predictions.length ∧
      s.m_reservoirUpdateStartIdx
        + updateCount s.m_maxReservoirsToUpdate s.m_reservoirUpdateStartIdx predictions.length
        ≤ (predictions.length : Int) := by
  have h0 : ∃ L, s0.Schedulable L s0.m_maxReservoirsToUpdate ∧
      s0.m_reservoirUpdateStartIdx = 0 := by
    rcases hfresh with ⟨K, e, hb⟩ | ⟨K, file, self, hl⟩
    · obtain ⟨L, hs, hc⟩ := build_schedulable K e s0 hb
      have hMeq : s0.m_maxReservoirsToUpdate = 1000 := hs.2.2.2
      exact ⟨L, by rw [hMeq]; exact hs, hc⟩
    · obtain ⟨L, hs, hc⟩ := load_schedulable K file self s0 hl
      have hMeq : s0.m_maxReservoirsToUpdate = self.m_maxReservoirsToUpdate := hs.2.2.2
      exact ⟨L, by rw [hMeq]; exact hs, hc⟩
  obtain ⟨L, hs, hc⟩ := h0
  have hLeq : L = predictions.length := by
    obtain ⟨-, ⟨p, hp', hlen⟩, -, -⟩ := hs
    rw [hp] at hp'
    cases hp'
    exact hlen.symm
  subst hLeq
  have hinv : s0.CursorOk predictions.length s0.m_maxReservoirsToUpdate :=
    ⟨hs, ⟨0, by rw [hc]; simp⟩, by omega, by omega⟩
  obtain ⟨s, hcalls, ⟨hs', hj, hc0, hcL⟩⟩ :=
    calls_cursorOk kernels get_predictions predictions.length s0.m_maxReservoirsToUpdate
      hM hM' hL cs s0 hinv
  have hMs : s.m_maxReservoirsToUpdate = s0.m_maxReservoirsToUpdate := hs'.2.2.2
  have hcount := updateCount_eq s0.m_maxReservoirsToUpdate s.m_reservoirUpdateStartIdx
    predictions.length hc0 hcL hL
  refine ⟨s, hcalls, hMs, hs'.2.1, ?_, hc0, hcL, ?_, ?_⟩
  · rw [hMs]; exact hj
  · rw [hMs, hcount]; omega
  · rw [hMs, hcount]; omega

/-- Witness of C25: the forest built from the example ensemble, then an update, a
reset, an evaluation and an update. -/
theorem scheduler_invariant_witness :
    ∃ s, exampleForest.calls exampleKernels (fun p (_ : List (List Int)) => p)
        [SchedulerCall.add_features_to_forest (), SchedulerCall.reset_predictions,
          SchedulerCall.evaluate_forest (), SchedulerCall.add_features_to_forest ()]
        = Outcome.ok s ∧
      s.m_maxReservoirsToUpdate = exampleForest.m_maxReservoirsToUpdate ∧
      (∃ p, s.m_predictionsBlock = some p ∧
        p.length = [(⟨[⟨[4, 5, 6], [1, 0, 0, 0, 1, 0, 0, 0, 1], 1, [30, 40, 50], 7⟩,
             ⟨[1, 2, 3], [1, 0, 0, 0, 1, 0, 0, 0, 1], 1, [10, 20, 255], 5⟩], 2⟩ :
            GPUForestPrediction), ⟨[], 0⟩, ⟨[], 0⟩].length) ∧
      (∃ j : Nat, s.m_reservoirUpdateStartIdx = (j : Int) * s.m_maxReservoirsToUpdate) ∧
      0 ≤ s.m_reservoirUpdateStartIdx ∧
      s.m_reservoirUpdateStartIdx
        < (([(⟨[⟨[4, 5, 6], [1, 0, 0, 0, 1, 0, 0, 0, 1], 1, [30, 40, 50], 7⟩,
             ⟨[1, 2, 3], [1, 0, 0, 0, 1, 0, 0, 0, 1], 1, [10, 20, 255], 5⟩], 2⟩ :
            GPUForestPrediction), ⟨[], 0⟩, ⟨[], 0⟩].length : Nat) : Int) ∧
      1 ≤ updateCount s.m_maxReservoirsToUpdate s.m_reservoirUpdateStartIdx
        [(⟨[⟨[4, 5, 6], [1, 0, 0, 0, 1, 0, 0, 0, 1], 1, [30, 40, 50], 7⟩,
             ⟨[1, 2, 3], [1, 0, 0, 0, 1, 0, 0, 0, 1], 1, [10, 20, 255], 5⟩], 2⟩ :
            GPUForestPrediction), ⟨[], 0⟩, ⟨[], 0⟩].length ∧
      s.m_reservoirUpdateStartIdx
        + updateCount s.m_maxReservoirsToUpdate s.m_reservoirUpdateStartIdx
          [(⟨[⟨[4, 5, 6], [1, 0, 0, 0, 1, 0, 0, 0, 1], 1, [30, 40, 50], 7⟩,
             ⟨[1, 2, 3], [1, 0, 0, 0, 1, 0, 0, 0, 1], 1, [10, 20, 255], 5⟩], 2⟩ :
            GPUForestPrediction), ⟨[], 0⟩, ⟨[], 0⟩].length
        ≤ (([(⟨[⟨[4, 5, 6], [1, 0, 0, 0, 1, 0, 0, 0, 1], 1, [30, 40, 50], 7⟩,
             ⟨[1, 2, 3], [1, 0, 0, 0, 1, 0, 0, 0, 1], 1, [10, 20, 255], 5⟩], 2⟩ :
            GPUForestPrediction), ⟨[], 0⟩, ⟨[], 0⟩].length : Nat) : Int) :=
  scheduler_invariant exampleKernels (fun p (_ : List (List Int)) => p) exampleForest _
    (Or.inl ⟨exampleConsts, exampleEnsemble, by decide⟩) rfl (by decide) (by decide)
    (by decide) (by decide) _

/-! ## Claims on the feature grid -/

theorem mul_lt_of_lt_ediv (x w s : Int) (hs : 0 < s) (hx : x < w / s) : x * s < w := by
  have h1 : (x + 1) * s ≤ w / s * s := mul_le_mul_of_nonneg_right (by omega) (le_of_lt hs)
  have h2 := Int.ediv_mul_le w (ne_of_gt hs)
  have h3 : (x + 1) * s = x * s + s := by ring
  omega

/-- C27: for an input image of `width x height` pixels and a feature step
`m_featureStep > 0`, the output grid of `compute_feature` has the dimensions
`(width div m_featureStep, height div m_featureStep)`, the loops visit exactly
the output pixels of that grid, and the input pixel
`(xOut * m_featureStep, yOut * m_featureStep)` sampled for an output pixel lies
inside the input image. -/
theorem compute_feature_samples_inside (width height m_featureStep : Int) (hw : 0 ≤ width)
    (hh : 0 ≤ height) (hs : 0 < m_featureStep) :
    compute_feature_outDims width height m_featureStep
        = (width / m_featureStep, height / m_featureStep) ∧
      (∀ xOut yOut xIn yIn,
        ((xOut, yOut), (xIn, yIn)) ∈ compute_feature_samples width height m_featureStep ↔
          (0 ≤ xOut ∧ xOut < width / m_featureStep ∧ 0 ≤ yOut ∧
            yOut < height / m_featureStep ∧
            xIn = xOut * m_featureStep ∧ yIn = yOut * m_featureStep)) ∧
      (∀ xOut yOut xIn yIn,
        ((xOut, yOut), (xIn, yIn)) ∈ compute_feature_samples width height m_featureStep →
          0 ≤ xIn ∧ xIn < width ∧ 0 ≤ yIn ∧ yIn < height) := by
  have hdims : compute_feature_outDims width height m_featureStep
      = (width / m_featureStep, height / m_featureStep) := by
    unfold compute_feature_outDims
    rw [Int.tdiv_eq_ediv hw (le_of_lt hs), Int.tdiv_eq_ediv hh (le_of_lt hs)]
  have hmem : ∀ xOut yOut xIn yIn,
      ((xOut, yOut), (xIn, yIn)) ∈ compute_feature_samples width height m_featureStep ↔
        (0 ≤ xOut ∧ xOut < width / m_featureStep ∧ 0 ≤ yOut ∧
          yOut < height / m_featureStep ∧
          xIn = xOut * m_featureStep ∧ yIn = yOut * m_featureStep) := by
    intro xOut yOut xIn yIn
    unfold compute_feature_samples
    simp only [hdims, List.mem_flatten, List.mem_map, List.mem_range]
    constructor
    · rintro ⟨l, ⟨y, hy, rfl⟩, hl⟩
      simp only [List.mem_map, List.mem_range, Prod.mk.injEq] at hl
      obtain ⟨x, hx, ⟨⟨rfl, rfl⟩, rfl, rfl⟩⟩ := hl
      refine ⟨Int.ofNat_nonneg _, by omega, Int.ofNat_nonneg _, by omega, rfl, rfl⟩
    · rintro ⟨hx0, hx1, hy0, hy1, rfl, rfl⟩
      refine ⟨_, ⟨yOut.toNat, by omega, rfl⟩, ?_⟩
      simp only [List.mem_map, List.mem_range, Prod.mk.injEq]
      refine ⟨xOut.toNat, by omega, ?_⟩
      rw [Int.toNat_of_nonneg hx0, Int.toNat_of_nonneg hy0]
      exact ⟨⟨rfl, rfl⟩, rfl, rfl⟩
  refine ⟨hdims, hmem, ?_⟩
  intro xOut yOut xIn yIn h
  obtain ⟨hx0, hx1, hy0, hy1, rfl, rfl⟩ := (hmem xOut yOut xIn yIn).mp h
  exact ⟨mul_nonneg hx0 (le_of_lt hs), mul_lt_of_lt_ediv _ _ _ hs hx1,
    mul_nonneg hy0 (le_of_lt hs), mul_lt_of_lt_ediv _ _ _ hs hy1⟩

/-- Witness of C27: an image of 10 x 7 pixels and a feature step of 4. -/
theorem compute_feature_samples_inside_witness :
    compute_feature_outDims 10 7 4 = ((10 : Int) / 4, (7 : Int) / 4) ∧
      (∀ xOut yOut xIn yIn,
        ((xOut, yOut), (xIn, yIn)) ∈ compute_feature_samples 10 7 4 ↔
          (0 ≤ xOut ∧ xOut < (10 : Int) / 4 ∧ 0 ≤ yOut ∧ yOut < (7 : Int) / 4 ∧
            xIn = xOut * 4 ∧ yIn = yOut * 4)) ∧
      (∀ xOut yOut xIn yIn,
        ((xOut, yOut), (xIn, yIn)) ∈ compute_feature_samples 10 7 4 →
          0 ≤ xIn ∧ xIn < 10 ∧ 0 ≤ yIn ∧ yIn < 7) :=
  compute_feature_samples_inside 10 7 4 (by decide) (by decide) (by decide)

/-! ## Claims on the cost function of `relocopt` -/

/-- C28: when the script has run and the seven values of the output file are read,
`grove_cost_fn` returns the relocalisation loss, to which 100 is added (a float
addition) exactly when `trainingMicroseconds > 10000` or
`totalRelocalisationMicroseconds > 150000` or `updateMicroseconds > 10000`; for a
loss in `[0, n]`, where adding 100 to a float is monotone and exact on 0 and `n`,
the cost of an over-budget run is in `[100, 100 + n]` and that of an in-budget
run in `[0, n]`; when the values cannot be read the cost is the largest float. -/
theorem grove_cost_fn_cost (K : Consts) (addFloat : ℚ → ℚ → ℚ) (tokens rest : List Token)
    (relocLoss icpLoss trainingMicroseconds updateMicroseconds
      initialRelocalisationMicroseconds icpRefinementMicroseconds
      totalRelocalisationMicroseconds n : ℚ)
    (hread : readFloats K 7 tokens
      = some ([relocLoss, icpLoss, trainingMicroseconds, updateMicroseconds,
          initialRelocalisationMicroseconds, icpRefinementMicroseconds,
          totalRelocalisationMicroseconds], rest))
    (hmono : ∀ a b : ℚ, a ≤ b → addFloat a 100 ≤ addFloat b 100)
    (hzero : addFloat 0 100 = 100) (hn : addFloat n 100 = n + 100)
    (hloss : 0 ≤ relocLoss ∧ relocLoss ≤ n) :
    ((trainingMicroseconds > 10000 ∨ totalRelocalisationMicroseconds > 150000 ∨
        updateMicroseconds > 10000) →
      grove_cost_fn K addFloat 0 (some tokens) = Except.ok (addFloat relocLoss 100) ∧
        100 ≤ addFloat relocLoss 100 ∧ addFloat relocLoss 100 ≤ 100 + n) ∧
    (¬ (trainingMicroseconds > 10000 ∨ totalRelocalisationMicroseconds > 150000 ∨
        updateMicroseconds > 10000) →
      grove_cost_fn K addFloat 0 (some tokens) = Except.ok relocLoss ∧
        0 ≤ relocLoss ∧ relocLoss ≤ n) ∧
    grove_cost_fn K addFloat 0 none = Except.ok FLT_MAX ∧
    (∀ tokens', readFloats K 7 tokens' = none →
      grove_cost_fn K addFloat 0 (some tokens') = Except.ok FLT_MAX) := by
  refine ⟨?_, ?_, ?_, ?_⟩
  · intro hover
    refine ⟨?_, ?_, ?_⟩
    · unfold grove_cost_fn
      simp only [ne_eq, not_true_eq_false, if_false, hread, hover, if_true]
    · have := hmono 0 relocLoss hloss.1
      rw [hzero] at this
      exact this
    · have := hmono relocLoss n hloss.2
      rw [hn] at this
      linarith
  · intro hin
    refine ⟨?_, hloss.1, hloss.2⟩
    unfold grove_cost_fn
    simp only [ne_eq, not_true_eq_false, if_false, hread, hin]
  · unfold grove_cost_fn
    simp
  · intro tokens' hnone
    unfold grove_cost_fn
    simp only [ne_eq, not_true_eq_false, if_false, hnone]

/-- Witness of C28: a run with loss 1 out of 3 sequences whose relocalisation took
200 ms, the addition of floats being exact. -/
theorem grove_cost_fn_cost_witness :
    (((5000 : ℚ) > 10000 ∨ (200000 : ℚ) > 150000 ∨ (5000 : ℚ) > 10000) →
      grove_cost_fn exampleConsts (fun a b => a + b) 0 (some slowRunOutput)
        = Except.ok ((fun a b : ℚ => a + b) 1 100) ∧
        100 ≤ (fun a b : ℚ => a + b) 1 100 ∧ (fun a b : ℚ => a + b) 1 100 ≤ 100 + 3) ∧
    (¬ ((5000 : ℚ) > 10000 ∨ (200000 : ℚ) > 150000 ∨ (5000 : ℚ) > 10000) →
      grove_cost_fn exampleConsts (fun a b => a + b) 0 (some slowRunOutput) = Except.ok 1 ∧
        (0 : ℚ) ≤ 1 ∧ (1 : ℚ) ≤ 3) ∧
    grove_cost_fn exampleConsts (fun a b => a + b) 0 none = Except.ok FLT_MAX ∧
    (∀ tokens', readFloats exampleConsts 7 tokens' = none →
      grove_cost_fn exampleConsts (fun a b => a + b) 0 (some tokens') = Except.ok FLT_MAX) :=
  grove_cost_fn_cost exampleConsts (fun a b => a + b) slowRunOutput [] 1 2 5000 5000 1000 1000
    200000 3 rfl (fun _ _ h => add_le_add_right h 100) (by norm_num) (by norm_num)
    ⟨by norm_num, by norm_num⟩

/-! ## Claims on the bounds of the persistence loops -/

/-- The inner loop of `save_structure_to_file` reads outside the node array as soon
as one of the slots it visits lies outside. -/
theorem writeTreeNodes_none (K : Consts) (forestData : List GPUForestNode) (treeIdx : Nat) :
    ∀ (todo nodeIdx k : Nat), k < todo →
      forestData.length ≤ (nodeIdx + k) * K.GPUFOREST_NTREES + treeIdx →
      writeTreeNodes K forestData treeIdx todo nodeIdx = none := by
  intro todo
  induction todo with
  | zero => intro nodeIdx k hk; omega
  | succ todo ih =>
    intro nodeIdx k hk hlen
    unfold writeTreeNodes
    cases k with
    | zero =>
      have hnone : forestData[nodeIdx * K.GPUFOREST_NTREES + treeIdx]? = none := by
        rw [List.getElem?_eq_none_iff]
        simpa using hlen
      rw [hnone]
    | succ k =>
      have hrest : writeTreeNodes K forestData treeIdx todo (nodeIdx + 1) = none := by
        apply ih (nodeIdx + 1) k (by omega)
        have : nodeIdx + 1 + k = nodeIdx + (k + 1) := by omega
        rw [this]
        exact hlen
      rw [hrest]
      cases forestData[nodeIdx * K.GPUFOREST_NTREES + treeIdx]? <;> rfl

/-- A forest whose node image has fewer rows than there are trees:
`save_structure_to_file` reads a slot outside the node array. -/
theorem save_undefined_of_short_image (K : Consts) (self : GPUForest) (img : ForestImage)
    (himg : self.m_forestImage = some img)
    (hlen : img.data.length = K.GPUFOREST_NTREES * img.height)
    (hsize : self.m_nbNodesPerTree.length = K.GPUFOREST_NTREES)
    (hT : 0 < K.GPUFOREST_NTREES) (hshort : img.height < K.GPUFOREST_NTREES) :
    self.save_structure_to_file K = none := by
  have htree : writeTreeNodes K img.data 0 self.m_nbNodesPerTree.length 0 = none := by
    apply writeTreeNodes_none K img.data 0 _ 0 img.height (by omega)
    rw [hlen, Nat.zero_add, Nat.add_zero, Nat.mul_comm]
  have hall : writeAllNodes K img.data self.m_nbNodesPerTree.length K.GPUFOREST_NTREES 0
      = none := by
    obtain ⟨n, hn⟩ : ∃ n, K.GPUFOREST_NTREES = n + 1 := ⟨K.GPUFOREST_NTREES - 1, by omega⟩
    rw [hn]
    unfold writeAllNodes
    rw [htree]
  unfold GPUForest.save_structure_to_file
  rw [himg]
  cases writeDims self K.GPUFOREST_NTREES 0 with
  | none => rfl
  | some dims => simp only [hall]

/-- C26, at the forest of two single-leaf trees: the constructor builds a node
image of 2 x 1 slots (`maxNodesPerTree` is 1); `save_structure_to_file` visits
slot 1 of tree 0, the element `1 * 2 + 0` of an array of two, so its behaviour is
undefined; and `load_structure_from_file`, on the text the format prescribes for
this forest, allocates the same 2 x 1 image and reads a record into that slot. -/
theorem persistence_slot_out_of_bounds :
    GPUForest.build exampleConsts twoLeafEnsemble = Outcome.ok twoLeafForest ∧
    (∃ img, twoLeafForest.m_forestImage = some img ∧ img.width = 2 ∧ img.height = 1 ∧
      img.data.length = 2 ∧ img.data[1 * 2 + 0]? = none ∧
      writeTreeNodes exampleConsts img.data 0 twoLeafForest.m_nbNodesPerTree.length 0 = none) ∧
    twoLeafForest.save_structure_to_file exampleConsts = none ∧
    formatText exampleConsts twoLeafForest = some twoLeafText ∧
    readTreeNodes exampleConsts 2 0 2 0 (ForestImage.cleared 2 1).data (twoLeafText.drop 5)
      = ReadNodes.outOfBounds ∧
    GPUForest.load_structure_from_file exampleConsts (some twoLeafText) GPUForest.init
      = Outcome.undefined := by
  refine ⟨by decide, ⟨_, rfl, by decide, by decide, by decide, by decide, by decide⟩,
    by decide, by decide, by decide, by decide⟩

/-- The loop of `save_structure_to_file` over the tree dimensions writes the counts
of the trees `i, ..., i + todo - 1` when the two lists hold them. -/
theorem writeDims_eq (self : GPUForest) :
    ∀ (todo i : Nat), i + todo ≤ self.m_nbNodesPerTree.length →
      i + todo ≤ self.m_nbLeavesPerTree.length →
      writeDims self todo i = some (dimTokens ((self.m_nbNodesPerTree.drop i).take todo)
        ((self.m_nbLeavesPerTree.drop i).take todo)) := by
  intro todo
  induction todo with
  | zero =>
    intro i _ _
    simp [writeDims, dimTokens]
  | succ todo ih =>
    intro i hn hl
    have hi1 : i < self.m_nbNodesPerTree.length := by omega
    have hi2 : i < self.m_nbLeavesPerTree.length := by omega
    unfold writeDims
    rw [List.getElem?_eq_getElem hi1, List.getElem?_eq_getElem hi2,
      ih (i + 1) (by omega) (by omega)]
    rw [List.drop_eq_getElem_cons hi1, List.drop_eq_getElem_cons hi2]
    simp [dimTokens]

/-- The loop of `load_structure_from_file` over the tree dimensions, on a text that
begins with the counts of `nodeCounts.length` trees: it reads them all. -/
theorem readDims_dimTokens :
    ∀ (nodeCounts leafCounts : List Int) (i : Nat) (rest : List Token) (self : GPUForest)
      (maxNbNodes totalNbLeaves : Int), nodeCounts.length = leafCounts.length →
      ∃ (s1 : GPUForest) (maxNbNodes' totalNbLeaves' : Int),
        readDims nodeCounts.length i (dimTokens nodeCounts leafCounts ++ rest) self
          maxNbNodes totalNbLeaves = ReadDims.done rest s1 maxNbNodes' totalNbLeaves' ∧
        s1 = { self with
          m_nbNodesPerTree := self.m_nbNodesPerTree ++ nodeCounts
          m_nbLeavesPerTree := self.m_nbLeavesPerTree ++ leafCounts } ∧
        maxNbNodes' = nodeCounts.foldl (fun m n => max n m) maxNbNodes ∧
        (sumsFitInt32 totalNbLeaves leafCounts = true →
          totalNbLeaves' = totalNbLeaves + leafCounts.sum) := by
  intro nodeCounts
  induction nodeCounts with
  | nil =>
    intro leafCounts i rest self mx tot hlen
    cases leafCounts with
    | nil => exact ⟨_, _, _, rfl, by simp, rfl, by simp⟩
    | cons l ls => simp at hlen
  | cons n ns ih =>
    intro leafCounts i rest self mx tot hlen
    cases leafCounts with
    | nil => simp at hlen
    | cons l ls =>
      have hlen' : ns.length = ls.length := by simpa using hlen
      obtain ⟨s1, mx', tot', hrd, hs1, hmx, htot⟩ := ih ls (i + 1) rest
        { self with
          m_nbNodesPerTree := self.m_nbNodesPerTree ++ [n]
          m_nbLeavesPerTree := self.m_nbLeavesPerTree ++ [l] }
        (max n mx) (toInt32 (tot + l)) hlen'
      refine ⟨s1, mx', tot', ?_, ?_, ?_, ?_⟩
      · simp only [List.length_cons, dimTokens, List.cons_append, readDims, readInt]
        exact hrd
      · rw [hs1]
        simp
      · rw [hmx]
        simp
      · intro hfit
        simp only [sumsFitInt32, Bool.and_eq_true, decide_eq_true_eq] at hfit
        obtain ⟨⟨hlo, hhi⟩, hfit'⟩ := hfit
        rw [toInt32_of_range _ hlo hhi] at htot
        rw [htot hfit']
        simp only [List.sum_cons]
        ring

/-- The records the inner loop of `save_structure_to_file` writes for slots inside
the node array, and what the inner loop of `load_structure_from_file` makes of
them: it reads them all into slots inside its own array. -/
theorem writeTreeNodes_readable (K : Consts) (forestData : List GPUForestNode) (treeIdx : Nat) :
    ∀ (todo nodeIdx : Nat),
      (∀ k, k < todo → (nodeIdx + k) * K.GPUFOREST_NTREES + treeIdx < forestData.length) →
      ∃ records, writeTreeNodes K forestData treeIdx todo nodeIdx = some records ∧
        ∀ (target : List GPUForestNode) (rest : List Token),
          (∀ k, k < todo → (nodeIdx + k) * K.GPUFOREST_NTREES + treeIdx < target.length) →
          ∃ target', readTreeNodes K K.GPUFOREST_NTREES treeIdx todo nodeIdx target
              (records ++ rest) = ReadNodes.done target' rest ∧
            target'.length = target.length := by
  intro todo
  induction todo with
  | zero =>
    intro nodeIdx _
    exact ⟨[], rfl, fun target rest _ => ⟨target, rfl, rfl⟩⟩
  | succ todo ih =>
    intro nodeIdx hin
    have h0 : nodeIdx * K.GPUFOREST_NTREES + treeIdx < forestData.length := by
      simpa using hin 0 (by omega)
    obtain ⟨recs, hrecs, hread⟩ := ih (nodeIdx + 1) (by
      intro k hk
      have := hin (k + 1) (by omega)
      have h2 : nodeIdx + 1 + k = nodeIdx + (k + 1) := by omega
      rw [h2]
      exact this)
    refine ⟨Token.int (forestData[nodeIdx * K.GPUFOREST_NTREES + treeIdx]).leftChildIdx
      :: Token.int (forestData[nodeIdx * K.GPUFOREST_NTREES + treeIdx]).leafIdx
      :: Token.int (forestData[nodeIdx * K.GPUFOREST_NTREES + treeIdx]).featureIdx
      :: Token.real
        (K.print7 (forestData[nodeIdx * K.GPUFOREST_NTREES + treeIdx]).featureThreshold)
      :: recs, ?_, ?_⟩
    · unfold writeTreeNodes
      rw [List.getElem?_eq_getElem h0, hrecs]
    · intro target rest htin
      have ht0 : nodeIdx * K.GPUFOREST_NTREES + treeIdx < target.length := by
        simpa using htin 0 (by omega)
      obtain ⟨target', htarget, hlen⟩ := hread
        (target.set (nodeIdx * K.GPUFOREST_NTREES + treeIdx)
          ⟨(forestData[nodeIdx * K.GPUFOREST_NTREES + treeIdx]).leftChildIdx,
            (forestData[nodeIdx * K.GPUFOREST_NTREES + treeIdx]).leafIdx,
            (forestData[nodeIdx * K.GPUFOREST_NTREES + treeIdx]).featureIdx,
            K.print7 (forestData[nodeIdx * K.GPUFOREST_NTREES + treeIdx]).featureThreshold⟩)
        rest (by
          intro k hk
          have := htin (k + 1) (by omega)
          have h2 : nodeIdx + 1 + k = nodeIdx + (k + 1) := by omega
          rw [h2, List.length_set]
          exact this)
      refine ⟨target', ?_, by rw [hlen, List.length_set]⟩
      unfold readTreeNodes
      rw [List.getElem?_eq_getElem ht0]
      simp only [List.cons_append, readNodeRecord, readInt, readFloat]
      exact htarget

/-- The records `save_structure_to_file` writes when every slot it visits is inside
the node array, and what the loops of `load_structure_from_file` make of them. -/
theorem writeAllNodes_readable (K : Consts) (forestData : List GPUForestNode) (size : Nat) :
    ∀ (todo treeIdx : Nat),
      (∀ t k, treeIdx ≤ t → t < treeIdx + todo → k < size →
        k * K.GPUFOREST_NTREES + t < forestData.length) →
      ∃ records, writeAllNodes K forestData size todo treeIdx = some records ∧
        ∀ (target : List GPUForestNode) (rest : List Token),
          (∀ t k, treeIdx ≤ t → t < treeIdx + todo → k < size →
            k * K.GPUFOREST_NTREES + t < target.length) →
          ∃ target', readAllNodes K K.GPUFOREST_NTREES size todo treeIdx target
              (records ++ rest) = ReadNodes.done target' rest ∧
            target'.length = target.length := by
  intro todo
  induction todo with
  | zero =>
    intro treeIdx _
    exact ⟨[], rfl, fun target rest _ => ⟨target, rfl, rfl⟩⟩
  | succ todo ih =>
    intro treeIdx hin
    obtain ⟨recs1, hrecs1, hread1⟩ := writeTreeNodes_readable K forestData treeIdx size 0 (by
      intro k hk
      have := hin treeIdx k (le_refl _) (by omega) hk
      simpa using this)
    obtain ⟨recs2, hrecs2, hread2⟩ := ih (treeIdx + 1) (by
      intro t k h1 h2 hk
      exact hin t k (by omega) (by omega) hk)
    refine ⟨recs1 ++ recs2, ?_, ?_⟩
    · unfold writeAllNodes
      rw [hrecs1, hrecs2]
    · intro target rest htin
      obtain ⟨target1, ht1, hlen1⟩ := hread1 target (recs2 ++ rest) (by
        intro k hk
        have := htin treeIdx k (le_refl _) (by omega) hk
        simpa using this)
      obtain ⟨target2, ht2, hlen2⟩ := hread2 target1 rest (by
        intro t k h1 h2 hk
        rw [hlen1]
        exact htin t k (by omega) (by omega) hk)
      refine ⟨target2, ?_, by rw [hlen2, hlen1]⟩
      unfold readAllNodes
      rw [List.append_assoc, ht1]
      exact ht2

/-- A forest whose node image has at least `GPUFOREST_NTREES` rows and whose largest
node count is at least `GPUFOREST_NTREES` (the sum of the leaf counts being a
non-negative `int`): `save_structure_to_file` writes a text, and
`load_structure_from_file` on that text returns, with the per-tree node counts
and leaf counts of the saved forest. -/
theorem save_load_counts (K : Consts) (self start : GPUForest) (img : ForestImage)
    (himg : self.m_forestImage = some img)
    (hn : self.m_nbNodesPerTree.length = K.GPUFOREST_NTREES)
    (hl : self.m_nbLeavesPerTree.length = K.GPUFOREST_NTREES)
    (hdata : K.GPUFOREST_NTREES * K.GPUFOREST_NTREES ≤ img.data.length)
    (hmax : (K.GPUFOREST_NTREES : Int) ≤ self.m_nbNodesPerTree.foldl (fun m n => max n m) 0)
    (hfit : sumsFitInt32 0 self.m_nbLeavesPerTree = true)
    (hsum : 0 ≤ self.m_nbLeavesPerTree.sum) :
    ∃ text f, self.save_structure_to_file K = some text ∧
      GPUForest.load_structure_from_file K (some text) start = Outcome.ok f ∧
      f.m_nbNodesPerTree = self.m_nbNodesPerTree ∧
      f.m_nbLeavesPerTree = self.m_nbLeavesPerTree := by
  obtain ⟨records, hrec, hread⟩ := writeAllNodes_readable K img.data K.GPUFOREST_NTREES
    K.GPUFOREST_NTREES 0 (by
      intro t k _ ht hk
      have := slot_index_lt (T := K.GPUFOREST_NTREES) (H := K.GPUFOREST_NTREES) (s := k)
        (t := t) (by omega) hk
      omega)
  have hdims : writeDims self K.GPUFOREST_NTREES 0
      = some (dimTokens self.m_nbNodesPerTree self.m_nbLeavesPerTree) := by
    rw [writeDims_eq self K.GPUFOREST_NTREES 0 (by omega) (by omega), List.drop_zero,
      List.drop_zero, List.take_of_length_le (le_of_eq hn), List.take_of_length_le (le_of_eq hl)]
  have hsave : self.save_structure_to_file K = some (Token.int K.GPUFOREST_NTREES
      :: (dimTokens self.m_nbNodesPerTree self.m_nbLeavesPerTree ++ records)) := by
    unfold GPUForest.save_structure_to_file
    rw [hdims, himg]
    simp only [hn, hrec]
  obtain ⟨s1, mx, tot, hrd, hs1, hmx, htot⟩ := readDims_dimTokens self.m_nbNodesPerTree
    self.m_nbLeavesPerTree 0 records
    { start with
      m_forestImage := none
      m_predictionsBlock := none
      m_leafReservoirs := none
      m_nbNodesPerTree := []
      m_nbLeavesPerTree := []
      m_reservoirUpdateStartIdx := 0 } 0 0 (by omega)
  rw [hn] at hrd
  have htot' : tot = self.m_nbLeavesPerTree.sum := by
    rw [htot hfit]
    simp
  have hneg : ¬ tot < 0 := by omega
  have hs1n : s1.m_nbNodesPerTree = self.m_nbNodesPerTree := by
    rw [hs1]
    simp
  have hs1l : s1.m_nbLeavesPerTree = self.m_nbLeavesPerTree := by
    rw [hs1]
    simp
  have hrows : K.GPUFOREST_NTREES ≤ mx.toNat := by
    rw [hmx]
    omega
  obtain ⟨target', htarget, _⟩ := hread
    (ForestImage.cleared K.GPUFOREST_NTREES mx.toNat).data [] (by
      intro t k _ ht hk
      have := slot_index_lt (T := K.GPUFOREST_NTREES) (H := mx.toNat) (s := k)
        (t := t) (by omega) (by omega)
      simp only [ForestImage.cleared, List.length_replicate]
      rw [Nat.mul_comm K.GPUFOREST_NTREES mx.toNat]
      exact this)
  rw [List.append_nil] at htarget
  have hload : ∃ f, GPUForest.load_structure_from_file K (some (Token.int K.GPUFOREST_NTREES
      :: (dimTokens self.m_nbNodesPerTree self.m_nbLeavesPerTree ++ records))) start
        = Outcome.ok f ∧
      f.m_nbNodesPerTree = self.m_nbNodesPerTree ∧
      f.m_nbLeavesPerTree = self.m_nbLeavesPerTree := by
    unfold GPUForest.load_structure_from_file
    simp only [readInt, ne_eq, not_true_eq_false, if_false, hrd, hneg, hs1n, hn, htarget]
    exact ⟨_, rfl, rfl, hs1l⟩
  obtain ⟨f, hf, hfn, hfl⟩ := hload
  exact ⟨_, f, hsave, hf, hfn, hfl⟩


/-- The text `save_structure_to_file` writes, when it writes one, begins with the
tree count and the counts its header loop writes. -/
theorem save_text_header (K : Consts) (self : GPUForest) (dims text : List Token)
    (hdims : writeDims self K.GPUFOREST_NTREES 0 = some dims)
    (hsave : self.save_structure_to_file K = some text) :
    ∃ records, text = Token.int K.GPUFOREST_NTREES :: (dims ++ records) := by
  unfold GPUForest.save_structure_to_file at hsave
  rw [hdims] at hsave
  cases himg : self.m_forestImage with
  | none => simp [himg] at hsave
  | some image =>
    simp only [himg] at hsave
    cases hrec : writeAllNodes K image.data self.m_nbNodesPerTree.length
        K.GPUFOREST_NTREES 0 with
    | none => simp [hrec] at hsave
    | some records =>
      simp only [hrec, Option.some.injEq] at hsave
      exact ⟨records, hsave.symm⟩

/-- A load of a text that begins with the tree count `GPUFOREST_NTREES` and the
counts of that many trees: whenever the load returns, and whenever it throws,
the two per-tree lists of the state are the counts of the text, in their order. -/
theorem load_counts_of_header (K : Consts) (nodeCounts leafCounts : List Int)
    (rest : List Token) (start : GPUForest)
    (hn : nodeCounts.length = K.GPUFOREST_NTREES)
    (hl : leafCounts.length = K.GPUFOREST_NTREES) :
    (∀ f, GPUForest.load_structure_from_file K
        (some (Token.int K.GPUFOREST_NTREES :: (dimTokens nodeCounts leafCounts ++ rest))) start
        = Outcome.ok f →
      f.m_nbNodesPerTree = nodeCounts ∧ f.m_nbLeavesPerTree = leafCounts) ∧
    (∀ what f, GPUForest.load_structure_from_file K
        (some (Token.int K.GPUFOREST_NTREES :: (dimTokens nodeCounts leafCounts ++ rest))) start
        = Outcome.thrown what f →
      f.m_nbNodesPerTree = nodeCounts ∧ f.m_nbLeavesPerTree = leafCounts) := by
  obtain ⟨s1, mx, tot, hrd, hs1, -, -⟩ := readDims_dimTokens nodeCounts leafCounts 0 rest
    { start with
      m_forestImage := none
      m_predictionsBlock := none
      m_leafReservoirs := none
      m_nbNodesPerTree := []
      m_nbLeavesPerTree := []
      m_reservoirUpdateStartIdx := 0 } 0 0 (by omega)
  rw [hn] at hrd
  have hs1n : s1.m_nbNodesPerTree = nodeCounts := by
    rw [hs1]
    simp
  have hs1l : s1.m_nbLeavesPerTree = leafCounts := by
    rw [hs1]
    simp
  constructor
  · intro f h
    unfold GPUForest.load_structure_from_file at h
    simp only [readInt, ne_eq, not_true_eq_false, if_false, hrd] at h
    by_cases hneg : tot < 0
    · simp [hneg] at h
    · simp only [hneg, if_false] at h
      cases h3 : readAllNodes K K.GPUFOREST_NTREES s1.m_nbNodesPerTree.length
          K.GPUFOREST_NTREES 0 (ForestImage.cleared K.GPUFOREST_NTREES mx.toNat).data rest with
      | outOfBounds => simp [h3] at h
      | failed a b c => simp [h3] at h
      | done data rest' =>
        simp only [h3, Outcome.ok.injEq] at h
        subst h
        exact ⟨hs1n, hs1l⟩
  · intro what f h
    unfold GPUForest.load_structure_from_file at h
    simp only [readInt, ne_eq, not_true_eq_false, if_false, hrd] at h
    by_cases hneg : tot < 0
    · simp only [hneg, if_true, Outcome.thrown.injEq] at h
      obtain ⟨-, h⟩ := h
      subst h
      exact ⟨hs1n, hs1l⟩
    · simp only [hneg, if_false] at h
      cases h3 : readAllNodes K K.GPUFOREST_NTREES s1.m_nbNodesPerTree.length
          K.GPUFOREST_NTREES 0 (ForestImage.cleared K.GPUFOREST_NTREES mx.toNat).data rest with
      | outOfBounds => simp [h3] at h
      | done data rest' => simp [h3] at h
      | failed a b c =>
        simp only [h3, Outcome.thrown.injEq] at h
        obtain ⟨-, h⟩ := h
        subst h
        exact ⟨hs1n, hs1l⟩

/-- C23: for every forest state whose per-tree node-count and leaf-count lists have
the length `GPUFOREST_NTREES`, the counts survive `save_structure_to_file`
followed by `load_structure_from_file`, in the same tree order. The header loop
of the save writes `nodeCount_t leafCount_t` for every tree in index order, and
a text the save writes begins with the tree count and these counts. On every
text that begins so, the header loop of the load, started on the emptied lists,
reads the same counts back in the same order, and whenever the load returns or
throws, the two lists of the state are those of the saved forest. When the node
loops stay inside the node arrays (an image of at least `GPUFOREST_NTREES` rows,
a largest node count of at least `GPUFOREST_NTREES`) and the leaf counts sum to
a non-negative `int`, the save writes a text and the load of it returns. -/
theorem save_load_counts_reproduced (K : Consts) (self start : GPUForest)
    (hn : self.m_nbNodesPerTree.length = K.GPUFOREST_NTREES)
    (hl : self.m_nbLeavesPerTree.length = K.GPUFOREST_NTREES) :
    writeDims self K.GPUFOREST_NTREES 0
      = some (dimTokens self.m_nbNodesPerTree self.m_nbLeavesPerTree) ∧
    (∀ text, self.save_structure_to_file K = some text →
      ∃ records, text = Token.int K.GPUFOREST_NTREES
        :: (dimTokens self.m_nbNodesPerTree self.m_nbLeavesPerTree ++ records)) ∧
    (∀ (rest : List Token) (s : GPUForest), s.m_nbNodesPerTree = [] → s.m_nbLeavesPerTree = [] →
      ∃ s1 maxNbNodes totalNbLeaves,
        readDims K.GPUFOREST_NTREES 0
          (dimTokens self.m_nbNodesPerTree self.m_nbLeavesPerTree ++ rest) s 0 0
          = ReadDims.done rest s1 maxNbNodes totalNbLeaves ∧
        s1.m_nbNodesPerTree = self.m_nbNodesPerTree ∧
        s1.m_nbLeavesPerTree = self.m_nbLeavesPerTree) ∧
    (∀ (rest : List Token) (f : GPUForest),
      GPUForest.load_structure_from_file K (some (Token.int K.GPUFOREST_NTREES
        :: (dimTokens self.m_nbNodesPerTree self.m_nbLeavesPerTree ++ rest))) start
        = Outcome.ok f →
      f.m_nbNodesPerTree = self.m_nbNodesPerTree ∧
      f.m_nbLeavesPerTree = self.m_nbLeavesPerTree) ∧
    (∀ (rest : List Token) (what : String) (f : GPUForest),
      GPUForest.load_structure_from_file K (some (Token.int K.GPUFOREST_NTREES
        :: (dimTokens self.m_nbNodesPerTree self.m_nbLeavesPerTree ++ rest))) start
        = Outcome.thrown what f →
      f.m_nbNodesPerTree = self.m_nbNodesPerTree ∧
      f.m_nbLeavesPerTree = self.m_nbLeavesPerTree) ∧
    (∀ img, self.m_forestImage = some img →
      K.GPUFOREST_NTREES * K.GPUFOREST_NTREES ≤ img.data.length →
      (K.GPUFOREST_NTREES : Int) ≤ self.m_nbNodesPerTree.foldl (fun m n => max n m) 0 →
      sumsFitInt32 0 self.m_nbLeavesPerTree = true → 0 ≤ self.m_nbLeavesPerTree.sum →
      ∃ text f, self.save_structure_to_file K = some text ∧
        GPUForest.load_structure_from_file K (some text) start = Outcome.ok f ∧
        f.m_nbNodesPerTree = self.m_nbNodesPerTree ∧
        f.m_nbLeavesPerTree = self.m_nbLeavesPerTree) := by
  have hdims : writeDims self K.GPUFOREST_NTREES 0
      = some (dimTokens self.m_nbNodesPerTree self.m_nbLeavesPerTree) := by
    rw [writeDims_eq self K.GPUFOREST_NTREES 0 (by omega) (by omega), List.drop_zero,
      List.drop_zero, List.take_of_length_le (le_of_eq hn), List.take_of_length_le (le_of_eq hl)]
  refine ⟨hdims, fun text h => save_text_header K self _ text hdims h, ?_, ?_, ?_, ?_⟩
  · intro rest s hsn hsl
    obtain ⟨s1, mx, tot, hrd, hs1, -, -⟩ := readDims_dimTokens self.m_nbNodesPerTree
      self.m_nbLeavesPerTree 0 rest s 0 0 (by omega)
    rw [hn] at hrd
    refine ⟨s1, mx, tot, hrd, ?_, ?_⟩
    · rw [hs1]
      simp [hsn]
    · rw [hs1]
      simp [hsl]
  · intro rest f h
    exact (load_counts_of_header K _ _ rest start hn hl).1 f h
  · intro rest what f h
    exact (load_counts_of_header K _ _ rest start hn hl).2 what f h
  · intro img himg hdata hmax hfit hsum
    exact save_load_counts K self start img himg hn hl hdata hmax hfit hsum

/-- Witness of C23. The forest of two single-leaf trees (node image of 2 x 1 slots):
the header loop writes `1 1 / 1 1`, the header loop of the load reads `[1, 1]`
and `[1, 1]` back, and the load of the tree count, these counts and one node
record throws at node 1 of tree 0 with these lists in place. The forest of the
example (node image of 2 x 3 slots, counts `1 1 / 3 2`): the save writes a text
and the load of it returns with the lists `[1, 3]` and `[1, 2]`. -/
theorem save_load_counts_reproduced_witness :
    (twoLeafForest.m_nbNodesPerTree.length = exampleConsts.GPUFOREST_NTREES ∧
      twoLeafForest.m_nbLeavesPerTree.length = exampleConsts.GPUFOREST_NTREES ∧
      writeDims twoLeafForest 2 0
        = some [Token.int 1, Token.int 1, Token.int 1, Token.int 1] ∧
      (∀ rest : List Token, ∃ s1 maxNbNodes totalNbLeaves,
        readDims 2 0 ([Token.int 1, Token.int 1, Token.int 1, Token.int 1] ++ rest)
          GPUForest.init 0 0 = ReadDims.done rest s1 maxNbNodes totalNbLeaves ∧
        s1.m_nbNodesPerTree = [1, 1] ∧ s1.m_nbLeavesPerTree = [1, 1]) ∧
      ∃ f, GPUForest.load_structure_from_file exampleConsts (some (twoLeafText.take 9))
          GPUForest.init = Outcome.thrown "Error reading node 1 of tree 0" f ∧
        f.m_nbNodesPerTree = [1, 1] ∧ f.m_nbLeavesPerTree = [1, 1]) ∧
    (exampleForest.m_nbNodesPerTree.length = exampleConsts.GPUFOREST_NTREES ∧
      exampleForest.m_nbLeavesPerTree.length = exampleConsts.GPUFOREST_NTREES ∧
      ∃ text f, exampleForest.save_structure_to_file exampleConsts = some text ∧
        GPUForest.load_structure_from_file exampleConsts (some text) GPUForest.init
          = Outcome.ok f ∧
        f.m_nbNodesPerTree = [1, 3] ∧ f.m_nbLeavesPerTree = [1, 2]) :=
  ⟨⟨by decide, by decide,
      (save_load_counts_reproduced exampleConsts twoLeafForest GPUForest.init
        (by decide) (by decide)).1,
      fun rest =>
        (save_load_counts_reproduced exampleConsts twoLeafForest GPUForest.init
          (by decide) (by decide)).2.2.1 rest GPUForest.init rfl rfl,
      ⟨_, rfl,
        (save_load_counts_reproduced exampleConsts twoLeafForest GPUForest.init
          (by decide) (by decide)).2.2.2.2.1 [Token.int (-1), Token.int 0, Token.int 0,
            Token.real 0] _ _ rfl⟩⟩,
    ⟨by decide, by decide,
      (save_load_counts_reproduced exampleConsts exampleForest GPUForest.init
        (by decide) (by decide)).2.2.2.2.2 _ rfl (by decide) (by decide) (by decide)
        (by decide)⟩⟩

end spaint
